import Mathlib

/-!
# Akaros: core allocation, semaphores, kernel messages and trap reflection

A shallow embedding of `kern/src/resource.c` (`core_request`, `resource_req`),
of the semaphore of `kern/include/kthread.h`, and of the kernel-message and
trap-reflection code of `kern/src/trap.c`. The notes below are about
`resource.c`; the other parts are introduced where their definitions start.

* The kernel is single-stepped sequentially: the spin locks taken by the C code
  (`proc_lock`, `idle_lock`) delimit critical sections and have no effect on the
  sequential result, so they are not represented.
* `size_t` values are natural numbers; `size_t` arithmetic is taken modulo
  `2 ^ WORD_BITS`, and the `ssize_t` difference `amt_new` is the two's-complement
  reading of the wrapped difference.
* Calls into code outside `resource.c` whose bodies are not part of this
  development (`__proc_give_cores`, `proc_run`, ...) are recorded, in order, in
  the `calls` trace of the kernel state. Each such call is taken to come back
  to `core_request`, with two exceptions: `abandon_core`, after which, as the
  comment at lines 143-146 says, the function does not return, and
  `__proc_unlock_ipi_pending` in the full deallocation when
  `__proc_take_allcores` reported a pending self-IPI (lines 54-57). The cores
  that `__proc_give_cores` receives come from the idle map, which does not
  hold the calling core, so no self-IPI is pending after it.
* `__proc_take_allcores` is also given its effect on `amt_granted` and its
  return value, as the spec and the comments of `core_request` describe them.
* `printk`/`printd` output is not represented.
-/

namespace Akaros

/-! ## Constants taken from headers -/

/-- Constants that `resource.c` uses but that are declared in headers outside the
    sources at hand (`resource.h`, `process.h`, `error.h`); they are parameters of
    the embedding. `WORD_BITS` is the width of `size_t`/`ssize_t`. -/
structure Params where
  WORD_BITS : Nat
  RES_CORES : Int
  RES_MEMORY : Int
  RES_APPLE_PIES : Int
  ESUCCESS : Int
  EINVAL : Int
  EFAIL : Int
  PROC_TRANSITION_TO_M : Nat
deriving DecidableEq, Repr

/-- The three `case` labels of the `switch` in `resource_req` are distinct (C
    rejects duplicate labels) and the two error numbers are positive. -/
def Params.wf (c : Params) : Prop :=
  c.RES_CORES ≠ c.RES_MEMORY ∧ c.RES_CORES ≠ c.RES_APPLE_PIES ∧
  c.RES_MEMORY ≠ c.RES_APPLE_PIES ∧ 0 < c.EINVAL ∧ 0 < c.EFAIL

instance (c : Params) : Decidable c.wf := by
  unfold Params.wf; infer_instance

/-! ## Data model -/

/-- One entry of `p->resources[]` (`struct resource`). -/
structure resource where
  amt_wanted : Nat
  amt_wanted_min : Nat
  amt_granted : Nat
  flags : Nat
deriving DecidableEq, Repr, Inhabited

/-- Values of `p->state`. The four states named in `core_request` are spelled
    out; every other state of `process.h` is `PROC_OTHER`. -/
inductive proc_state where
  | PROC_RUNNABLE_S
  | PROC_RUNNING_S
  | PROC_RUNNABLE_M
  | PROC_RUNNING_M
  | PROC_OTHER (bits : Nat)
deriving DecidableEq, Repr

/-- A trap frame: the register that carries the system-call return value, and
    the rest of the saved context. -/
structure trapframe where
  regs : Nat
  retval : Int
deriving DecidableEq, Repr, Inhabited

/-- One slot of `p->procinfo->vcoremap[]`. -/
structure vcore_map where
  valid : Bool
  pcoreid : Nat
deriving DecidableEq, Repr, Inhabited

/-- The fields of `struct proc` (and of its `procinfo`) that `resource.c` touches. -/
structure proc where
  pid : Nat
  state : proc_state
  resources : List resource
  env_tf : trapframe
  env_flags : Nat
  vcoremap : List vcore_map
  coremap_seqctr : Nat
deriving DecidableEq, Repr

/-- Calls that leave `resource.c`; the trace keeps them in program order.
    `proc_take_allcores_death` is `__proc_take_allcores(p, __death, 0, 0, 0)`;
    `proc_unlock_ipi_pending` receives the value returned by the call logged
    just before it. -/
inductive ext_call where
  | env_push_ancillary_state
  | proc_take_allcores_death
  | schedule_proc
  | proc_unlock_ipi_pending
  | proc_give_cores (corelist : List Nat) (num : Nat)
  | proc_run
  | proc_decref (count : Nat)
  | abandon_core
deriving DecidableEq, Repr

/-- Kernel state seen by `core_request` running on one core for process `p`:
    the process, the idle-core map (`idlecoremap[]`, `num_idlecores`), the
    per-core `current` (by pid), `core_id()`, `*current_tf`, and the trace of
    external calls. -/
structure kernel where
  p : proc
  idlecoremap : List Nat
  num_idlecores : Nat
  current : Option Nat
  core_id : Nat
  current_tf : trapframe
  calls : List ext_call
deriving DecidableEq, Repr

/-- How a call ends: it returns a value, it halts the kernel (`panic` or a failed
    `assert`), it never returns because the core was abandoned to the idle loop,
    or it accessed `p->resources[]` outside the table (undefined behaviour). -/
inductive outcome where
  | returned (v : Int)
  | halted
  | no_return
  | out_of_bounds
deriving DecidableEq, Repr

/-! ## Helpers -/

/-- The idle pool proper: the first `num_idlecores` slots of `idlecoremap`. -/
def idle_pool (k : kernel) : List Nat := k.idlecoremap.take k.num_idlecores

/-- Whether `type` indexes a slot of `p->resources[MAX_NUM_RESOURCES]`. -/
def in_table (p : proc) (type : Int) : Prop :=
  0 ≤ type ∧ type < (p.resources.length : Int)

instance (p : proc) (type : Int) : Decidable (in_table p type) := by
  unfold in_table; infer_instance

/-- Read `p->resources[type]` (for `type` inside the table). -/
def res_at (p : proc) (type : Int) : resource :=
  p.resources.getD type.toNat default

/-- Write `p->resources[type] = r` (for `type` inside the table). -/
def set_res (p : proc) (type : Int) (r : resource) : proc :=
  { p with resources := p.resources.set type.toNat r }

/-- Replace the process inside the kernel state. -/
def set_p (k : kernel) (p : proc) : kernel := { k with p := p }

/-- Store a new value in the global `num_idlecores`. -/
def set_num_idlecores (k : kernel) (n : Nat) : kernel := { k with num_idlecores := n }

/-- Append one external call to the trace. -/
def log_call (k : kernel) (e : ext_call) : kernel := { k with calls := k.calls ++ [e] }

/-- Conversion of a wrapped word to `ssize_t`: the two's-complement value of
    `x mod 2 ^ WORD_BITS`. -/
def to_ssize (c : Params) (x : Int) : Int :=
  let m := x % (2 : Int) ^ c.WORD_BITS
  if m < (2 : Int) ^ (c.WORD_BITS - 1) then m else m - (2 : Int) ^ c.WORD_BITS

/-- The value `amt_new = amt_wanted - amt_granted` of lines 64-65: a `size_t`
    subtraction stored into an `ssize_t`. -/
def amt_new (c : Params) (r : resource) : Int :=
  to_ssize c ((r.amt_wanted : Int) - (r.amt_granted : Int))

/-- Modelled from the spec: `proc_set_syscall_retval` (arch code) "records a
    successful return value for the pending call" in the given frame. -/
def proc_set_syscall_retval (tf : trapframe) (v : Int) : trapframe :=
  { tf with retval := v }

/-- Modelled from the spec: `__proc_set_state` (process.c) makes the transition
    `state = s`. -/
def __proc_set_state (p : proc) (s : proc_state) : proc := { p with state := s }

/-- Modelled from the spec: `__unmap_vcore` (process.c) removes the mapping of
    virtual core `vcoreid`. -/
def __unmap_vcore (p : proc) (vcoreid : Nat) : proc :=
  { p with vcoremap :=
      p.vcoremap.set vcoreid { p.vcoremap.getD vcoreid default with valid := false } }

/-- Modelled from the spec: the sequence-counter writer "increments counter
    before and after mutation"; this is the increment before. -/
def __seq_start_write (p : proc) : proc :=
  { p with coremap_seqctr := p.coremap_seqctr + 1 }

/-- Modelled from the spec: the increment after the mutation. -/
def __seq_end_write (p : proc) : proc :=
  { p with coremap_seqctr := p.coremap_seqctr + 1 }

/-! ## `core_request` -/

/-- The loop of lines 83-87: `n` more iterations, each storing
    `idlecoremap[num_idlecores-1]` in the next slot of `corelist` and
    decrementing `num_idlecores`. Returns the final `corelist` and
    `num_idlecores`. -/
def grab_loop (idlecoremap : List Nat) : Nat → Nat → List Nat → List Nat × Nat
  | 0, num_idlecores, corelist => (corelist, num_idlecores)
  | n + 1, num_idlecores, corelist =>
      grab_loop idlecoremap n (num_idlecores - 1)
        (corelist ++ [idlecoremap.getD (num_idlecores - 1) 0])

/-- Lines 81-92: all-or-nothing grab from the idle map. Returns `corelist`, the
    new `num_idlecores` and `num_granted`. -/
def grab_idle (k : kernel) (amt_new : Int) : List Nat × Nat × Nat :=
  if amt_new ≤ (k.num_idlecores : Int) then
    let r := grab_loop k.idlecoremap amt_new.toNat k.num_idlecores []
    (r.1, r.2, amt_new.toNat)
  else
    ([], k.num_idlecores, 0)

/-- Modelled from the spec: `__proc_take_allcores(p, __death, 0, 0, 0)`
    (process.c) is the "take all cores from process" primitive, which "reclaims
    all cores owned by the process by sending each a die instruction". After it
    no core is attributed to the process, and `amt_granted` of the cores entry,
    which the spec keeps equal to "the number of physical cores currently
    attributed to this process", is 0. The value returned is the
    `self_ipi_pending` of lines 54-57: whether the calling core is one of the
    cores taken, that is a valid slot of `vcoremap[]` names `core_id()`. The
    call is logged; the cores taken are read off the trace by `reclaimed`. -/
def __proc_take_allcores (c : Params) (k : kernel) : kernel × Bool :=
  let self_ipi_pending := k.p.vcoremap.any (fun v => v.valid && v.pcoreid == k.core_id)
  let k := log_call k ext_call.proc_take_allcores_death
  let cores := res_at k.p c.RES_CORES
  (set_p k (set_res k.p c.RES_CORES { cores with amt_granted := 0 }), self_ipi_pending)

/-- Lines 48-62: the full deallocation branch (`amt_wanted == 0`). When
    `__proc_take_allcores` returned true, `__proc_unlock_ipi_pending` does not
    come back ("we will not return down below", lines 54-57) and `return 0` is
    not reached. -/
def full_dealloc (c : Params) (k : kernel) : kernel × outcome :=
  if k.p.state ≠ proc_state.PROC_RUNNING_M then (k, outcome.halted)
  else
    let k := set_p k { k.p with env_tf := k.current_tf }
    let k := log_call k ext_call.env_push_ancillary_state
    let k := set_p k { k.p with env_tf := proc_set_syscall_retval k.p.env_tf c.ESUCCESS }
    let r := __proc_take_allcores c k
    let k := set_p r.1 (__proc_set_state r.1.p proc_state.PROC_RUNNABLE_S)
    let k := log_call k ext_call.schedule_proc
    let k := log_call k ext_call.proc_unlock_ipi_pending
    if r.2 then (k, outcome.no_return) else (k, outcome.returned 0)

/-- Lines 97-125: the `PROC_RUNNING_S` case after the caller check, up to the
    `break`. -/
def running_s_transition (c : Params) (k : kernel) : kernel :=
  let k := set_p k { k.p with env_tf := k.current_tf }
  let k := log_call k ext_call.env_push_ancillary_state
  let k := set_p k { k.p with env_tf := proc_set_syscall_retval k.p.env_tf c.ESUCCESS }
  let k := set_p k (__seq_start_write k.p)
  let k := set_p k (__unmap_vcore k.p 0)
  let k := set_p k (__seq_end_write k.p)
  let k := set_p k (__proc_set_state k.p proc_state.PROC_RUNNABLE_M)
  set_p k { k.p with env_flags := k.p.env_flags ||| c.PROC_TRANSITION_TO_M }

/-- Lines 136-150: hand the cores over, run the process if it is
    `PROC_RUNNABLE_M`, and idle the calling core if required. -/
def hand_over (k : kernel) (corelist : List Nat) (num_granted : Nat)
    (need_to_idle : Bool) : kernel × outcome :=
  let k := log_call k (ext_call.proc_give_cores corelist num_granted)
  let k := log_call k ext_call.proc_unlock_ipi_pending
  let k := if k.p.state = proc_state.PROC_RUNNABLE_M then log_call k ext_call.proc_run else k
  if need_to_idle then
    let k := log_call k (ext_call.proc_decref 1)
    let k := log_call k ext_call.abandon_core
    (k, outcome.no_return)
  else
    (k, outcome.returned (num_granted : Int))

/-- Line 95: `p->resources[RES_CORES].amt_granted += num_granted`, a `size_t`
    addition. -/
def add_granted (c : Params) (k : kernel) (num_granted : Nat) : kernel :=
  let cores := res_at k.p c.RES_CORES
  set_p k (set_res k.p c.RES_CORES
    { cores with amt_granted := (cores.amt_granted + num_granted) % 2 ^ c.WORD_BITS })

/-- Lines 94-150: the `if (num_granted)` branch. `k` already has the reduced
    `num_idlecores`. -/
def give_out (c : Params) (k : kernel) (corelist : List Nat) (num_granted : Nat) :
    kernel × outcome :=
  let k := add_granted c k num_granted
  match k.p.state with
  | proc_state.PROC_RUNNING_S =>
      if k.current ≠ some k.p.pid ∨ (k.p.vcoremap.getD 0 default).pcoreid ≠ k.core_id then
        (k, outcome.halted)
      else
        hand_over (running_s_transition c k) corelist num_granted true
  | proc_state.PROC_RUNNABLE_S => (k, outcome.halted)
  | _ => hand_over k corelist num_granted false

/-- The function `core_request` of `resource.c`. -/
def core_request (c : Params) (k : kernel) : kernel × outcome :=
  if ¬ in_table k.p c.RES_CORES then (k, outcome.out_of_bounds)
  else if (res_at k.p c.RES_CORES).amt_wanted = 0 then full_dealloc c k
  else
    let cores := res_at k.p c.RES_CORES
    let amt_new := amt_new c cores
    if amt_new < 0 then
      (set_p k (set_res k.p c.RES_CORES { cores with amt_wanted := cores.amt_granted }),
        outcome.returned (-c.EINVAL))
    else if amt_new = 0 then (k, outcome.returned 0)
    else
      let g := grab_idle k amt_new
      let k := set_num_idlecores k g.2.1
      if g.2.2 ≠ 0 then give_out c k g.1 g.2.2
      else (k, outcome.returned (g.2.2 : Int))

/-! ## `resource_req` -/

/-- Lines 168-173: store the request in `p->resources[type]`. -/
def record_request (k : kernel) (type : Int) (amt_wanted amt_wanted_min flags : Nat) :
    kernel :=
  set_p k (set_res k.p type
    { res_at k.p type with
      amt_wanted := amt_wanted
      amt_wanted_min := min amt_wanted_min amt_wanted
      flags := flags })

/-- Lines 175-200: the early return on an unchanged amount and the `switch`.
    `k` is the state after `record_request`. -/
def dispatch (c : Params) (k : kernel) (type : Int) (old_amount amt_wanted : Nat) :
    kernel × outcome :=
  if old_amount = amt_wanted then (k, outcome.returned 0)
  else if type = c.RES_CORES then
    let r := core_request c k
    match r.2 with
    | outcome.returned retval =>
        if retval < 0 then (r.1, outcome.returned retval) else (r.1, outcome.returned 0)
    | o => (r.1, o)
  else if type = c.RES_MEMORY then (k, outcome.returned (-c.EFAIL))
  else if type = c.RES_APPLE_PIES then (k, outcome.returned 0)
  else (k, outcome.returned (-c.EINVAL))

/-- The function `resource_req` of `resource.c`. The table is indexed with
    `type` before any check of `type`. -/
def resource_req (c : Params) (k : kernel) (type : Int)
    (amt_wanted amt_wanted_min flags : Nat) : kernel × outcome :=
  if ¬ in_table k.p type then (k, outcome.out_of_bounds)
  else
    let old_amount := (res_at k.p type).amt_wanted
    dispatch c (record_request k type amt_wanted amt_wanted_min flags) type
      old_amount amt_wanted

/-- Range of the two amounts of the cores entry: `amt_wanted` is a `size_t`, and
    `amt_granted`, the number of cores attributed to the process, is also
    representable as a non-negative `ssize_t`. -/
def cores_wf (c : Params) (r : resource) : Prop :=
  r.amt_wanted < 2 ^ c.WORD_BITS ∧ r.amt_granted < 2 ^ (c.WORD_BITS - 1)

instance (c : Params) (r : resource) : Decidable (cores_wf c r) := by
  unfold cores_wf; infer_instance

/-! ## Concrete instances used to evaluate the definitions -/

/-- A 32-bit configuration with the three resource kinds numbered 0, 1, 2. -/
def params32 : Params :=
  { WORD_BITS := 32, RES_CORES := 0, RES_MEMORY := 1, RES_APPLE_PIES := 2,
    ESUCCESS := 0, EINVAL := 7, EFAIL := 1, PROC_TRANSITION_TO_M := 1 }

/-- A process with a three-entry resource table, `wanted` / `granted` cores, in
    state `s`, whose vcore 0 is mapped to physical core 0. -/
def mk_proc (s : proc_state) (wanted granted : Nat) : proc :=
  { pid := 1, state := s,
    resources := [⟨wanted, 0, granted, 0⟩, ⟨0, 0, 0, 0⟩, ⟨0, 0, 0, 0⟩],
    env_tf := ⟨0, 99⟩, env_flags := 0,
    vcoremap := [⟨true, 0⟩], coremap_seqctr := 0 }

/-- A kernel state on core 0 running `p`, with the given idle cores. -/
def mk_kernel (p : proc) (idle : List Nat) : kernel :=
  { p := p, idlecoremap := idle, num_idlecores := idle.length,
    current := some p.pid, core_id := 0, current_tf := ⟨42, 5⟩, calls := [] }

/-- A `PROC_RUNNING_M` process with three cores granted, its vcores 0, 1 and 2
    mapped to the physical cores 0, 1 and 2, and `wanted` cores wanted. -/
def mk_mcp (wanted : Nat) : proc :=
  { mk_proc proc_state.PROC_RUNNING_M wanted 3 with
    vcoremap := [⟨true, 0⟩, ⟨true, 1⟩, ⟨true, 2⟩] }

/-- The state `mk_kernel p idle` seen from core `core` on which no process is
    current, for a call made on behalf of `p` from a core that is not one of
    its own. -/
def mk_kernel_at (p : proc) (idle : List Nat) (core : Nat) : kernel :=
  { mk_kernel p idle with core_id := core, current := none }

/-! ## Kernel threads and semaphores (`kern/include/kthread.h`)

The semaphore's spin lock is not represented (sequential execution). A kthread
pointer is `none` for `NULL` and `some a` for the kthread at address `a`; the
`waiters` tail queue is the list of the queued kthreads, head first.
`nr_signals` is a C `int` of `INT_BITS` bits: `sem->nr_signals--` at `INT_MIN`
and `sem->nr_signals++` at `INT_MAX` overflow, and the embedding stores the
two's-complement value that the compiled kernel is left with (`wrap_int`). -/

/-- Width of the C type `int` on the machines the kernel is built for. -/
def INT_BITS : Nat := 32

/-- The smallest `int`. -/
def INT_MIN : Int := -(2 : Int) ^ (INT_BITS - 1)

/-- The largest `int`. -/
def INT_MAX : Int := (2 : Int) ^ (INT_BITS - 1) - 1

/-- The `int` left in a variable by an arithmetic result `x`: the value of `x`
    modulo `2 ^ INT_BITS` in the range `INT_MIN .. INT_MAX`. -/
def wrap_int (x : Int) : Int := (x - INT_MIN) % (2 : Int) ^ INT_BITS + INT_MIN

/-- The values an `int` can hold. -/
def int_range (x : Int) : Prop := INT_MIN ≤ x ∧ x ≤ INT_MAX

instance (x : Int) : Decidable (int_range x) := by
  unfold int_range; infer_instance

/-- How a call of the code of `kthread.h` and `trap.c` ends: it returns a value,
    it halts the kernel (`panic` or a failed `assert`), it never returns to its
    caller (the core entered the idle loop), or it made an invalid memory access
    (a null pointer dereference or an index outside an array). -/
inductive result (α : Type) where
  | returned (v : α)
  | halted
  | no_return
  | fault
deriving DecidableEq, Repr

/-- The fields `waiters` and `nr_signals` of `struct semaphore`. -/
structure semaphore where
  waiters : List Nat
  nr_signals : Int
deriving DecidableEq, Repr

/-- The function `init_sem` of `kthread.h`; `signals` is an `int`. -/
def init_sem (signals : Int) : semaphore :=
  { waiters := [], nr_signals := signals }

/-- The function `__down_sem` of `kthread.h`: the condition reads `nr_signals`,
    decrements it, and only then tests `kthread != NULL`. -/
def __down_sem (sem : semaphore) (kthread : Option Nat) : semaphore × Bool :=
  let old := sem.nr_signals
  let sem := { sem with nr_signals := wrap_int (sem.nr_signals - 1) }
  if old ≤ 0 then
    match kthread with
    | some kt => ({ sem with waiters := sem.waiters ++ [kt] }, true)
    | none => (sem, false)
  else (sem, false)

/-- The function `__up_sem` of `kthread.h`. With an empty queue in the first
    branch `TAILQ_FIRST` is `NULL`; the code warns and then `TAILQ_REMOVE`
    dereferences that null pointer. -/
def __up_sem (sem : semaphore) (exactly_one : Bool) : semaphore × result (Option Nat) :=
  let old := sem.nr_signals
  let sem := { sem with nr_signals := wrap_int (sem.nr_signals + 1) }
  if old < 0 then
    match sem.waiters with
    | [] => (sem, result.fault)
    | kthread :: rest =>
        let sem := { sem with waiters := rest }
        if exactly_one = true ∧ sem.waiters ≠ [] then (sem, result.halted)
        else (sem, result.returned (some kthread))
  else
    if sem.waiters ≠ [] then (sem, result.halted)
    else (sem, result.returned none)

/-- Sequential `__down_sem` calls on one semaphore, one per kthread of the list;
    returns the final semaphore and the values returned, in call order. -/
def down_seq (sem : semaphore) : List (Option Nat) → semaphore × List Bool
  | [] => (sem, [])
  | kthread :: rest =>
      let r := __down_sem sem kthread
      let s := down_seq r.1 rest
      (s.1, r.2 :: s.2)

/-- Up to `n` sequential `__up_sem` calls on one semaphore; returns the final
    semaphore and how each call ended, in call order. The sequence stops after
    a call that does not return. -/
def up_seq (sem : semaphore) (exactly_one : Bool) :
    Nat → semaphore × List (result (Option Nat))
  | 0 => (sem, [])
  | n + 1 =>
      let r := __up_sem sem exactly_one
      match r.2 with
      | result.returned v =>
          let s := up_seq r.1 exactly_one n
          (s.1, result.returned v :: s.2)
      | o => (r.1, [o])

/-! ## Kernel messages (`kern/src/trap.c`)

The queue locks are not represented (sequential execution). `kmem_cache_alloc`
is taken to hand out a message node. The handlers `pc` are code outside
`trap.c`: their invocation is recorded, with its arguments, in the `events`
trace, and they are taken not to touch the message queues. The handler of an
immediate message comes back (interrupt context); the handler of a routine
message need not ("routine messages do not have to return"), and whether it
does is given by a function of the message and of the state in which the
handler is invoked. -/

/-- Constants of the kernel-message code declared in headers outside the sources
    at hand (`trap.h`, `kthread.h`, arch headers). -/
structure KmsgParams where
  KMSG_IMMEDIATE : Int
  KMSG_ROUTINE : Int
  KTH_KTASK_FLAGS : Nat
  I_KERNEL_MSG : Nat
deriving DecidableEq, Repr

/-- The fields of `struct kernel_message` (`kernel_message_t`); `pc` is the
    handler's address, 0 for a null pointer. -/
structure kernel_message where
  srcid : Nat
  dstid : Nat
  pc : Nat
  arg0 : Int
  arg1 : Int
  arg2 : Int
deriving DecidableEq, Repr

/-- The fields of `struct per_cpu_info` used by the kernel-message code: the two
    tail queues (head first) and the flags of `cur_kthread`. -/
structure kmsg_cpu where
  immed_amsgs : List kernel_message
  routine_amsgs : List kernel_message
  cur_kthread_flags : Nat
deriving DecidableEq, Repr, Inhabited

/-- What the kernel-message code does outside its own data, in program order. -/
inductive kmsg_event where
  | kmem_cache_alloc
  | kmem_cache_free (kmsg : kernel_message)
  | send_ipi (dst : Nat) (vector : Nat)
  | pcpui_trace_kmsg (core : Nat) (pc : Nat)
  | handler (pc : Nat) (srcid : Nat) (arg0 arg1 arg2 : Int)
  | smp_idle
deriving DecidableEq, Repr

/-- The state seen by the kernel-message code running on core `core_id`: the
    array `per_cpu_info[]`, whether IRQs are enabled on this core, and the
    trace of events. -/
structure kmsg_state where
  per_cpu_info : List kmsg_cpu
  core_id : Nat
  irq_enabled : Bool
  events : List kmsg_event
deriving DecidableEq, Repr

/-- Read `per_cpu_info[core]` (for `core` inside the array). -/
def pcpui_at (s : kmsg_state) (core : Nat) : kmsg_cpu :=
  s.per_cpu_info.getD core default

/-- Write `per_cpu_info[core] = v` (for `core` inside the array). -/
def set_pcpui (s : kmsg_state) (core : Nat) (v : kmsg_cpu) : kmsg_state :=
  { s with per_cpu_info := s.per_cpu_info.set core v }

/-- The same state seen from core `core` (the value of `core_id()` there). -/
def on_core (s : kmsg_state) (core : Nat) : kmsg_state := { s with core_id := core }

/-- Append one event to the trace. -/
def log_event (s : kmsg_state) (e : kmsg_event) : kmsg_state :=
  { s with events := s.events ++ [e] }

/-- The function `send_kernel_message` of `trap.c`. -/
def send_kernel_message (c : KmsgParams) (s : kmsg_state) (dst pc : Nat)
    (arg0 arg1 arg2 : Int) (type : Int) : kmsg_state × result Nat :=
  if pc = 0 then (s, result.halted)
  else
    let s := log_event s kmsg_event.kmem_cache_alloc
    let k_msg : kernel_message :=
      { srcid := s.core_id, dstid := dst, pc := pc, arg0 := arg0, arg1 := arg1, arg2 := arg2 }
    if type = c.KMSG_IMMEDIATE then
      if ¬ dst < s.per_cpu_info.length then (s, result.fault)
      else
        let s := set_pcpui s dst
          { pcpui_at s dst with immed_amsgs := (pcpui_at s dst).immed_amsgs ++ [k_msg] }
        let s := log_event s (kmsg_event.send_ipi dst c.I_KERNEL_MSG)
        (s, result.returned 0)
    else if type = c.KMSG_ROUTINE then
      if ¬ dst < s.per_cpu_info.length then (s, result.fault)
      else
        let s := set_pcpui s dst
          { pcpui_at s dst with routine_amsgs := (pcpui_at s dst).routine_amsgs ++ [k_msg] }
        let s := if dst ≠ k_msg.srcid then log_event s (kmsg_event.send_ipi dst c.I_KERNEL_MSG)
          else s
        (s, result.returned 0)
    else (s, result.halted)

/-- The body of the `STAILQ_FOREACH_SAFE` loop of `handle_kmsg_ipi`, iterated
    over the nodes from `kmsg_i` on: trace, run the handler, unlink the node
    (the head of the queue), free it. -/
def handle_kmsg_loop (s : kmsg_state) : List kernel_message → kmsg_state
  | [] => s
  | kmsg_i :: temp =>
      let s := log_event s (kmsg_event.pcpui_trace_kmsg s.core_id kmsg_i.pc)
      let s := log_event s
        (kmsg_event.handler kmsg_i.pc kmsg_i.srcid kmsg_i.arg0 kmsg_i.arg1 kmsg_i.arg2)
      let s := set_pcpui s s.core_id
        { pcpui_at s s.core_id with immed_amsgs := (pcpui_at s s.core_id).immed_amsgs.tail }
      let s := log_event s (kmsg_event.kmem_cache_free kmsg_i)
      handle_kmsg_loop s temp

/-- The function `handle_kmsg_ipi` of `trap.c`. -/
def handle_kmsg_ipi (s : kmsg_state) : kmsg_state × result Unit :=
  if ¬ s.core_id < s.per_cpu_info.length then (s, result.fault)
  else if (pcpui_at s s.core_id).immed_amsgs = [] then (s, result.returned ())
  else (handle_kmsg_loop s (pcpui_at s s.core_id).immed_amsgs, result.returned ())

/-- The function `has_routine_kmsg` of `trap.c`. -/
def has_routine_kmsg (s : kmsg_state) : Bool :=
  !(pcpui_at s s.core_id).routine_amsgs.isEmpty

/-- The function `get_next_rkmsg` of `trap.c`, for `pcpui = &per_cpu_info[core]`. -/
def get_next_rkmsg (s : kmsg_state) (core : Nat) : kmsg_state × Option kernel_message :=
  match (pcpui_at s core).routine_amsgs with
  | [] => (s, none)
  | kmsg :: rest =>
      (set_pcpui s core { pcpui_at s core with routine_amsgs := rest }, some kmsg)

/-- The function `process_routine_kmsg` of `trap.c`. The handler is invoked in
    the state reached after the store to `cur_kthread->flags` and the trace
    entry; `handler_returns` tells whether it comes back from there, and only
    then is `smp_idle` called. In either case control does not go back to the
    caller. -/
def process_routine_kmsg (c : KmsgParams)
    (handler_returns : kernel_message → kmsg_state → Bool) (s : kmsg_state) :
    kmsg_state × result Unit :=
  if ¬ s.core_id < s.per_cpu_info.length then (s, result.fault)
  else if s.irq_enabled = true then (s, result.halted)
  else
    let r := get_next_rkmsg s s.core_id
    match r.2 with
    | none => (r.1, result.returned ())
    | some kmsg =>
        let s := r.1
        let msg_cp := kmsg
        let s := log_event s (kmsg_event.kmem_cache_free kmsg)
        if msg_cp.dstid ≠ s.core_id then (s, result.halted)
        else
          let s := set_pcpui s s.core_id
            { pcpui_at s s.core_id with cur_kthread_flags := c.KTH_KTASK_FLAGS }
          let s := log_event s (kmsg_event.pcpui_trace_kmsg s.core_id msg_cp.pc)
          let comes_back := handler_returns msg_cp s
          let s := log_event s
            (kmsg_event.handler msg_cp.pc msg_cp.srcid msg_cp.arg0 msg_cp.arg1 msg_cp.arg2)
          if comes_back then
            let s := log_event s kmsg_event.smp_idle
            (s, result.no_return)
          else (s, result.no_return)

/-- The state in which `process_routine_kmsg` invokes the handler of the head
    message `m` of the routine queue `m :: rest`: the head is unlinked and
    freed, the flags of the current kthread are `KTH_KTASK_FLAGS`, and the
    trace entry is written. -/
def handler_state (c : KmsgParams) (s : kmsg_state) (m : kernel_message)
    (rest : List kernel_message) : kmsg_state :=
  log_event
    (set_pcpui
      (log_event
        (set_pcpui s s.core_id { pcpui_at s s.core_id with routine_amsgs := rest })
        (kmsg_event.kmem_cache_free m))
      s.core_id
      { immed_amsgs := (pcpui_at s s.core_id).immed_amsgs,
        routine_amsgs := rest,
        cur_kthread_flags := c.KTH_KTASK_FLAGS })
    (kmsg_event.pcpui_trace_kmsg s.core_id m.pc)

/-- One call of `send_kernel_message`, with the core that makes it. -/
structure send_req where
  sender : Nat
  dst : Nat
  pc : Nat
  arg0 : Int
  arg1 : Int
  arg2 : Int
  type : Int
deriving DecidableEq, Repr

/-- The state after core `r.sender` has made the call `r`. -/
def send_from (c : KmsgParams) (s : kmsg_state) (r : send_req) : kmsg_state :=
  (send_kernel_message c (on_core s r.sender) r.dst r.pc r.arg0 r.arg1 r.arg2 r.type).1

/-- The state after the calls of the list have been made, in order. -/
def send_all (c : KmsgParams) (s : kmsg_state) : List send_req → kmsg_state
  | [] => s
  | r :: rest => send_all c (send_from c s r) rest

/-- The message node that the call `r` fills in. -/
def msg_of (r : send_req) : kernel_message :=
  { srcid := r.sender, dstid := r.dst, pc := r.pc, arg0 := r.arg0, arg1 := r.arg1,
    arg2 := r.arg2 }

/-- A call that `send_kernel_message` accepts in state `s`. -/
def send_ok (c : KmsgParams) (s : kmsg_state) (r : send_req) : Prop :=
  r.pc ≠ 0 ∧ r.dst < s.per_cpu_info.length ∧
    (r.type = c.KMSG_IMMEDIATE ∨ r.type = c.KMSG_ROUTINE)

instance (c : KmsgParams) (s : kmsg_state) (r : send_req) : Decidable (send_ok c s r) := by
  unfold send_ok; infer_instance

/-- The handler invocation that delivers message `m`. -/
def handler_event (m : kernel_message) : kmsg_event :=
  kmsg_event.handler m.pc m.srcid m.arg0 m.arg1 m.arg2

/-- Whether an event is a handler invocation. -/
def is_handler : kmsg_event → Bool
  | kmsg_event.handler _ _ _ _ _ => true
  | _ => false

/-- The handler invocations of a trace, in order. -/
def handler_calls (events : List kmsg_event) : List kmsg_event :=
  events.filter is_handler

/-- Up to `n` successive calls of `process_routine_kmsg` on core `core`, for
    handlers that come back (each call that runs a message ends in the idle
    loop, from where the next call is made). -/
def run_routine (c : KmsgParams) (s : kmsg_state) (core : Nat) : Nat → kmsg_state
  | 0 => s
  | n + 1 =>
      run_routine c (process_routine_kmsg c (fun _ _ => true) (on_core s core)).1 core n

/-- The events of a complete pass of the loop of `handle_kmsg_ipi` on core
    `core` over the given messages: per message the trace entry, the handler
    invocation and the release of the node. -/
def drain_events (core : Nat) : List kernel_message → List kmsg_event
  | [] => []
  | m :: rest =>
      kmsg_event.pcpui_trace_kmsg core m.pc :: handler_event m ::
        kmsg_event.kmem_cache_free m :: drain_events core rest

/-- The messages that the calls of the list address to core `d` in class `cls`,
    in call order. -/
def sent_to (d : Nat) (cls : Int) (reqs : List send_req) : List kernel_message :=
  (reqs.filter (fun r => decide (r.dst = d ∧ r.type = cls))).map msg_of

/-! ## Trap reflection (`kern/src/trap.c`)

The state is the part of `per_cpu_info[core_id()]` that the reflection code
reads and writes, together with the process that `cur_proc` points to. The
diagnostic printing (`printx_unhandled_trap`, `print_unhandled_trap`) has no
effect on this state and is not represented. -/

/-- A `struct user_context`: its `type` tag and the words of its trap frame. -/
structure user_context where
  type : Nat
  tf : List Nat
deriving DecidableEq, Repr, Inhabited

/-- The fields of `struct preempt_data` used by the reflection code. -/
structure preempt_data where
  notif_disabled : Bool
  uthread_ctx : user_context
  vcore_entry : Nat
  vcore_stack : Nat
  vcore_tls_desc : Nat
deriving DecidableEq, Repr, Inhabited

/-- The process as the reflection code sees it: its identity,
    `procdata->vcore_preempt_data[]`, and `vcctx_ready`, the value that
    `proc_is_vcctx_ready(p)` (declared outside the sources at hand) yields. -/
structure trap_proc where
  pid : Nat
  vcctx_ready : Bool
  vcore_preempt_data : List preempt_data
deriving DecidableEq, Repr

/-- Architecture code used by the reflection code and declared outside the
    sources at hand; it is a parameter of the embedding. `proc_init_ctx` takes
    the context to initialise, the vcore id, the entry point, the stack and the
    TLS descriptor; `arch_reflect_trap_hwtf` takes the hardware trap frame, the
    trap number, the error code and the auxiliary word. -/
structure ArchOps where
  ROS_HW_CTX : Nat
  arch_finalize_ctx : user_context → user_context
  proc_init_ctx : user_context → Nat → Nat → Nat → Nat → user_context
  arch_reflect_trap_hwtf : List Nat → Nat → Nat → Nat → List Nat

/-- Calls of the reflection code into process management. -/
inductive trap_event where
  | proc_destroy (pid : Nat)
deriving DecidableEq, Repr

/-- The state seen by the reflection code on the executing core: `cur_proc` (the
    process it points to, `none` for `NULL`), `owning_proc` (by pid),
    `owning_vcoreid`, the context `cur_ctx` points to (`none` for `NULL`), and
    the trace of calls. -/
structure trap_state where
  cur_proc : Option trap_proc
  owning_proc : Option Nat
  owning_vcoreid : Nat
  cur_ctx : Option user_context
  events : List trap_event
deriving DecidableEq, Repr

/-- The effect of `memset(ctx, 0, sizeof(struct user_context))`. -/
def zero_ctx (ctx : user_context) : user_context :=
  { type := 0, tf := List.replicate ctx.tf.length 0 }

/-- Write `p->procdata->vcore_preempt_data[vcoreid] = v`. -/
def set_vcpd (p : trap_proc) (vcoreid : Nat) (v : preempt_data) : trap_proc :=
  { p with vcore_preempt_data := p.vcore_preempt_data.set vcoreid v }

/-- The function `copy_current_ctx_to` of `trap.c`: finalises the current
    context in place and yields the value stored through `to_ctx`; `none` when
    `current_ctx` is `NULL`. -/
def copy_current_ctx_to (a : ArchOps) (s : trap_state) : Option (trap_state × user_context) :=
  match s.cur_ctx with
  | none => none
  | some cur_ctx =>
      let cur_ctx := a.arch_finalize_ctx cur_ctx
      some ({ s with cur_ctx := some cur_ctx }, cur_ctx)

/-- The function `reflect_current_context` of `trap.c`. -/
def reflect_current_context (a : ArchOps) (s : trap_state) : trap_state × result Int :=
  match s.cur_proc with
  | none => (s, result.fault)
  | some p =>
      let vcoreid := s.owning_vcoreid
      if s.owning_proc ≠ some p.pid then (s, result.halted)
      else if p.vcctx_ready = false then (s, result.returned (-1))
      else if ¬ vcoreid < p.vcore_preempt_data.length then (s, result.fault)
      else
        let vcpd := p.vcore_preempt_data.getD vcoreid default
        if vcpd.notif_disabled = true then (s, result.returned (-1))
        else
          let vcpd := { vcpd with notif_disabled := true }
          let s := { s with cur_proc := some (set_vcpd p vcoreid vcpd) }
          match copy_current_ctx_to a s with
          | none => (s, result.fault)
          | some (s, copied) =>
              let vcpd := { vcpd with uthread_ctx := copied }
              let s := { s with cur_proc := some (set_vcpd p vcoreid vcpd) }
              let s := { s with cur_ctx := some (zero_ctx copied) }
              let s := { s with cur_ctx := some (a.proc_init_ctx (zero_ctx copied) vcoreid
                vcpd.vcore_entry vcpd.vcore_stack vcpd.vcore_tls_desc) }
              (s, result.returned 0)

/-- The context after `__arch_reflect_trap_hwtf(&ctx->tf.hw_tf, trap_nr, err, aux)`. -/
def reflect_hwtf (a : ArchOps) (ctx : user_context) (trap_nr err aux : Nat) : user_context :=
  { ctx with tf := a.arch_reflect_trap_hwtf ctx.tf trap_nr err aux }

/-- Store a new value in the context that `cur_ctx` points to. -/
def set_cur_ctx (s : trap_state) (ctx : user_context) : trap_state :=
  { s with cur_ctx := some ctx }

/-- The function `reflect_unhandled_trap` of `trap.c`. -/
def reflect_unhandled_trap (a : ArchOps) (s : trap_state) (trap_nr err aux : Nat) :
    trap_state × result Unit :=
  match s.cur_proc with
  | none => (s, result.halted)
  | some p =>
      match s.cur_ctx with
      | none => (s, result.halted)
      | some ctx =>
          if ctx.type ≠ a.ROS_HW_CTX then (s, result.halted)
          else
            let s := set_cur_ctx s (reflect_hwtf a ctx trap_nr err aux)
            let r := reflect_current_context a s
            match r.2 with
            | result.returned v =>
                if v ≠ 0 then
                  ({ r.1 with events := r.1.events ++ [trap_event.proc_destroy p.pid] },
                    result.returned ())
                else (r.1, result.returned ())
            | result.halted => (r.1, result.halted)
            | result.no_return => (r.1, result.no_return)
            | result.fault => (r.1, result.fault)

/-! ## Concrete instances for the semaphore, message and reflection code -/

/-- Message classes 1 (immediate) and 2 (routine). -/
def kparams : KmsgParams :=
  { KMSG_IMMEDIATE := 1, KMSG_ROUTINE := 2, KTH_KTASK_FLAGS := 8, I_KERNEL_MSG := 14 }

/-- Two cores with empty queues, seen from core 0 with IRQs disabled. -/
def two_cores : kmsg_state :=
  { per_cpu_info := [⟨[], [], 0⟩, ⟨[], [], 0⟩], core_id := 0, irq_enabled := false,
    events := [] }

/-- Architecture code for the evaluations: finalising appends a marker word, a
    fresh context holds the vcore id, entry, stack and TLS descriptor, and a
    reflected trap frame starts with the trap number, error code and auxiliary
    word. -/
def arch0 : ArchOps :=
  { ROS_HW_CTX := 1
    arch_finalize_ctx := fun ctx => { ctx with tf := ctx.tf ++ [77] }
    proc_init_ctx := fun _ vcoreid entry stack tls =>
      { type := 2, tf := [vcoreid, entry, stack, tls] }
    arch_reflect_trap_hwtf := fun hw_tf trap_nr err aux => trap_nr :: err :: aux :: hw_tf }

/-- Architecture code like `arch0` whose `proc_init_ctx` sets the type and the
    first four words of the context and leaves the other words as it finds
    them. -/
def arch1 : ArchOps :=
  { arch0 with
    proc_init_ctx := fun ctx vcoreid entry stack tls =>
      { type := 2, tf := [vcoreid, entry, stack, tls] ++ ctx.tf.drop 4 } }

/-- A core running `p` on vcore 0 with a hardware context of six words. -/
def mk_trap_state_wide (p : trap_proc) : trap_state :=
  { cur_proc := some p, owning_proc := some p.pid, owning_vcoreid := 0,
    cur_ctx := some ⟨1, [11, 12, 13, 14, 15, 16]⟩, events := [] }

/-- A process with one vcore whose entry, stack and TLS descriptor are 500, 600
    and 700. -/
def mk_trap_proc (ready notif_disabled : Bool) : trap_proc :=
  { pid := 3, vcctx_ready := ready,
    vcore_preempt_data := [⟨notif_disabled, ⟨0, []⟩, 500, 600, 700⟩] }

/-- A core running `p` on vcore 0 with a hardware context. -/
def mk_trap_state (p : trap_proc) : trap_state :=
  { cur_proc := some p, owning_proc := some p.pid, owning_vcoreid := 0,
    cur_ctx := some ⟨1, [11, 12]⟩, events := [] }

/-! ## Invariants: semaphore well-formedness, idle pool, core attribution -/

/-- The well-formedness predicate of a semaphore: the length of the wait queue
    is `max(0, -nr_signals)`. -/
def sem_wf (sem : semaphore) : Prop :=
  (sem.waiters.length : Int) = max 0 (-sem.nr_signals)

instance (sem : semaphore) : Decidable (sem_wf sem) := by
  unfold sem_wf; infer_instance

/-- The idle map is well formed when `num_idlecores` does not exceed the number
    of slots of `idlecoremap[]`. -/
def pool_wf (k : kernel) : Prop := k.num_idlecores ≤ k.idlecoremap.length

instance (k : kernel) : Decidable (pool_wf k) := by
  unfold pool_wf; infer_instance

/-- The external calls that a run from state `k` to state `k'` has added to the
    trace. -/
def new_calls (k k' : kernel) : List ext_call := k'.calls.drop k.calls.length

/-- Modelled from the spec: the bodies of `__proc_give_cores` and
    `__proc_take_allcores` (process.c) are missing; the spec calls them the
    "give cores to process" and "take all cores from process" primitives. This
    is the list of cores attributed to the process after the calls of a trace,
    `mine` being the list before: giving attributes exactly the cores handed
    over, taking all cores leaves the process with none, and no other call
    changes the attribution. -/
def attributed (mine : List Nat) : List ext_call → List Nat
  | [] => mine
  | ext_call.proc_give_cores corelist num :: rest =>
      attributed (mine ++ corelist.take num) rest
  | ext_call.proc_take_allcores_death :: rest => attributed [] rest
  | _ :: rest => attributed mine rest

/-- Modelled from the spec: the cores that the calls of a trace take from the
    process and return to the idle pool ("reclaims all cores owned by the
    process"), `mine` being the cores attributed to the process before. -/
def reclaimed (mine : List Nat) : List ext_call → List Nat
  | [] => []
  | ext_call.proc_give_cores corelist num :: rest =>
      reclaimed (mine ++ corelist.take num) rest
  | ext_call.proc_take_allcores_death :: rest => mine ++ reclaimed [] rest
  | _ :: rest => reclaimed mine rest

/-! ## Word arithmetic -/

theorem two_pow_word (W : Nat) :
    ((2 : Int) ^ W = 2 * (2 : Int) ^ (W - 1)) ∨ (W = 0) := by
  cases W with
  | zero => right; rfl
  | succ n => left; simp [pow_succ]; ring

theorem to_ssize_of_nonneg_lt (c : Params) (x : Int) (h0 : 0 ≤ x)
    (h1 : x < (2 : Int) ^ (c.WORD_BITS - 1)) : to_ssize c x = x := by
  have hH : (0 : Int) < (2 : Int) ^ (c.WORD_BITS - 1) := by positivity
  have hT : x < (2 : Int) ^ c.WORD_BITS := by
    rcases two_pow_word c.WORD_BITS with h | h
    · rw [h]; omega
    · simpa [h] using h1
  have hm : x % (2 : Int) ^ c.WORD_BITS = x := Int.emod_eq_of_lt h0 hT
  simp only [to_ssize, hm, if_pos h1]

theorem to_ssize_of_neg (c : Params) (x : Int) (h0 : x < 0)
    (h1 : -(2 : Int) ^ (c.WORD_BITS - 1) < x) : to_ssize c x = x := by
  have hH : (0 : Int) < (2 : Int) ^ (c.WORD_BITS - 1) := by positivity
  rcases two_pow_word c.WORD_BITS with h | h
  · have hm : x % (2 : Int) ^ c.WORD_BITS = x + (2 : Int) ^ c.WORD_BITS := by
      rw [← Int.add_mul_emod_self_left x ((2 : Int) ^ c.WORD_BITS) 1, mul_one]
      apply Int.emod_eq_of_lt <;> rw [h] <;> omega
    have hge : ¬ (x + (2 : Int) ^ c.WORD_BITS < (2 : Int) ^ (c.WORD_BITS - 1)) := by
      rw [h]; omega
    simp only [to_ssize, hm, if_neg hge]; ring
  · simp [h] at h1; omega

theorem to_ssize_of_ge_half (c : Params) (x : Int)
    (h0 : (2 : Int) ^ (c.WORD_BITS - 1) ≤ x) (h1 : x < (2 : Int) ^ c.WORD_BITS) :
    to_ssize c x = x - (2 : Int) ^ c.WORD_BITS := by
  have hH : (0 : Int) < (2 : Int) ^ (c.WORD_BITS - 1) := by positivity
  have hm : x % (2 : Int) ^ c.WORD_BITS = x := Int.emod_eq_of_lt (by omega) h1
  simp only [to_ssize, hm, if_neg (not_lt.mpr h0)]


theorem amt_new_neg_of_lt (c : Params) (r : resource)
    (hg : r.amt_granted < 2 ^ (c.WORD_BITS - 1)) (h : r.amt_wanted < r.amt_granted) :
    amt_new c r < 0 := by
  have hg2 : (r.amt_granted : Int) < (2 : Int) ^ (c.WORD_BITS - 1) := by exact_mod_cast hg
  have hlt : (r.amt_wanted : Int) < (r.amt_granted : Int) := by exact_mod_cast h
  have h0 : (0 : Int) ≤ (r.amt_wanted : Int) := Int.ofNat_nonneg _
  unfold amt_new
  rw [to_ssize_of_neg c _ (by omega) (by omega)]
  omega

theorem amt_new_eq_of_pos (c : Params) (r : resource) (hwf : cores_wf c r)
    (h : 0 < amt_new c r) :
    amt_new c r = (r.amt_wanted : Int) - (r.amt_granted : Int) ∧
      r.amt_granted < r.amt_wanted := by
  obtain ⟨hw, hg⟩ := hwf
  have hw2 : (r.amt_wanted : Int) < (2 : Int) ^ c.WORD_BITS := by exact_mod_cast hw
  have h0 : (0 : Int) ≤ (r.amt_granted : Int) := Int.ofNat_nonneg _
  by_cases hlt : r.amt_wanted < r.amt_granted
  · have := amt_new_neg_of_lt c r hg hlt
    omega
  · have hge : (r.amt_granted : Int) ≤ (r.amt_wanted : Int) := by
      exact_mod_cast (not_lt.mp hlt)
    by_cases hhalf : (r.amt_wanted : Int) - (r.amt_granted : Int) <
        (2 : Int) ^ (c.WORD_BITS - 1)
    · have e : amt_new c r = (r.amt_wanted : Int) - (r.amt_granted : Int) := by
        unfold amt_new
        exact to_ssize_of_nonneg_lt c _ (by omega) hhalf
      refine ⟨e, ?_⟩
      rw [e] at h
      have : (r.amt_granted : Int) < (r.amt_wanted : Int) := by omega
      exact_mod_cast this
    · have e : amt_new c r =
          (r.amt_wanted : Int) - (r.amt_granted : Int) - (2 : Int) ^ c.WORD_BITS := by
        unfold amt_new
        exact to_ssize_of_ge_half c _ (not_lt.mp hhalf) (by omega)
      rw [e] at h
      omega

/-! ## The resource table -/

theorem in_table_set_res (p : proc) (t t' : Int) (r : resource) :
    in_table (set_res p t r) t' ↔ in_table p t' := by
  simp [in_table, set_res]

theorem res_at_set_res (p : proc) (t : Int) (r : resource) (h : in_table p t) :
    res_at (set_res p t r) t = r := by
  obtain ⟨h0, h1⟩ := h
  have hlt : t.toNat < p.resources.length := by omega
  simp [res_at, set_res, List.getD_eq_getElem?_getD, hlt]

theorem res_at_set_res_ne (p : proc) (t t' : Int) (r : resource)
    (h : t.toNat ≠ t'.toNat) : res_at (set_res p t r) t' = res_at p t' := by
  simp [res_at, set_res, List.getD_eq_getElem?_getD, List.getElem?_set_ne h]

theorem set_res_res_at (p : proc) (t : Int) : set_res p t (res_at p t) = p := by
  cases p with
  | mk pid state resources env_tf env_flags vcoremap seq =>
    simp only [set_res, res_at, proc.mk.injEq, true_and, and_true]
    apply List.ext_getElem?
    intro n
    by_cases hn : t.toNat = n
    · subst hn
      by_cases hl : t.toNat < resources.length
      · simp [List.getD_eq_getElem?_getD, hl]
      · simp [List.getElem?_eq_none (not_lt.mp hl)]
        omega
    · simp [List.getElem?_set_ne hn]

@[simp] theorem set_num_idlecores_p (k : kernel) (n : Nat) :
    (set_num_idlecores k n).p = k.p := rfl

@[simp] theorem set_num_idlecores_num (k : kernel) (n : Nat) :
    (set_num_idlecores k n).num_idlecores = n := rfl

@[simp] theorem set_num_idlecores_map (k : kernel) (n : Nat) :
    (set_num_idlecores k n).idlecoremap = k.idlecoremap := rfl

@[simp] theorem set_num_idlecores_calls (k : kernel) (n : Nat) :
    (set_num_idlecores k n).calls = k.calls := rfl

@[simp] theorem set_num_idlecores_current (k : kernel) (n : Nat) :
    (set_num_idlecores k n).current = k.current := rfl

@[simp] theorem set_num_idlecores_core_id (k : kernel) (n : Nat) :
    (set_num_idlecores k n).core_id = k.core_id := rfl

@[simp] theorem set_num_idlecores_current_tf (k : kernel) (n : Nat) :
    (set_num_idlecores k n).current_tf = k.current_tf := rfl

@[simp] theorem set_num_idlecores_self (k : kernel) :
    set_num_idlecores k k.num_idlecores = k := rfl

/-! ## `core_request` -/

theorem grab_loop_snd (m : List Nat) (n i : Nat) (l : List Nat) :
    (grab_loop m n i l).2 = i - n := by
  induction n generalizing i l with
  | zero => simp [grab_loop]
  | succ n ih => simp [grab_loop, ih]; omega

theorem grab_idle_of_lt (k : kernel) (d : Int) (h : (k.num_idlecores : Int) < d) :
    grab_idle k d = ([], k.num_idlecores, 0) := by
  simp [grab_idle, not_le.mpr h]

theorem grab_idle_of_le (k : kernel) (d : Int) (h : d ≤ (k.num_idlecores : Int)) :
    grab_idle k d =
      ((grab_loop k.idlecoremap d.toNat k.num_idlecores []).1,
        k.num_idlecores - d.toNat, d.toNat) := by
  simp [grab_idle, h, grab_loop_snd]

/-- Unfolding of `core_request` on the incremental path with a positive delta. -/
theorem core_request_pos (c : Params) (k : kernel)
    (hin : in_table k.p c.RES_CORES)
    (hw : (res_at k.p c.RES_CORES).amt_wanted ≠ 0)
    (hd : 0 < amt_new c (res_at k.p c.RES_CORES)) :
    core_request c k =
      if amt_new c (res_at k.p c.RES_CORES) ≤ (k.num_idlecores : Int) then
        give_out c
          (set_num_idlecores k
            (k.num_idlecores - (amt_new c (res_at k.p c.RES_CORES)).toNat))
          (grab_loop k.idlecoremap (amt_new c (res_at k.p c.RES_CORES)).toNat
            k.num_idlecores []).1
          (amt_new c (res_at k.p c.RES_CORES)).toNat
      else (k, outcome.returned 0) := by
  have h1 : ¬ amt_new c (res_at k.p c.RES_CORES) < 0 := by omega
  have h2 : ¬ amt_new c (res_at k.p c.RES_CORES) = 0 := by omega
  unfold core_request
  simp only [hin, not_true_eq_false, if_false, hw, h1, h2]
  by_cases hp : amt_new c (res_at k.p c.RES_CORES) ≤ (k.num_idlecores : Int)
  · have hne : (amt_new c (res_at k.p c.RES_CORES)).toNat ≠ 0 := by omega
    simp only [grab_idle_of_le k _ hp, if_pos hp, hne, ne_eq, not_false_eq_true, if_true]
  · simp [grab_idle_of_lt k _ (not_le.mp hp), if_neg hp]

/-- All-or-nothing for the delta that the code computes. On the incremental path
    (`amt_wanted > 0`), with
    `delta` the value `amt_new` that lines 64-65 compute, if `delta > 0` and the
    idle map holds fewer than `delta` cores (`num_idlecores < delta`), then
    `core_request` returns 0 and the whole kernel state is the one before the
    call: `amt_granted`, `amt_wanted`, the process state, `idlecoremap` and
    `num_idlecores` are unchanged, so nothing, in particular no smaller amount,
    is granted. -/
theorem core_request_all_or_nothing (c : Params) (k : kernel)
    (hin : in_table k.p c.RES_CORES)
    (hw : 0 < (res_at k.p c.RES_CORES).amt_wanted)
    (hd : 0 < amt_new c (res_at k.p c.RES_CORES))
    (hpool : (k.num_idlecores : Int) < amt_new c (res_at k.p c.RES_CORES)) :
    (core_request c k).2 = outcome.returned 0 ∧ (core_request c k).1 = k := by
  rw [core_request_pos c k hin (by omega) hd, if_neg (not_le.mpr hpool)]
  exact ⟨rfl, rfl⟩

theorem hand_over_fst_p (k : kernel) (l : List Nat) (n : Nat) (b : Bool) :
    (hand_over k l n b).1.p = k.p ∧
    (hand_over k l n b).1.idlecoremap = k.idlecoremap ∧
    (hand_over k l n b).1.num_idlecores = k.num_idlecores := by
  unfold hand_over
  cases b <;> by_cases hs : k.p.state = proc_state.PROC_RUNNABLE_M <;>
    simp [log_call, hs]

theorem hand_over_snd (k : kernel) (l : List Nat) (n : Nat) (b : Bool) :
    (hand_over k l n b).2 =
      if b then outcome.no_return else outcome.returned (n : Int) := by
  unfold hand_over
  cases b <;> simp

theorem running_s_transition_frame (c : Params) (k : kernel) :
    (running_s_transition c k).p.resources = k.p.resources ∧
    (running_s_transition c k).idlecoremap = k.idlecoremap ∧
    (running_s_transition c k).num_idlecores = k.num_idlecores ∧
    (running_s_transition c k).calls = k.calls ++ [ext_call.env_push_ancillary_state] := by
  simp [running_s_transition, set_p, log_call, __proc_set_state, __seq_end_write,
    __unmap_vcore, __seq_start_write, proc_set_syscall_retval]

theorem res_at_congr (p q : proc) (t : Int) (h : p.resources = q.resources) :
    res_at p t = res_at q t := by
  simp [res_at, h]

theorem add_granted_frame (c : Params) (k : kernel) (n : Nat) :
    (add_granted c k n).idlecoremap = k.idlecoremap ∧
    (add_granted c k n).num_idlecores = k.num_idlecores ∧
    (add_granted c k n).calls = k.calls ∧
    (add_granted c k n).current = k.current ∧
    (add_granted c k n).core_id = k.core_id ∧
    (add_granted c k n).current_tf = k.current_tf ∧
    (add_granted c k n).p.state = k.p.state ∧
    (add_granted c k n).p.pid = k.p.pid ∧
    (add_granted c k n).p.vcoremap = k.p.vcoremap ∧
    (add_granted c k n).p.env_flags = k.p.env_flags := by
  simp [add_granted, set_p, set_res]

theorem res_at_add_granted (c : Params) (k : kernel) (n : Nat)
    (hin : in_table k.p c.RES_CORES) :
    res_at (add_granted c k n).p c.RES_CORES =
      { res_at k.p c.RES_CORES with
        amt_granted := ((res_at k.p c.RES_CORES).amt_granted + n) % 2 ^ c.WORD_BITS } := by
  simp only [add_granted, set_p]
  exact res_at_set_res _ _ _ hin

/-- Effect of the grant branch on the idle map and on the resource table. -/
theorem give_out_frame (c : Params) (k : kernel) (l : List Nat) (n : Nat) :
    (give_out c k l n).1.idlecoremap = k.idlecoremap ∧
    (give_out c k l n).1.num_idlecores = k.num_idlecores ∧
    (give_out c k l n).1.p.resources = (add_granted c k n).p.resources := by
  obtain ⟨a1, a2, -⟩ := add_granted_frame c k n
  unfold give_out
  simp only []
  split
  · split
    · exact ⟨a1, a2, rfl⟩
    · obtain ⟨h1, h2, h3⟩ := hand_over_fst_p (running_s_transition c (add_granted c k n))
        l n true
      obtain ⟨r1, r2, r3, -⟩ := running_s_transition_frame c (add_granted c k n)
      exact ⟨by rw [h2, r2, a1], by rw [h3, r3, a2], by rw [h1, r1]⟩
  · exact ⟨a1, a2, rfl⟩
  · obtain ⟨h1, h2, h3⟩ := hand_over_fst_p (add_granted c k n) l n false
    exact ⟨by rw [h2, a1], by rw [h3, a2], by rw [h1]⟩

/-- The grant branch returns only the number of cores it was given. -/
theorem give_out_returned (c : Params) (k : kernel) (l : List Nat) (n : Nat) (v : Int)
    (h : (give_out c k l n).2 = outcome.returned v) : v = (n : Int) := by
  unfold give_out at h
  simp only [] at h
  split at h
  · split at h
    · simp at h
    · rw [hand_over_snd] at h; simp at h
  · simp at h
  · rw [hand_over_snd] at h
    simp at h
    exact h.symm

/-- Claim C2 (no over-grant). On the incremental path, for amounts in range
    (`cores_wf`) and positive error numbers, whenever `core_request` returns a
    value `r >= 0`, then `r` is 0 or exactly `amt_wanted - amt_granted` (values
    before the call), `num_idlecores` drops by exactly `r` while `idlecoremap` is
    untouched, and `amt_granted` grows by exactly `r`; the size of the idle pool
    is not otherwise constrained, so this holds also when more than `delta`
    cores are idle. -/
theorem core_request_no_over_grant (c : Params) (k k' : kernel) (r : Int)
    (hc : c.wf)
    (hin : in_table k.p c.RES_CORES)
    (hw : 0 < (res_at k.p c.RES_CORES).amt_wanted)
    (hwf : cores_wf c (res_at k.p c.RES_CORES))
    (hret : core_request c k = (k', outcome.returned r))
    (hr : 0 ≤ r) :
    (r = 0 ∨ r = ((res_at k.p c.RES_CORES).amt_wanted : Int) -
        ((res_at k.p c.RES_CORES).amt_granted : Int)) ∧
    (k'.num_idlecores : Int) + r = (k.num_idlecores : Int) ∧
    k'.idlecoremap = k.idlecoremap ∧
    ((res_at k'.p c.RES_CORES).amt_granted : Int) =
      ((res_at k.p c.RES_CORES).amt_granted : Int) + r := by
  have hw' : (res_at k.p c.RES_CORES).amt_wanted ≠ 0 := by omega
  have hE : 0 < c.EINVAL := hc.2.2.2.1
  rcases lt_trichotomy (amt_new c (res_at k.p c.RES_CORES)) 0 with hneg | hz | hpos
  · -- shrink rejection returns a negative value
    unfold core_request at hret
    simp only [hin, not_true_eq_false, if_false, hw', hneg, if_true, Prod.mk.injEq,
      outcome.returned.injEq] at hret
    omega
  · unfold core_request at hret
    have h1 : ¬ amt_new c (res_at k.p c.RES_CORES) < 0 := by omega
    simp only [hin, not_true_eq_false, if_false, hw', h1, hz, if_true] at hret
    cases hret
    simp
  · rw [core_request_pos c k hin hw' hpos] at hret
    obtain ⟨he, hlt⟩ := amt_new_eq_of_pos c _ hwf hpos
    by_cases hp : amt_new c (res_at k.p c.RES_CORES) ≤ (k.num_idlecores : Int)
    · rw [if_pos hp] at hret
      have hv := give_out_returned c _ _ _ r (by rw [hret])
      obtain ⟨f1, f2, f3⟩ := give_out_frame c
        (set_num_idlecores k
          (k.num_idlecores - (amt_new c (res_at k.p c.RES_CORES)).toNat))
        (grab_loop k.idlecoremap (amt_new c (res_at k.p c.RES_CORES)).toNat
          k.num_idlecores []).1
        (amt_new c (res_at k.p c.RES_CORES)).toNat
      rw [hret] at f1 f2 f3
      simp only [set_num_idlecores_map, set_num_idlecores_num] at f1 f2 f3
      have hr' : r = amt_new c (res_at k.p c.RES_CORES) := by
        rw [hv]; exact Int.toNat_of_nonneg (le_of_lt hpos)
      have ha := res_at_add_granted c
        (set_num_idlecores k
          (k.num_idlecores - (amt_new c (res_at k.p c.RES_CORES)).toNat))
        (amt_new c (res_at k.p c.RES_CORES)).toNat hin
      refine ⟨Or.inr (by rw [hr', he]), ?_, f1, ?_⟩
      · rw [f2, hr']; omega
      · rw [res_at_congr _ _ _ f3, ha]
        simp only [set_num_idlecores_p]
        have hsum : (res_at k.p c.RES_CORES).amt_granted +
            (amt_new c (res_at k.p c.RES_CORES)).toNat =
            (res_at k.p c.RES_CORES).amt_wanted := by omega
        rw [hsum, Nat.mod_eq_of_lt hwf.1, hr', he]
        omega
    · rw [if_neg hp] at hret
      cases hret
      simp

theorem core_request_neg (c : Params) (k : kernel)
    (hin : in_table k.p c.RES_CORES)
    (hw : (res_at k.p c.RES_CORES).amt_wanted ≠ 0)
    (hd : amt_new c (res_at k.p c.RES_CORES) < 0) :
    core_request c k =
      (set_p k (set_res k.p c.RES_CORES
          { res_at k.p c.RES_CORES with
            amt_wanted := (res_at k.p c.RES_CORES).amt_granted }),
        outcome.returned (-c.EINVAL)) := by
  unfold core_request
  simp only [hin, not_true_eq_false, if_false, hw, hd, if_true]

theorem core_request_zero (c : Params) (k : kernel)
    (hin : in_table k.p c.RES_CORES)
    (hw : (res_at k.p c.RES_CORES).amt_wanted ≠ 0)
    (hd : amt_new c (res_at k.p c.RES_CORES) = 0) :
    core_request c k = (k, outcome.returned 0) := by
  unfold core_request
  simp only [hin, not_true_eq_false, if_false, hw, hd, lt_self_iff_false, if_true]

theorem core_request_dealloc (c : Params) (k : kernel)
    (hin : in_table k.p c.RES_CORES)
    (hw : (res_at k.p c.RES_CORES).amt_wanted = 0) :
    core_request c k = full_dealloc c k := by
  unfold core_request
  simp only [hin, not_true_eq_false, if_false, hw, if_true]

theorem full_dealloc_halted (c : Params) (k : kernel)
    (hs : k.p.state ≠ proc_state.PROC_RUNNING_M) :
    full_dealloc c k = (k, outcome.halted) := by
  simp [full_dealloc, hs]

/-- The full deallocation of a `PROC_RUNNING_M` process. -/
theorem full_dealloc_running_m (c : Params) (k : kernel)
    (hs : k.p.state = proc_state.PROC_RUNNING_M) :
    (full_dealloc c k).2 =
      (if k.p.vcoremap.any (fun v => v.valid && v.pcoreid == k.core_id) then
        outcome.no_return else outcome.returned 0) ∧
    (full_dealloc c k).1.p.env_tf = { k.current_tf with retval := c.ESUCCESS } ∧
    (full_dealloc c k).1.p.state = proc_state.PROC_RUNNABLE_S ∧
    (full_dealloc c k).1.calls = k.calls ++
      [ext_call.env_push_ancillary_state, ext_call.proc_take_allcores_death,
        ext_call.schedule_proc, ext_call.proc_unlock_ipi_pending] ∧
    (full_dealloc c k).1.p.resources = k.p.resources.set c.RES_CORES.toNat
      { res_at k.p c.RES_CORES with amt_granted := 0 } ∧
    (full_dealloc c k).1.idlecoremap = k.idlecoremap ∧
    (full_dealloc c k).1.num_idlecores = k.num_idlecores := by
  by_cases hb : k.p.vcoremap.any (fun v => v.valid && v.pcoreid == k.core_id) = true
  · simp [full_dealloc, __proc_take_allcores, hs, hb, set_p, set_res, res_at, log_call,
      __proc_set_state, proc_set_syscall_retval]
  · simp [full_dealloc, __proc_take_allcores, hs, hb, set_p, set_res, res_at, log_call,
      __proc_set_state, proc_set_syscall_retval]

theorem full_dealloc_resources (c : Params) (k : kernel) :
    (full_dealloc c k).1.p.resources =
      (if k.p.state = proc_state.PROC_RUNNING_M then
        k.p.resources.set c.RES_CORES.toNat
          { res_at k.p c.RES_CORES with amt_granted := 0 }
      else k.p.resources) ∧
    (full_dealloc c k).1.idlecoremap = k.idlecoremap ∧
    (full_dealloc c k).1.num_idlecores = k.num_idlecores := by
  by_cases hs : k.p.state = proc_state.PROC_RUNNING_M
  · obtain ⟨-, -, -, -, h5, h6, h7⟩ := full_dealloc_running_m c k hs
    rw [if_pos hs]
    exact ⟨h5, h6, h7⟩
  · simp [full_dealloc, hs]

theorem core_request_out_of_bounds (c : Params) (k : kernel)
    (hin : ¬ in_table k.p c.RES_CORES) :
    core_request c k = (k, outcome.out_of_bounds) := by
  unfold core_request
  simp only [hin, not_false_eq_true, if_true]

/-- Claim C3 (shrink rejection). If `0 < amt_wanted < amt_granted` (with
    `amt_granted` a core count representable as `ssize_t`), `core_request`
    returns `-EINVAL`, sets `amt_wanted` to `amt_granted`, and leaves
    `amt_granted`, the process state, the idle map and the call trace
    unchanged. -/
theorem core_request_shrink_rejected (c : Params) (k : kernel)
    (hin : in_table k.p c.RES_CORES)
    (hw : 0 < (res_at k.p c.RES_CORES).amt_wanted)
    (hlt : (res_at k.p c.RES_CORES).amt_wanted < (res_at k.p c.RES_CORES).amt_granted)
    (hg : (res_at k.p c.RES_CORES).amt_granted < 2 ^ (c.WORD_BITS - 1)) :
    (core_request c k).2 = outcome.returned (-c.EINVAL) ∧
    (res_at (core_request c k).1.p c.RES_CORES).amt_wanted =
      (res_at k.p c.RES_CORES).amt_granted ∧
    (res_at (core_request c k).1.p c.RES_CORES).amt_granted =
      (res_at k.p c.RES_CORES).amt_granted ∧
    (core_request c k).1.p.state = k.p.state ∧
    (core_request c k).1.idlecoremap = k.idlecoremap ∧
    (core_request c k).1.num_idlecores = k.num_idlecores ∧
    (core_request c k).1.calls = k.calls := by
  rw [core_request_neg c k hin (by omega) (amt_new_neg_of_lt c _ hg hlt)]
  simp only [set_p]
  rw [res_at_set_res _ _ _ hin]
  simp [set_res]

/-- Claim C4, as amended (full deallocation). With `amt_wanted == 0`: in any
    state other than `PROC_RUNNING_M` the assertion fails (the kernel halts,
    state untouched), so every other outcome implies `PROC_RUNNING_M`. In
    `PROC_RUNNING_M` the saved frame is the current frame with return value
    `ESUCCESS`, the state becomes `PROC_RUNNABLE_S`, the external calls are
    exactly: push ancillary state, take all cores with `__death`,
    `schedule_proc`, unlock; `idlecoremap` and `num_idlecores` are not
    modified, and the resource table is the old one with `amt_granted` of the
    cores entry set to 0 by the take-all-cores primitive. The call returns 0
    when the calling core is not one of the cores taken, and does not return
    when it is. -/
theorem core_request_full_dealloc (c : Params) (k : kernel)
    (hin : in_table k.p c.RES_CORES)
    (hw : (res_at k.p c.RES_CORES).amt_wanted = 0) :
    (k.p.state ≠ proc_state.PROC_RUNNING_M →
      core_request c k = (k, outcome.halted)) ∧
    ((core_request c k).2 ≠ outcome.halted →
      k.p.state = proc_state.PROC_RUNNING_M) ∧
    (k.p.state = proc_state.PROC_RUNNING_M →
      ((k.p.vcoremap.any (fun v => v.valid && v.pcoreid == k.core_id) = false →
        (core_request c k).2 = outcome.returned 0) ∧
       (k.p.vcoremap.any (fun v => v.valid && v.pcoreid == k.core_id) = true →
        (core_request c k).2 = outcome.no_return)) ∧
      (core_request c k).1.p.env_tf = { k.current_tf with retval := c.ESUCCESS } ∧
      (core_request c k).1.p.state = proc_state.PROC_RUNNABLE_S ∧
      (core_request c k).1.calls = k.calls ++
        [ext_call.env_push_ancillary_state, ext_call.proc_take_allcores_death,
          ext_call.schedule_proc, ext_call.proc_unlock_ipi_pending] ∧
      (core_request c k).1.p.resources = k.p.resources.set c.RES_CORES.toNat
        { res_at k.p c.RES_CORES with amt_granted := 0 } ∧
      (core_request c k).1.idlecoremap = k.idlecoremap ∧
      (core_request c k).1.num_idlecores = k.num_idlecores) := by
  rw [core_request_dealloc c k hin hw]
  refine ⟨?_, ?_, ?_⟩
  · intro hs
    exact full_dealloc_halted c k hs
  · intro hv
    by_contra hs
    rw [full_dealloc_halted c k hs] at hv
    exact hv rfl
  · intro hs
    obtain ⟨h1, h2, h3, h4, h5, h6, h7⟩ := full_dealloc_running_m c k hs
    refine ⟨⟨?_, ?_⟩, h2, h3, h4, h5, h6, h7⟩
    · intro hb
      rw [h1, hb]
      rfl
    · intro hb
      rw [h1, hb]
      rfl

theorem lor_land_self (x f : Nat) : (x ||| f) &&& f = f := by
  apply Nat.eq_of_testBit_eq
  intro i
  simp only [Nat.testBit_and, Nat.testBit_or]
  cases x.testBit i <;> cases f.testBit i <;> rfl

theorem grab_loop_length (m : List Nat) (n i : Nat) (l : List Nat) :
    (grab_loop m n i l).1.length = l.length + n := by
  induction n generalizing i l with
  | zero => simp [grab_loop]
  | succ n ih => simp [grab_loop, ih]; omega

/-- The `PROC_RUNNING_S` case of the grant branch, from the process's own core. -/
theorem give_out_running_s (c : Params) (k : kernel) (l : List Nat) (n : Nat)
    (hs : k.p.state = proc_state.PROC_RUNNING_S)
    (hcur : k.current = some k.p.pid)
    (hv0 : (k.p.vcoremap.getD 0 default).pcoreid = k.core_id) :
    give_out c k l n =
      hand_over (running_s_transition c (add_granted c k n)) l n true := by
  obtain ⟨-, -, -, a4, a5, -, a7, a8, a9, -⟩ := add_granted_frame c k n
  unfold give_out
  simp only [a7, hs, a4, a8, a9, a5, hcur, hv0, ne_eq, not_true_eq_false, or_self,
    if_false]

theorem give_out_running_s_async (c : Params) (k : kernel) (l : List Nat) (n : Nat)
    (hs : k.p.state = proc_state.PROC_RUNNING_S)
    (hbad : k.current ≠ some k.p.pid ∨ (k.p.vcoremap.getD 0 default).pcoreid ≠ k.core_id) :
    give_out c k l n = (add_granted c k n, outcome.halted) := by
  obtain ⟨-, -, -, a4, a5, -, a7, a8, a9, -⟩ := add_granted_frame c k n
  unfold give_out
  simp only [a7, hs, a4, a8, a9, a5, hbad, if_true]

theorem give_out_runnable_s (c : Params) (k : kernel) (l : List Nat) (n : Nat)
    (hs : k.p.state = proc_state.PROC_RUNNABLE_S) :
    give_out c k l n = (add_granted c k n, outcome.halted) := by
  obtain ⟨-, -, -, -, -, -, a7, -⟩ := add_granted_frame c k n
  unfold give_out
  simp only [a7, hs]

theorem unmap_vcore_zero_valid (p : proc) :
    ((__unmap_vcore p 0).vcoremap.getD 0 default).valid = false := by
  unfold __unmap_vcore
  cases h : p.vcoremap with
  | nil => simp; rfl
  | cons a t => simp

/-- What the `PROC_RUNNING_S` transition followed by the hand-over leaves behind. -/
theorem hand_over_running_s (c : Params) (k : kernel) (l : List Nat) (n : Nat) :
    (hand_over (running_s_transition c k) l n true).2 = outcome.no_return ∧
    ((hand_over (running_s_transition c k) l n true).1.p.vcoremap.getD 0 default).valid
      = false ∧
    (hand_over (running_s_transition c k) l n true).1.p.state
      = proc_state.PROC_RUNNABLE_M ∧
    (hand_over (running_s_transition c k) l n true).1.p.env_flags
      &&& c.PROC_TRANSITION_TO_M = c.PROC_TRANSITION_TO_M ∧
    (hand_over (running_s_transition c k) l n true).1.p.env_tf
      = { k.current_tf with retval := c.ESUCCESS } ∧
    (hand_over (running_s_transition c k) l n true).1.calls = k.calls ++
      [ext_call.env_push_ancillary_state, ext_call.proc_give_cores l n,
        ext_call.proc_unlock_ipi_pending, ext_call.proc_run, ext_call.proc_decref 1,
        ext_call.abandon_core] := by
  have hst : (running_s_transition c k).p.state = proc_state.PROC_RUNNABLE_M := by
    simp [running_s_transition, set_p, log_call, __proc_set_state]
  have hvc : (running_s_transition c k).p.vcoremap = (__unmap_vcore k.p 0).vcoremap := by
    simp [running_s_transition, set_p, log_call, __proc_set_state, __seq_end_write,
      __unmap_vcore, __seq_start_write, proc_set_syscall_retval]
  have hfl : (running_s_transition c k).p.env_flags
      = k.p.env_flags ||| c.PROC_TRANSITION_TO_M := by
    simp [running_s_transition, set_p, log_call, __proc_set_state, __seq_end_write,
      __unmap_vcore, __seq_start_write, proc_set_syscall_retval]
  have htf : (running_s_transition c k).p.env_tf
      = { k.current_tf with retval := c.ESUCCESS } := by
    simp [running_s_transition, set_p, log_call, __proc_set_state, __seq_end_write,
      __unmap_vcore, __seq_start_write, proc_set_syscall_retval]
  obtain ⟨-, -, -, hcalls⟩ := running_s_transition_frame c k
  obtain ⟨hp, -, -⟩ := hand_over_fst_p (running_s_transition c k) l n true
  refine ⟨by rw [hand_over_snd]; rfl, ?_, by rw [hp, hst], ?_, by rw [hp, htf], ?_⟩
  · rw [hp, hvc]; exact unmap_vcore_zero_valid k.p
  · rw [hp, hfl]; exact lor_land_self _ _
  · unfold hand_over
    simp [log_call, hst, hcalls]

/-- Claim C5 (single-to-multi transition). For a `PROC_RUNNING_S` process with
    amounts in range, `delta = amt_new > 0` (then equal to
    `amt_wanted - amt_granted`) and at least `delta` idle cores: if the request
    comes from the process's own core (`current == p` and vcore 0 mapped to
    `core_id()`), then `delta` cores leave the idle map, `amt_granted` grows by
    `delta`, vcore 0 is unmapped, the state is `PROC_RUNNABLE_M`,
    `PROC_TRANSITION_TO_M` is set in `env_flags`, the saved frame is the current
    frame with return value `ESUCCESS`, a list of exactly `delta` cores is given
    to the process, the process is run, and the calling core is abandoned to
    the idle loop (the call does not return); otherwise the call halts. -/
theorem core_request_single_to_multi (c : Params) (k : kernel)
    (hin : in_table k.p c.RES_CORES)
    (hwf : cores_wf c (res_at k.p c.RES_CORES))
    (hs : k.p.state = proc_state.PROC_RUNNING_S)
    (hd : 0 < amt_new c (res_at k.p c.RES_CORES))
    (hpool : amt_new c (res_at k.p c.RES_CORES) ≤ (k.num_idlecores : Int)) :
    amt_new c (res_at k.p c.RES_CORES) =
      ((res_at k.p c.RES_CORES).amt_wanted : Int) -
        ((res_at k.p c.RES_CORES).amt_granted : Int) ∧
    ((k.current = some k.p.pid ∧ (k.p.vcoremap.getD 0 default).pcoreid = k.core_id) →
      (core_request c k).2 = outcome.no_return ∧
      ((core_request c k).1.num_idlecores : Int) =
        (k.num_idlecores : Int) - amt_new c (res_at k.p c.RES_CORES) ∧
      (core_request c k).1.idlecoremap = k.idlecoremap ∧
      ((res_at (core_request c k).1.p c.RES_CORES).amt_granted : Int) =
        ((res_at k.p c.RES_CORES).amt_granted : Int) +
          amt_new c (res_at k.p c.RES_CORES) ∧
      ((core_request c k).1.p.vcoremap.getD 0 default).valid = false ∧
      (core_request c k).1.p.state = proc_state.PROC_RUNNABLE_M ∧
      (core_request c k).1.p.env_flags &&& c.PROC_TRANSITION_TO_M
        = c.PROC_TRANSITION_TO_M ∧
      (core_request c k).1.p.env_tf = { k.current_tf with retval := c.ESUCCESS } ∧
      ∃ corelist : List Nat,
        (corelist.length : Int) = amt_new c (res_at k.p c.RES_CORES) ∧
        (core_request c k).1.calls = k.calls ++
          [ext_call.env_push_ancillary_state,
            ext_call.proc_give_cores corelist corelist.length,
            ext_call.proc_unlock_ipi_pending, ext_call.proc_run,
            ext_call.proc_decref 1, ext_call.abandon_core]) ∧
    (¬ (k.current = some k.p.pid ∧ (k.p.vcoremap.getD 0 default).pcoreid = k.core_id) →
      (core_request c k).2 = outcome.halted) := by
  obtain ⟨he, hlt⟩ := amt_new_eq_of_pos c _ hwf hd
  have hw : (res_at k.p c.RES_CORES).amt_wanted ≠ 0 := by omega
  rw [core_request_pos c k hin hw hd, if_pos hpool]
  have hsum : (res_at k.p c.RES_CORES).amt_granted +
      (amt_new c (res_at k.p c.RES_CORES)).toNat =
      (res_at k.p c.RES_CORES).amt_wanted := by omega
  generalize hk1 : set_num_idlecores k
      (k.num_idlecores - (amt_new c (res_at k.p c.RES_CORES)).toNat) = k1
  have e1 : k1.p = k.p := by rw [← hk1]; rfl
  have e2 : k1.num_idlecores =
      k.num_idlecores - (amt_new c (res_at k.p c.RES_CORES)).toNat := by rw [← hk1]; rfl
  have e3 : k1.idlecoremap = k.idlecoremap := by rw [← hk1]; rfl
  have e4 : k1.calls = k.calls := by rw [← hk1]; rfl
  have e5 : k1.current = k.current := by rw [← hk1]; rfl
  have e6 : k1.core_id = k.core_id := by rw [← hk1]; rfl
  have e7 : k1.current_tf = k.current_tf := by rw [← hk1]; rfl
  have hlen := grab_loop_length k.idlecoremap
    (amt_new c (res_at k.p c.RES_CORES)).toNat k.num_idlecores []
  simp only [List.length_nil, zero_add] at hlen
  generalize (grab_loop k.idlecoremap (amt_new c (res_at k.p c.RES_CORES)).toNat
    k.num_idlecores []).1 = corelist at hlen
  refine ⟨he, ?_, ?_⟩
  · rintro ⟨hcur, hv0⟩
    rw [give_out_running_s c k1 _ _ (by rw [e1]; exact hs) (by rw [e5, e1]; exact hcur)
      (by rw [e1, e6]; exact hv0)]
    obtain ⟨h1, h2, h3, h4, h5, h6⟩ := hand_over_running_s c
      (add_granted c k1 (amt_new c (res_at k.p c.RES_CORES)).toNat) corelist
      (amt_new c (res_at k.p c.RES_CORES)).toNat
    obtain ⟨p1, p2, p3⟩ := hand_over_fst_p (running_s_transition c
      (add_granted c k1 (amt_new c (res_at k.p c.RES_CORES)).toNat)) corelist
      (amt_new c (res_at k.p c.RES_CORES)).toNat true
    obtain ⟨r1, r2, r3, -⟩ := running_s_transition_frame c
      (add_granted c k1 (amt_new c (res_at k.p c.RES_CORES)).toNat)
    obtain ⟨a1, a2, a3, a4, -, a6, -⟩ := add_granted_frame c k1
      (amt_new c (res_at k.p c.RES_CORES)).toNat
    have ha := res_at_add_granted c k1
      (amt_new c (res_at k.p c.RES_CORES)).toNat (by rw [e1]; exact hin)
    refine ⟨h1, ?_, ?_, ?_, h2, h3, h4, ?_, ?_⟩
    · rw [p3, r3, a2, e2]; omega
    · rw [p2, r2, a1, e3]
    · rw [p1, res_at_congr _ _ _ r1, ha, e1]
      simp only
      rw [hsum, Nat.mod_eq_of_lt hwf.1, he]
      omega
    · rw [h5, a6, e7]
    · refine ⟨corelist, by rw [hlen]; omega, ?_⟩
      rw [h6, a3, e4, hlen]
  · intro hbad
    rw [give_out_running_s_async c k1 _ _ (by rw [e1]; exact hs) (by
      rw [e1, e5, e6]
      by_contra hcon
      push_neg at hcon
      exact hbad hcon)]

/-- Claim C6 (unsupported transition is fatal). For a process in
    `PROC_RUNNABLE_S`: whenever the request would be granted a non-zero number
    of cores (incremental path, `0 < amt_new <= num_idlecores`), `core_request`
    halts and returns no value; and whatever the request, the process is still
    in `PROC_RUNNABLE_S`, hence not in `PROC_RUNNABLE_M`, when `core_request`
    ends. -/
theorem core_request_runnable_s_fatal (c : Params) (k : kernel)
    (hs : k.p.state = proc_state.PROC_RUNNABLE_S) :
    (in_table k.p c.RES_CORES →
      (res_at k.p c.RES_CORES).amt_wanted ≠ 0 →
      0 < amt_new c (res_at k.p c.RES_CORES) →
      amt_new c (res_at k.p c.RES_CORES) ≤ (k.num_idlecores : Int) →
      (core_request c k).2 = outcome.halted ∧
      ∀ v, (core_request c k).2 ≠ outcome.returned v) ∧
    (core_request c k).1.p.state = proc_state.PROC_RUNNABLE_S ∧
    (core_request c k).1.p.state ≠ proc_state.PROC_RUNNABLE_M := by
  have hstate : (core_request c k).1.p.state = proc_state.PROC_RUNNABLE_S := by
    by_cases hin : in_table k.p c.RES_CORES
    · by_cases hw : (res_at k.p c.RES_CORES).amt_wanted = 0
      · have hne : k.p.state ≠ proc_state.PROC_RUNNING_M := by rw [hs]; decide
        rw [core_request_dealloc c k hin hw, full_dealloc_halted c k hne]
        exact hs
      · rcases lt_trichotomy (amt_new c (res_at k.p c.RES_CORES)) 0 with hneg | hz | hpos
        · rw [core_request_neg c k hin hw hneg]
          exact hs
        · rw [core_request_zero c k hin hw hz]
          exact hs
        · rw [core_request_pos c k hin hw hpos]
          by_cases hp : amt_new c (res_at k.p c.RES_CORES) ≤ (k.num_idlecores : Int)
          · rw [if_pos hp, give_out_runnable_s c (set_num_idlecores k
              (k.num_idlecores - (amt_new c (res_at k.p c.RES_CORES)).toNat)) _ _ hs]
            exact hs
          · rw [if_neg hp]
            exact hs
    · rw [core_request_out_of_bounds c k hin]
      exact hs
  refine ⟨?_, hstate, by rw [hstate]; decide⟩
  intro hin hw hd hpool
  rw [core_request_pos c k hin hw hd, if_pos hpool,
    give_out_runnable_s c (set_num_idlecores k
      (k.num_idlecores - (amt_new c (res_at k.p c.RES_CORES)).toNat)) _ _ hs]
  exact ⟨rfl, fun v h => by simp at h⟩

theorem list_set_getD_self (l : List resource) (n : Nat) :
    l.set n (l.getD n default) = l := by
  apply List.ext_getElem?
  intro m
  by_cases hn : n = m
  · subst hn
    by_cases hl : n < l.length
    · simp [List.getD_eq_getElem?_getD, hl]
    · simp [List.getElem?_eq_none (not_lt.mp hl)]
      omega
  · simp [List.getElem?_set_ne hn]

/-- The only slot of the resource table that `core_request` may change is the
    cores entry, and there only the two amounts. -/
theorem core_request_resources (c : Params) (k : kernel)
    (hin : in_table k.p c.RES_CORES) :
    ∃ r : resource,
      (core_request c k).1.p.resources = k.p.resources.set c.RES_CORES.toNat r ∧
      r.amt_wanted_min = (res_at k.p c.RES_CORES).amt_wanted_min ∧
      r.flags = (res_at k.p c.RES_CORES).flags ∧
      (r.amt_wanted = (res_at k.p c.RES_CORES).amt_wanted ∨
        ((res_at k.p c.RES_CORES).amt_wanted ≠ 0 ∧
          amt_new c (res_at k.p c.RES_CORES) < 0 ∧
          core_request c k =
            (set_p k (set_res k.p c.RES_CORES
              { res_at k.p c.RES_CORES with
                amt_wanted := (res_at k.p c.RES_CORES).amt_granted }),
              outcome.returned (-c.EINVAL)))) := by
  have hself : k.p.resources = k.p.resources.set c.RES_CORES.toNat
      (res_at k.p c.RES_CORES) := (list_set_getD_self _ _).symm
  by_cases hw : (res_at k.p c.RES_CORES).amt_wanted = 0
  · rw [core_request_dealloc c k hin hw, (full_dealloc_resources c k).1]
    by_cases hs : k.p.state = proc_state.PROC_RUNNING_M
    · rw [if_pos hs]
      exact ⟨{ res_at k.p c.RES_CORES with amt_granted := 0 }, rfl, rfl, rfl, Or.inl rfl⟩
    · rw [if_neg hs]
      exact ⟨res_at k.p c.RES_CORES, hself, rfl, rfl, Or.inl rfl⟩
  · rcases lt_trichotomy (amt_new c (res_at k.p c.RES_CORES)) 0 with hneg | hz | hpos
    · refine ⟨{ res_at k.p c.RES_CORES with
        amt_wanted := (res_at k.p c.RES_CORES).amt_granted }, ?_, rfl, rfl,
        Or.inr ⟨hw, hneg, core_request_neg c k hin hw hneg⟩⟩
      rw [core_request_neg c k hin hw hneg]
      rfl
    · refine ⟨res_at k.p c.RES_CORES, ?_, rfl, rfl, Or.inl rfl⟩
      rw [core_request_zero c k hin hw hz]
      exact hself
    · rw [core_request_pos c k hin hw hpos]
      by_cases hp : amt_new c (res_at k.p c.RES_CORES) ≤ (k.num_idlecores : Int)
      · rw [if_pos hp]
        refine ⟨{ res_at k.p c.RES_CORES with
          amt_granted := ((res_at k.p c.RES_CORES).amt_granted +
            (amt_new c (res_at k.p c.RES_CORES)).toNat) % 2 ^ c.WORD_BITS }, ?_, rfl, rfl,
          Or.inl rfl⟩
        rw [(give_out_frame c _ _ _).2.2]
        rfl
      · rw [if_neg hp]
        exact ⟨res_at k.p c.RES_CORES, hself, rfl, rfl, Or.inl rfl⟩

/-! ## `resource_req` -/

theorem to_ssize_zero (c : Params) : to_ssize c 0 = 0 :=
  to_ssize_of_nonneg_lt c 0 (le_refl 0) (by positivity)

theorem amt_new_self (c : Params) (r : resource) (h : r.amt_granted = r.amt_wanted) :
    amt_new c r = 0 := by
  unfold amt_new
  rw [h, sub_self]
  exact to_ssize_zero c

theorem set_res_set_res (p : proc) (t : Int) (a b : resource) :
    set_res (set_res p t a) t b = set_res p t b := by
  simp [set_res]

theorem in_table_of_length (p q : proc) (t : Int)
    (h : q.resources.length = p.resources.length) (hin : in_table p t) : in_table q t := by
  unfold in_table at *
  rw [h]
  exact hin

theorem res_at_of_set (p q : proc) (t : Int) (r : resource) (hin : in_table p t)
    (h : q.resources = p.resources.set t.toNat r) : res_at q t = r := by
  have := res_at_set_res p t r hin
  rw [← this]
  exact res_at_congr _ _ _ h

theorem record_request_entry (k : kernel) (type : Int) (w wmin f : Nat)
    (hin : in_table k.p type) :
    res_at (record_request k type w wmin f).p type =
      { res_at k.p type with
        amt_wanted := w, amt_wanted_min := min wmin w, flags := f } := by
  unfold record_request
  simp only [set_p]
  exact res_at_set_res _ _ _ hin

theorem record_request_in_table (k : kernel) (type t : Int) (w wmin f : Nat) :
    in_table (record_request k type w wmin f).p t ↔ in_table k.p t := by
  unfold record_request
  simp only [set_p]
  exact in_table_set_res _ _ _ _

/-- Recording a request that is already recorded changes nothing. -/
theorem record_request_id (k : kernel) (type : Int) (w wmin f : Nat)
    (h1 : (res_at k.p type).amt_wanted = w)
    (h2 : (res_at k.p type).amt_wanted_min = min wmin w)
    (h3 : (res_at k.p type).flags = f) :
    record_request k type w wmin f = k := by
  have he : ({ res_at k.p type with
      amt_wanted := w, amt_wanted_min := min wmin w, flags := f } : resource)
      = res_at k.p type := by
    cases hr : res_at k.p type with
    | mk a b g fl =>
      rw [hr] at h1 h2 h3
      simp only at h1 h2 h3
      simp only [resource.mk.injEq, and_true, true_and]
      exact ⟨h1.symm, h2.symm, h3.symm⟩
  unfold record_request
  rw [he, set_res_res_at]
  rfl

theorem resource_req_noop (c : Params) (k : kernel) (type : Int) (w wmin f : Nat)
    (hin : in_table k.p type)
    (h1 : (res_at k.p type).amt_wanted = w)
    (h2 : (res_at k.p type).amt_wanted_min = min wmin w)
    (h3 : (res_at k.p type).flags = f) :
    resource_req c k type w wmin f = (k, outcome.returned 0) := by
  unfold resource_req
  simp only [hin, not_true_eq_false, if_false]
  rw [record_request_id k type w wmin f h1 h2 h3]
  simp [dispatch, h1]

theorem dispatch_not_cores (c : Params) (k : kernel) (type : Int) (old w : Nat)
    (hne : type ≠ c.RES_CORES) : (dispatch c k type old w).1 = k := by
  unfold dispatch
  simp only [hne, if_false]
  split
  · rfl
  · split
    · rfl
    · split <;> rfl

/-- The cores branch of `dispatch`, when `core_request` returns `v`. -/
theorem dispatch_cores (c : Params) (k kc : kernel) (old w : Nat) (v : Int)
    (hold : old ≠ w) (hcr : core_request c k = (kc, outcome.returned v)) :
    dispatch c k c.RES_CORES old w =
      (kc, outcome.returned (if v < 0 then v else 0)) := by
  unfold dispatch
  simp only [hold, if_false, if_true, hcr]
  split <;> rfl

theorem dispatch_cores_returned (c : Params) (k k1 : kernel) (old w : Nat) (r1 : Int)
    (hold : old ≠ w) (h : dispatch c k c.RES_CORES old w = (k1, outcome.returned r1)) :
    ∃ v, core_request c k = (k1, outcome.returned v) ∧ r1 = (if v < 0 then v else 0) := by
  cases hcr : core_request c k with
  | mk kc oc =>
    cases oc with
    | returned v =>
      rw [dispatch_cores c k kc old w v hold hcr] at h
      cases h
      exact ⟨v, rfl, rfl⟩
    | halted => simp [dispatch, hold, hcr] at h
    | no_return => simp [dispatch, hold, hcr] at h
    | out_of_bounds => simp [dispatch, hold, hcr] at h

/-- Claim C7, as amended (idempotence). Whenever a call
    `resource_req(p, k, w, wmin, f)` returns, an identical second call returns
    too and leaves the whole kernel state exactly as the first call left it; it
    returns success, or the same value as the first call (a cores request
    rejected as a shrink is rejected again). The first call itself need not
    return success. -/
theorem resource_req_twice (c : Params) (k k1 : kernel) (type : Int) (w wmin f : Nat)
    (r1 : Int)
    (h1 : resource_req c k type w wmin f = (k1, outcome.returned r1)) :
    ∃ r2 : Int, resource_req c k1 type w wmin f = (k1, outcome.returned r2) ∧
      (r2 = 0 ∨ r2 = r1) := by
  by_cases hin : in_table k.p type
  swap
  · unfold resource_req at h1
    simp [hin] at h1
  have hinr : in_table (record_request k type w wmin f).p type :=
    (record_request_in_table k type type w wmin f).mpr hin
  have hent := record_request_entry k type w wmin f hin
  have hentw : (res_at (record_request k type w wmin f).p type).amt_wanted = w := by
    rw [hent]
  have hentm : (res_at (record_request k type w wmin f).p type).amt_wanted_min
      = min wmin w := by rw [hent]
  have hentf : (res_at (record_request k type w wmin f).p type).flags = f := by
    rw [hent]
  unfold resource_req at h1
  simp only [hin, not_true_eq_false, if_false] at h1
  generalize hkr : record_request k type w wmin f = kr at h1 hinr hentw hentm hentf
  by_cases hold : (res_at k.p type).amt_wanted = w
  · -- unchanged amount: the first call stops after recording
    simp only [dispatch, hold, if_true, Prod.mk.injEq] at h1
    rw [← h1.1]
    exact ⟨0, resource_req_noop c kr type w wmin f hinr hentw hentm hentf, Or.inl rfl⟩
  by_cases hty : type = c.RES_CORES
  · subst hty
    obtain ⟨v, hcr, hr1⟩ := dispatch_cores_returned c kr k1 _ w r1 hold h1
    obtain ⟨r, hres, hmin, hfl, hwan⟩ := core_request_resources c kr hinr
    rw [hcr] at hres hwan
    simp only at hres
    have hin1 : in_table k1.p c.RES_CORES :=
      in_table_of_length kr.p k1.p _ (by rw [hres, List.length_set]) hinr
    have hr : res_at k1.p c.RES_CORES = r := res_at_of_set kr.p k1.p _ r hinr hres
    rcases hwan with hsame | ⟨hw0, hneg, hshr⟩
    · refine ⟨0, resource_req_noop c k1 _ w wmin f hin1 ?_ ?_ ?_, Or.inl rfl⟩
      · rw [hr, hsame, hentw]
      · rw [hr, hmin, hentm]
      · rw [hr, hfl, hentf]
    · -- rejected shrink: the second call records `w` again and is rejected again
      have hk1 : k1 = set_p kr (set_res kr.p c.RES_CORES
          { res_at kr.p c.RES_CORES with
            amt_wanted := (res_at kr.p c.RES_CORES).amt_granted }) := by
        have := hshr
        simp only [Prod.mk.injEq] at this
        exact this.1
      have hold1 : (res_at k1.p c.RES_CORES).amt_wanted ≠ w := by
        intro hcon
        have hg : (res_at kr.p c.RES_CORES).amt_granted
            = (res_at kr.p c.RES_CORES).amt_wanted := by
          rw [hk1] at hcon
          simp only [set_p] at hcon
          rw [res_at_set_res _ _ _ hinr] at hcon
          rw [hentw]
          exact hcon
        have := amt_new_self c _ hg
        omega
      have hrec : record_request k1 c.RES_CORES w wmin f = kr := by
        have hck : kr = set_p kr kr.p := rfl
        rw [hk1]
        unfold record_request
        simp only [set_p]
        rw [res_at_set_res _ _ _ hinr, set_res_set_res]
        have he : (⟨w, min wmin w, (res_at kr.p c.RES_CORES).amt_granted, f⟩ : resource)
            = res_at kr.p c.RES_CORES := by
          cases hrr : res_at kr.p c.RES_CORES with
          | mk a b g fl =>
            rw [hrr] at hentw hentm hentf
            simp only at hentw hentm hentf
            simp only [resource.mk.injEq, and_true, true_and]
            exact ⟨hentw.symm, hentm.symm, hentf.symm⟩
        simp only
        rw [he, set_res_res_at]
      refine ⟨r1, ?_, Or.inr rfl⟩
      unfold resource_req
      simp only [hin1, not_true_eq_false, if_false]
      rw [hrec, dispatch_cores c kr k1 _ w v hold1 hcr, hr1]
  · have hk1 : k1 = kr := by
      have := dispatch_not_cores c kr type (res_at k.p type).amt_wanted w hty
      rw [h1] at this
      exact this
    rw [hk1]
    exact ⟨0, resource_req_noop c kr type w wmin f hinr hentw hentm hentf, Or.inl rfl⟩

theorem dispatch_unknown (c : Params) (k : kernel) (type : Int) (old w : Nat)
    (h1 : type ≠ c.RES_CORES) (h2 : type ≠ c.RES_MEMORY) (h3 : type ≠ c.RES_APPLE_PIES) :
    dispatch c k type old w =
      (k, if old = w then outcome.returned 0 else outcome.returned (-c.EINVAL)) := by
  unfold dispatch
  by_cases ho : old = w
  · simp [ho]
  · simp [ho, h1, h2, h3]

theorem dispatch_memory (c : Params) (k : kernel) (old w : Nat)
    (h1 : c.RES_CORES ≠ c.RES_MEMORY) :
    dispatch c k c.RES_MEMORY old w =
      (k, if old = w then outcome.returned 0 else outcome.returned (-c.EFAIL)) := by
  unfold dispatch
  by_cases ho : old = w
  · simp [ho]
  · simp [ho, h1.symm]

theorem resource_req_in_table (c : Params) (k : kernel) (type : Int) (w wmin f : Nat)
    (hin : in_table k.p type) :
    resource_req c k type w wmin f =
      dispatch c (record_request k type w wmin f) type (res_at k.p type).amt_wanted w := by
  unfold resource_req
  simp only [hin, not_true_eq_false, if_false]

theorem record_request_other (k : kernel) (type t : Int) (w wmin f : Nat)
    (ht0 : 0 ≤ t) (hty0 : 0 ≤ type) (hne : t ≠ type) :
    res_at (record_request k type w wmin f).p t = res_at k.p t := by
  unfold record_request
  simp only [set_p]
  apply res_at_set_res_ne
  omega

theorem record_request_frame (k : kernel) (type : Int) (w wmin f : Nat) :
    (record_request k type w wmin f).p.state = k.p.state ∧
    (record_request k type w wmin f).idlecoremap = k.idlecoremap ∧
    (record_request k type w wmin f).num_idlecores = k.num_idlecores ∧
    (record_request k type w wmin f).calls = k.calls := by
  simp [record_request, set_p, set_res]

/-- Claim C9, as amended (memory requests). With distinct kinds and positive
    error numbers, a `RES_MEMORY` request whose amount differs from the amount
    already recorded returns `-EFAIL`, a negative value and never success; a
    request whose amount equals the recorded one returns 0 (the early return on
    an unchanged amount). -/
theorem resource_req_memory (c : Params) (k : kernel) (w wmin f : Nat)
    (hc : c.wf) (hin : in_table k.p c.RES_MEMORY) :
    ((res_at k.p c.RES_MEMORY).amt_wanted ≠ w →
      (resource_req c k c.RES_MEMORY w wmin f).2 = outcome.returned (-c.EFAIL) ∧
      -c.EFAIL < 0 ∧
      (resource_req c k c.RES_MEMORY w wmin f).2 ≠ outcome.returned 0) ∧
    ((res_at k.p c.RES_MEMORY).amt_wanted = w →
      (resource_req c k c.RES_MEMORY w wmin f).2 = outcome.returned 0) := by
  have hE : 0 < c.EFAIL := hc.2.2.2.2
  rw [resource_req_in_table c k _ w wmin f hin, dispatch_memory c _ _ w hc.1]
  constructor
  · intro hne
    simp only [hne, if_false]
    refine ⟨trivial, by omega, ?_⟩
    intro h
    simp only [outcome.returned.injEq] at h
    omega
  · intro he
    simp only [he, if_true]

/-- Claim C10 (request recording). For every kind that indexes the table,
    `resource_req` is the dispatch applied to the state in which the request has
    been recorded; in that state the kind's entry has `amt_wanted = w`,
    `amt_wanted_min = min(wmin, w)`, `flags = f` (and its old `amt_granted`), so
    `amt_wanted_min <= amt_wanted` there; the entries of all other kinds are
    unchanged both after recording and when `resource_req` ends. When the call
    ends the entry still has that `amt_wanted_min` and `flags`, and
    `amt_wanted = w` unless `core_request` clamped it in its rejection
    branch. -/
theorem resource_req_records (c : Params) (k : kernel) (type : Int) (w wmin f : Nat)
    (hin : in_table k.p type) :
    resource_req c k type w wmin f =
      dispatch c (record_request k type w wmin f) type (res_at k.p type).amt_wanted w ∧
    res_at (record_request k type w wmin f).p type =
      { res_at k.p type with
        amt_wanted := w, amt_wanted_min := min wmin w, flags := f } ∧
    (res_at (record_request k type w wmin f).p type).amt_wanted_min ≤
      (res_at (record_request k type w wmin f).p type).amt_wanted ∧
    (∀ t : Int, in_table k.p t → t ≠ type →
      res_at (record_request k type w wmin f).p t = res_at k.p t ∧
      res_at (resource_req c k type w wmin f).1.p t = res_at k.p t) ∧
    (res_at (resource_req c k type w wmin f).1.p type).amt_wanted_min = min wmin w ∧
    (res_at (resource_req c k type w wmin f).1.p type).flags = f ∧
    ((res_at (resource_req c k type w wmin f).1.p type).amt_wanted = w ∨
      (type = c.RES_CORES ∧
        amt_new c (res_at (record_request k type w wmin f).p type) < 0)) := by
  have hent := record_request_entry k type w wmin f hin
  have hinr : in_table (record_request k type w wmin f).p type :=
    (record_request_in_table k type type w wmin f).mpr hin
  have hfinal : ∃ r : resource,
      (resource_req c k type w wmin f).1.p.resources =
        (record_request k type w wmin f).p.resources.set type.toNat r ∧
      r.amt_wanted_min = min wmin w ∧ r.flags = f ∧
      (r.amt_wanted = w ∨ (type = c.RES_CORES ∧
        amt_new c (res_at (record_request k type w wmin f).p type) < 0)) := by
    rw [resource_req_in_table c k type w wmin f hin]
    have hself : ∃ r : resource,
        (record_request k type w wmin f).p.resources =
          (record_request k type w wmin f).p.resources.set type.toNat r ∧
        r.amt_wanted_min = min wmin w ∧ r.flags = f ∧
        (r.amt_wanted = w ∨ (type = c.RES_CORES ∧
          amt_new c (res_at (record_request k type w wmin f).p type) < 0)) :=
      ⟨res_at (record_request k type w wmin f).p type, (list_set_getD_self _ _).symm,
        by rw [hent], by rw [hent], Or.inl (by rw [hent])⟩
    by_cases hty : type = c.RES_CORES
    · by_cases hold : (res_at k.p type).amt_wanted = w
      · simpa [dispatch, hold] using hself
      · subst hty
        obtain ⟨r, hres, hmin, hfl, hwan⟩ :=
          core_request_resources c (record_request k c.RES_CORES w wmin f) hinr
        have hd1 : (dispatch c (record_request k c.RES_CORES w wmin f) c.RES_CORES
            (res_at k.p c.RES_CORES).amt_wanted w).1 =
            (core_request c (record_request k c.RES_CORES w wmin f)).1 := by
          unfold dispatch
          simp only [hold, if_false, if_true]
          split
          · split <;> rfl
          · rfl
        rw [hd1]
        refine ⟨r, hres, by rw [hmin, hent], by rw [hfl, hent], ?_⟩
        rcases hwan with hsame | ⟨-, hneg, -⟩
        · exact Or.inl (by rw [hsame, hent])
        · exact Or.inr ⟨rfl, hneg⟩
    · rw [dispatch_not_cores c _ type _ w hty]
      exact hself
  obtain ⟨r, hres, hmin, hfl, hwan⟩ := hfinal
  have hr : res_at (resource_req c k type w wmin f).1.p type = r :=
    res_at_of_set _ _ _ r hinr hres
  refine ⟨resource_req_in_table c k type w wmin f hin, hent, ?_, ?_, by rw [hr, hmin],
    by rw [hr, hfl], ?_⟩
  · rw [hent]
    exact min_le_right wmin w
  · intro t ht hne
    have h1 := record_request_other k type t w wmin f ht.1 hin.1 hne
    refine ⟨h1, ?_⟩
    rw [← h1]
    unfold res_at
    rw [hres]
    have hnat : type.toNat ≠ t.toNat := by
      have := ht.1
      have := hin.1
      omega
    simp [List.getD_eq_getElem?_getD, List.getElem?_set_ne hnat]
  · rw [hr]
    exact hwan

/-! ## Evaluations at concrete inputs -/

/-- Scenario 2: wanted 4, granted 0, two idle cores. -/
theorem core_request_all_or_nothing_witness :
    0 < amt_new params32 (res_at (mk_proc proc_state.PROC_RUNNING_S 4 0) 0) ∧
    (core_request params32 (mk_kernel (mk_proc proc_state.PROC_RUNNING_S 4 0) [10, 11])).2
      = outcome.returned 0 ∧
    (core_request params32 (mk_kernel (mk_proc proc_state.PROC_RUNNING_S 4 0) [10, 11])).1
      = mk_kernel (mk_proc proc_state.PROC_RUNNING_S 4 0) [10, 11] :=
  ⟨by decide,
    core_request_all_or_nothing params32
      (mk_kernel (mk_proc proc_state.PROC_RUNNING_S 4 0) [10, 11])
      (by decide) (by decide) (by decide) (by decide)⟩

/-- Wanted 4, granted 1, five idle cores: 3 are granted, 2 stay idle. -/
theorem core_request_no_over_grant_witness :
    (core_request params32
      (mk_kernel (mk_proc proc_state.PROC_RUNNING_M 4 1) [10, 11, 12, 13, 14])).1.num_idlecores
      = 2 ∧
    ((3 : Int) = 0 ∨ (3 : Int) = ((4 : Nat) : Int) - ((1 : Nat) : Int)) :=
  ⟨by decide,
    (core_request_no_over_grant params32
      (mk_kernel (mk_proc proc_state.PROC_RUNNING_M 4 1) [10, 11, 12, 13, 14])
      (core_request params32
        (mk_kernel (mk_proc proc_state.PROC_RUNNING_M 4 1) [10, 11, 12, 13, 14])).1
      3 (by decide) (by decide) (by decide) (by decide) (by decide) (by decide)).1⟩

/-- Wanted 2, granted 3: the request is rejected. -/
theorem core_request_shrink_rejected_witness :
    (core_request params32 (mk_kernel (mk_proc proc_state.PROC_RUNNING_M 2 3) [10, 11])).2
      = outcome.returned (-params32.EINVAL) :=
  (core_request_shrink_rejected params32
    (mk_kernel (mk_proc proc_state.PROC_RUNNING_M 2 3) [10, 11])
    (by decide) (by decide) (by decide) (by decide)).1

/-- Claim C4 as stated fails: for a `PROC_RUNNING_M` process on the cores 0, 1
    and 2 with `amt_wanted = 0`, the call being made on core 0, the call does
    not return 0, it does not return. -/
theorem core_request_full_dealloc_counterexample :
    (mk_kernel (mk_mcp 0) [10, 11]).p.state
      = proc_state.PROC_RUNNING_M ∧
    (res_at (mk_kernel (mk_mcp 0) [10, 11]).p
      params32.RES_CORES).amt_wanted = 0 ∧
    (core_request params32 (mk_kernel (mk_mcp 0) [10, 11])).2
      = outcome.no_return ∧
    (core_request params32 (mk_kernel (mk_mcp 0) [10, 11])).2
      ≠ outcome.returned 0 := by
  decide

/-- Scenario 3: a `PROC_RUNNING_M` process on the cores 0, 1 and 2 with
    `amt_wanted = 0`, the call being made on core 7, which is not one of its
    cores. -/
theorem core_request_full_dealloc_witness :
    (core_request params32
      (mk_kernel_at (mk_mcp 0) [10, 11] 7)).2
      = outcome.returned 0 ∧
    (core_request params32
      (mk_kernel_at (mk_mcp 0) [10, 11] 7)).1.p.state
      = proc_state.PROC_RUNNABLE_S :=
  ⟨((core_request_full_dealloc params32
      (mk_kernel_at (mk_mcp 0) [10, 11] 7)
      (by decide) (by decide)).2.2 (by decide)).1.1 (by decide),
   ((core_request_full_dealloc params32
      (mk_kernel_at (mk_mcp 0) [10, 11] 7)
      (by decide) (by decide)).2.2 (by decide)).2.2.1⟩

/-- Scenario 1: wanted 4, granted 0, six idle cores, request from the process's
    own core. -/
theorem core_request_single_to_multi_witness :
    (core_request params32
      (mk_kernel (mk_proc proc_state.PROC_RUNNING_S 4 0) [10, 11, 12, 13, 14, 15])).2
      = outcome.no_return ∧
    ((core_request params32
      (mk_kernel (mk_proc proc_state.PROC_RUNNING_S 4 0)
        [10, 11, 12, 13, 14, 15])).1.num_idlecores : Int)
      = ((6 : Nat) : Int) - amt_new params32 (res_at (mk_proc proc_state.PROC_RUNNING_S 4 0) 0) :=
  ⟨((core_request_single_to_multi params32
      (mk_kernel (mk_proc proc_state.PROC_RUNNING_S 4 0) [10, 11, 12, 13, 14, 15])
      (by decide) (by decide) (by decide) (by decide) (by decide)).2.1
        ⟨by decide, by decide⟩).1,
   ((core_request_single_to_multi params32
      (mk_kernel (mk_proc proc_state.PROC_RUNNING_S 4 0) [10, 11, 12, 13, 14, 15])
      (by decide) (by decide) (by decide) (by decide) (by decide)).2.1
        ⟨by decide, by decide⟩).2.1⟩

/-- A `PROC_RUNNABLE_S` process wanting one core while two are idle. -/
theorem core_request_runnable_s_fatal_witness :
    (core_request params32 (mk_kernel (mk_proc proc_state.PROC_RUNNABLE_S 1 0) [10, 11])).2
      = outcome.halted :=
  ((core_request_runnable_s_fatal params32
    (mk_kernel (mk_proc proc_state.PROC_RUNNABLE_S 1 0) [10, 11]) (by decide)).1
      (by decide) (by decide) (by decide) (by decide)).1

/-- Claim C7 as stated fails: a first `RES_MEMORY` request with a changed amount
    returns `-EFAIL`, not success. -/
theorem resource_req_twice_counterexample :
    ¬ (∀ (c : Params) (k : kernel) (type : Int) (w wmin f : Nat),
        c.wf → in_table k.p type →
        (resource_req c k type w wmin f).2 = outcome.returned 0 ∧
        (resource_req c (resource_req c k type w wmin f).1 type w wmin f).2
          = outcome.returned 0 ∧
        (resource_req c (resource_req c k type w wmin f).1 type w wmin f).1
          = (resource_req c k type w wmin f).1) := by
  intro h
  have h1 := (h params32 (mk_kernel (mk_proc proc_state.PROC_RUNNING_M 2 2) [10, 11])
    1 5 9 0 (by decide) (by decide)).1
  revert h1
  decide

/-- A rejected shrink (wanted 1, granted 3) requested twice. -/
theorem resource_req_twice_witness :
    ∃ r2 : Int,
      resource_req params32
        (resource_req params32
          (mk_kernel (mk_proc proc_state.PROC_RUNNING_M 2 3) [10, 11]) 0 1 9 0).1 0 1 9 0
        = ((resource_req params32
          (mk_kernel (mk_proc proc_state.PROC_RUNNING_M 2 3) [10, 11]) 0 1 9 0).1,
            outcome.returned r2) ∧
      (r2 = 0 ∨ r2 = -7) :=
  resource_req_twice params32
    (mk_kernel (mk_proc proc_state.PROC_RUNNING_M 2 3) [10, 11])
    (resource_req params32
      (mk_kernel (mk_proc proc_state.PROC_RUNNING_M 2 3) [10, 11]) 0 1 9 0).1
    0 1 9 0 (-7) (by decide)

/-- Claim C9 as stated fails: a `RES_MEMORY` request for the amount already
    recorded returns success. -/
theorem resource_req_memory_counterexample :
    ¬ (∀ (c : Params) (k : kernel) (w wmin f : Nat),
        c.wf → in_table k.p c.RES_MEMORY →
        ∃ v : Int, (resource_req c k c.RES_MEMORY w wmin f).2 = outcome.returned v ∧ v < 0) := by
  intro h
  obtain ⟨v, hv, hneg⟩ := h params32
    (mk_kernel (mk_proc proc_state.PROC_RUNNING_M 2 2) [10, 11]) 0 0 0 (by decide) (by decide)
  have h0 : (resource_req params32
      (mk_kernel (mk_proc proc_state.PROC_RUNNING_M 2 2) [10, 11])
      params32.RES_MEMORY 0 0 0).2 = outcome.returned 0 := by decide
  rw [h0] at hv
  simp only [outcome.returned.injEq] at hv
  omega

/-- A `RES_MEMORY` request with a changed amount. -/
theorem resource_req_memory_witness :
    (resource_req params32
      (mk_kernel (mk_proc proc_state.PROC_RUNNING_M 2 2) [10, 11])
      params32.RES_MEMORY 5 9 0).2 = outcome.returned (-params32.EFAIL) :=
  ((resource_req_memory params32
    (mk_kernel (mk_proc proc_state.PROC_RUNNING_M 2 2) [10, 11]) 5 9 0
    (by decide) (by decide)).1 (by decide)).1

/-- Recording `(4, 9, 1)` for cores stores `amt_wanted_min = 4`. -/
theorem resource_req_records_witness :
    res_at (record_request
      (mk_kernel (mk_proc proc_state.PROC_RUNNING_M 2 2) [10, 11]) 0 4 9 1).p 0
      = ⟨4, 4, 2, 1⟩ :=
  (resource_req_records params32
    (mk_kernel (mk_proc proc_state.PROC_RUNNING_M 2 2) [10, 11]) 0 4 9 1 (by decide)).2.1

/-! ## The unchanged-amount path of `resource_req` -/

/-- Claim C11 (an unchanged amount is a no-op). For a kind that indexes the
    table, if the requested `amt_wanted` equals the `amt_wanted` recorded for
    that kind, `resource_req` ends right after recording: it returns 0, its
    final state is the state after `record_request` (the dispatch, hence
    `core_request`, is not reached and no external call is made), and every
    entry's `amt_granted`, the process state, `idlecoremap` and
    `num_idlecores` are unchanged. -/
theorem resource_req_unchanged_amount (c : Params) (k : kernel) (type : Int)
    (w wmin f : Nat)
    (hin : in_table k.p type)
    (hold : (res_at k.p type).amt_wanted = w) :
    resource_req c k type w wmin f =
      (record_request k type w wmin f, outcome.returned 0) ∧
    (resource_req c k type w wmin f).1.calls = k.calls ∧
    (∀ t : Int, in_table k.p t →
      (res_at (resource_req c k type w wmin f).1.p t).amt_granted =
        (res_at k.p t).amt_granted) ∧
    (resource_req c k type w wmin f).1.p.state = k.p.state ∧
    (resource_req c k type w wmin f).1.idlecoremap = k.idlecoremap ∧
    (resource_req c k type w wmin f).1.num_idlecores = k.num_idlecores := by
  have e : resource_req c k type w wmin f =
      (record_request k type w wmin f, outcome.returned 0) := by
    rw [resource_req_in_table c k type w wmin f hin]
    simp [dispatch, hold]
  obtain ⟨f1, f2, f3, f4⟩ := record_request_frame k type w wmin f
  rw [e]
  refine ⟨rfl, f4, ?_, f1, f2, f3⟩
  intro t ht
  by_cases hne : t = type
  · subst hne
    rw [record_request_entry k t w wmin f hin]
  · rw [record_request_other k type t w wmin f ht.1 hin.1 hne]

/-! ## Semaphores -/

theorem wrap_int_of_range (x : Int) (h : int_range x) : wrap_int x = x := by
  unfold int_range INT_MIN INT_MAX INT_BITS at h
  unfold wrap_int INT_MIN INT_BITS
  norm_num at h ⊢
  omega

theorem wrap_int_range (x : Int) : int_range (wrap_int x) := by
  unfold int_range wrap_int INT_MIN INT_MAX INT_BITS
  norm_num
  omega

/-- At `INT_MIN` the decrement wraps to `INT_MAX`, at `INT_MAX` the increment
    wraps to `INT_MIN`. -/
theorem wrap_int_overflow :
    wrap_int (INT_MIN - 1) = INT_MAX ∧ wrap_int (INT_MAX + 1) = INT_MIN := by
  decide

theorem down_sem_nr (sem : semaphore) (kthread : Option Nat) :
    (__down_sem sem kthread).1.nr_signals = wrap_int (sem.nr_signals - 1) := by
  unfold __down_sem
  by_cases h : sem.nr_signals ≤ 0
  · cases kthread <;> simp [h]
  · simp [h]

theorem down_sem_some (sem : semaphore) (kt : Nat) (h : sem.nr_signals ≤ 0) :
    __down_sem sem (some kt) =
      ({ waiters := sem.waiters ++ [kt], nr_signals := wrap_int (sem.nr_signals - 1) },
        true) := by
  simp [__down_sem, h]

theorem down_sem_none (sem : semaphore) :
    __down_sem sem none =
      ({ sem with nr_signals := wrap_int (sem.nr_signals - 1) }, false) := by
  unfold __down_sem
  by_cases h : sem.nr_signals ≤ 0 <;> simp [h]

theorem down_sem_pos (sem : semaphore) (kthread : Option Nat) (h : ¬ sem.nr_signals ≤ 0) :
    __down_sem sem kthread =
      ({ sem with nr_signals := wrap_int (sem.nr_signals - 1) }, false) := by
  simp [__down_sem, h]

/-- Claim C12, as amended (semaphore down). For a counter above `INT_MIN`,
    `__down_sem` decrements `nr_signals` by exactly one. For a non-null
    kthread it returns true and appends the kthread at the tail of the wait
    queue if and only if the counter was `<= 0` before the decrement, and
    otherwise returns false and leaves the queue unchanged. For a null kthread
    it returns false and leaves the queue unchanged whatever the counter
    was. -/
theorem down_sem_spec (sem : semaphore) (kthread : Option Nat)
    (hlo : INT_MIN < sem.nr_signals) (hhi : sem.nr_signals ≤ INT_MAX) :
    (__down_sem sem kthread).1.nr_signals = sem.nr_signals - 1 ∧
    (∀ kt : Nat, kthread = some kt →
      (((__down_sem sem kthread).2 = true ∧
          (__down_sem sem kthread).1.waiters = sem.waiters ++ [kt]) ↔
        sem.nr_signals ≤ 0) ∧
      (¬ sem.nr_signals ≤ 0 →
        (__down_sem sem kthread).2 = false ∧
        (__down_sem sem kthread).1.waiters = sem.waiters)) ∧
    (kthread = none →
      (__down_sem sem kthread).2 = false ∧
      (__down_sem sem kthread).1.waiters = sem.waiters) := by
  refine ⟨?_, ?_, ?_⟩
  · rw [down_sem_nr]
    exact wrap_int_of_range _ ⟨by omega, by omega⟩
  · intro kt hk
    subst hk
    constructor
    · constructor
      · intro h
        by_contra hn
        rw [down_sem_pos sem _ hn] at h
        simp at h
      · intro h
        rw [down_sem_some sem kt h]
        exact ⟨rfl, rfl⟩
    · intro hn
      rw [down_sem_pos sem _ hn]
      exact ⟨rfl, rfl⟩
  · intro hk
    subst hk
    rw [down_sem_none]
    exact ⟨rfl, rfl⟩

theorem up_sem_nr (sem : semaphore) (exactly_one : Bool) :
    (__up_sem sem exactly_one).1.nr_signals = wrap_int (sem.nr_signals + 1) := by
  unfold __up_sem
  by_cases h : sem.nr_signals < 0
  · cases hw : sem.waiters with
    | nil => simp [h, hw]
    | cons kt rest =>
      by_cases he : exactly_one = true ∧ rest ≠ []
      · simp [h, hw, he]
      · simp only [h, hw, if_true]
        rw [if_neg he]
  · by_cases hw : sem.waiters = []
    · simp [h, hw]
    · simp [h, hw]

theorem up_sem_pop (sem : semaphore) (exactly_one : Bool) (kt : Nat) (rest : List Nat)
    (h : sem.nr_signals < 0) (hw : sem.waiters = kt :: rest)
    (he : ¬ (exactly_one = true ∧ rest ≠ [])) :
    __up_sem sem exactly_one =
      ({ waiters := rest, nr_signals := wrap_int (sem.nr_signals + 1) },
        result.returned (some kt)) := by
  unfold __up_sem
  simp only [h, hw, if_true]
  rw [if_neg he]

theorem up_sem_pop_halted (sem : semaphore) (exactly_one : Bool) (kt : Nat)
    (rest : List Nat)
    (h : sem.nr_signals < 0) (hw : sem.waiters = kt :: rest)
    (he : exactly_one = true ∧ rest ≠ []) :
    __up_sem sem exactly_one =
      ({ waiters := rest, nr_signals := wrap_int (sem.nr_signals + 1) },
        result.halted) := by
  unfold __up_sem
  simp only [h, hw, if_true]
  rw [if_pos he]

/-- With a counter `< 0` and an empty queue `TAILQ_FIRST` is `NULL`, and
    `TAILQ_REMOVE` dereferences it. -/
theorem up_sem_no_head (sem : semaphore) (exactly_one : Bool)
    (h : sem.nr_signals < 0) (hw : sem.waiters = []) :
    (__up_sem sem exactly_one).2 = result.fault := by
  simp [__up_sem, h, hw]

/-- The branches of `__up_sem`. The counter becomes `nr_signals + 1` as an
    `int`. If the counter was `< 0` and the queue is `kt :: rest`, the head
    `kt` is unlinked, the queue becomes `rest`, and the call returns `kt`,
    unless `exactly_one` is set and `rest` is not empty, in which case the
    assertion halts the kernel; with an empty queue there is no head and the
    null pointer is dereferenced. If the counter was `>= 0`, the queue is left
    as it is, and the call returns no kthread when the queue is empty and halts
    on its assertion when it is not. -/
theorem up_sem_branches (sem : semaphore) (exactly_one : Bool) :
    (__up_sem sem exactly_one).1.nr_signals = wrap_int (sem.nr_signals + 1) ∧
    (sem.nr_signals < INT_MAX → INT_MIN ≤ sem.nr_signals →
      (__up_sem sem exactly_one).1.nr_signals = sem.nr_signals + 1) ∧
    (sem.nr_signals < 0 →
      (∀ (kt : Nat) (rest : List Nat), sem.waiters = kt :: rest →
        (__up_sem sem exactly_one).1.waiters = rest ∧
        ((exactly_one = true ∧ rest ≠ []) →
          (__up_sem sem exactly_one).2 = result.halted) ∧
        (¬ (exactly_one = true ∧ rest ≠ []) →
          (__up_sem sem exactly_one).2 = result.returned (some kt))) ∧
      (sem.waiters = [] → (__up_sem sem exactly_one).2 = result.fault)) ∧
    (0 ≤ sem.nr_signals →
      (__up_sem sem exactly_one).1.waiters = sem.waiters ∧
      (sem.waiters = [] → (__up_sem sem exactly_one).2 = result.returned none) ∧
      (sem.waiters ≠ [] → (__up_sem sem exactly_one).2 = result.halted)) := by
  refine ⟨up_sem_nr sem exactly_one, ?_, ?_, ?_⟩
  · intro h1 h2
    rw [up_sem_nr]
    exact wrap_int_of_range _ ⟨by omega, by omega⟩
  · intro h
    constructor
    · intro kt rest hw
      by_cases he : exactly_one = true ∧ rest ≠ []
      · rw [up_sem_pop_halted sem exactly_one kt rest h hw he]
        exact ⟨rfl, fun _ => rfl, fun hn => absurd he hn⟩
      · rw [up_sem_pop sem exactly_one kt rest h hw he]
        exact ⟨rfl, fun hh => absurd hh he, fun _ => rfl⟩
    · intro hw
      exact up_sem_no_head sem exactly_one h hw
  · intro h
    have hn : ¬ sem.nr_signals < 0 := not_lt.mpr h
    by_cases hw : sem.waiters = []
    · simp [__up_sem, hn, hw]
    · simp [__up_sem, hn, hw]

/-- When every `__down_sem` of a sequence returns true and the counter does not
    pass `INT_MIN`, every kthread was non-null and was appended, and the
    counter dropped by the number of calls. -/
theorem down_seq_all_true (sem : semaphore) (ks : List (Option Nat))
    (hlo : INT_MIN ≤ sem.nr_signals - (ks.length : Int))
    (hhi : sem.nr_signals ≤ INT_MAX)
    (hall : ∀ b ∈ (down_seq sem ks).2, b = true) :
    ∃ kts : List Nat, ks = kts.map some ∧
      (down_seq sem ks).1 =
        { waiters := sem.waiters ++ kts, nr_signals := sem.nr_signals - kts.length } ∧
      (ks ≠ [] → sem.nr_signals ≤ 0) := by
  induction ks generalizing sem with
  | nil =>
    refine ⟨[], rfl, ?_, fun h => absurd rfl h⟩
    simp [down_seq]
  | cons k rest ih =>
    simp only [down_seq, List.mem_cons, forall_eq_or_imp] at hall
    obtain ⟨h1, h2⟩ := hall
    simp only [List.length_cons, Nat.cast_add, Nat.cast_one] at hlo
    have hle : sem.nr_signals ≤ 0 := by
      by_contra hn
      rw [down_sem_pos sem k hn] at h1
      simp at h1
    have hwrap : wrap_int (sem.nr_signals - 1) = sem.nr_signals - 1 :=
      wrap_int_of_range _ ⟨by omega, by omega⟩
    cases k with
    | none =>
      rw [down_sem_none] at h1
      simp at h1
    | some kt =>
      have hnr : (__down_sem sem (some kt)).1.nr_signals = sem.nr_signals - 1 := by
        rw [down_sem_nr, hwrap]
      obtain ⟨kts, hk, hs, -⟩ := ih (__down_sem sem (some kt)).1
        (by rw [hnr]; omega) (by rw [hnr]; omega) h2
      have hlen : rest.length = kts.length := by rw [hk, List.length_map]
      refine ⟨kt :: kts, by rw [hk]; rfl, ?_, fun _ => hle⟩
      simp only [down_seq]
      rw [hs, down_sem_some sem kt hle, hwrap]
      simp only [List.length_cons, Nat.cast_add, Nat.cast_one, semaphore.mk.injEq,
        List.append_assoc, List.singleton_append, true_and]
      omega

/-- A run of `m` calls of `__up_sem` that all find a negative counter and a
    waiter pops the first `m` waiters in order. -/
theorem up_seq_pops (q : List Nat) (n : Int) (exactly_one : Bool) (m : Nat)
    (hm : m ≤ q.length) (hn : n + (m : Int) ≤ 0) (hlo : INT_MIN ≤ n)
    (hone : exactly_one = true → q.length ≤ 1) :
    up_seq { waiters := q, nr_signals := n } exactly_one m =
      ({ waiters := q.drop m, nr_signals := n + (m : Int) },
        (q.take m).map (fun kt => result.returned (some kt))) := by
  induction m generalizing q n with
  | zero => simp [up_seq]
  | succ m ih =>
    cases q with
    | nil => simp at hm
    | cons kt rest =>
      have hneg : n < 0 := by push_cast at hn; omega
      have hmax : (0 : Int) ≤ INT_MAX := by decide
      have hwrap : wrap_int (n + 1) = n + 1 :=
        wrap_int_of_range _ ⟨by omega, by omega⟩
      have he : ¬ (exactly_one = true ∧ rest ≠ []) := by
        rintro ⟨h1, h2⟩
        have := hone h1
        simp only [List.length_cons] at this
        have hr : rest.length = 0 := by omega
        exact h2 (List.length_eq_zero.mp hr)
      have hup := up_sem_pop { waiters := kt :: rest, nr_signals := n } exactly_one kt rest
        hneg rfl he
      simp only [hwrap] at hup
      simp only [up_seq, hup]
      have hm' : m ≤ rest.length := by
        simp only [List.length_cons] at hm
        omega
      have hone' : exactly_one = true → rest.length ≤ 1 := by
        intro h1
        have := hone h1
        simp only [List.length_cons] at this
        omega
      rw [ih rest (n + 1) hm' (by push_cast at hn; omega) (by omega) hone']
      simp only [List.drop_succ_cons, List.take_succ_cons, List.map_cons, Prod.mk.injEq,
        semaphore.mk.injEq, true_and, and_true]
      push_cast
      ring

/-- Claim C14, as amended (semaphore fairness). For a semaphore whose counter
    stays within the range of `int` during the sequence
    (`nr_signals - N >= INT_MIN`): if `N` sequential `__down_sem` calls with
    kthreads `k1..kN` each return true and are followed by `N` `__up_sem` calls
    (with `exactly_one` set only if at most one kthread is queued in all), then
    the `N` calls return, in order, the first `N` entries of the initial wait
    queue followed by `k1..kN`, and `nr_signals` ends equal to its value before
    the sequence. When the wait queue is empty at the start, the `i`-th up
    returns `ki` for each `i` and the queue is empty again at the end. -/
theorem sem_fairness (sem : semaphore) (ks : List (Option Nat)) (exactly_one : Bool)
    (hlo : INT_MIN ≤ sem.nr_signals - (ks.length : Int))
    (hhi : sem.nr_signals ≤ INT_MAX)
    (hall : ∀ b ∈ (down_seq sem ks).2, b = true)
    (hone : exactly_one = true → sem.waiters.length + ks.length ≤ 1) :
    (up_seq (down_seq sem ks).1 exactly_one ks.length).2 =
      ((sem.waiters.map some ++ ks).take ks.length).map result.returned ∧
    (up_seq (down_seq sem ks).1 exactly_one ks.length).1.nr_signals = sem.nr_signals ∧
    (sem.waiters = [] →
      (up_seq (down_seq sem ks).1 exactly_one ks.length).2 = ks.map result.returned ∧
      (up_seq (down_seq sem ks).1 exactly_one ks.length).1.waiters = []) := by
  obtain ⟨kts, hk, hs, hle⟩ := down_seq_all_true sem ks hlo hhi hall
  have hlen : ks.length = kts.length := by rw [hk, List.length_map]
  by_cases he : ks = []
  · subst he
    simp [down_seq, up_seq]
  · have hle0 := hle he
    have hone' : exactly_one = true → (sem.waiters ++ kts).length ≤ 1 := by
      intro h1
      have := hone h1
      rw [List.length_append]
      omega
    have hpop := up_seq_pops (sem.waiters ++ kts)
      (sem.nr_signals - (kts.length : Int)) exactly_one kts.length
      (by rw [List.length_append]; omega) (by omega) (by rw [← hlen]; exact hlo) hone'
    rw [hs, hlen, hpop]
    refine ⟨?_, by simp, ?_⟩
    · simp only [hk, ← List.map_append, ← List.map_take, List.map_map]
      rfl
    · intro hw
      rw [hw]
      simp only [List.nil_append, List.take_length, List.drop_length, and_true,
        hk, List.map_map]
      rfl

/-! ## Kernel messages -/

theorem pcpui_at_set_pcpui (s : kmsg_state) (d : Nat) (v : kmsg_cpu)
    (h : d < s.per_cpu_info.length) : pcpui_at (set_pcpui s d v) d = v := by
  simp [pcpui_at, set_pcpui, List.getD_eq_getElem?_getD, h]

theorem pcpui_at_set_pcpui_ne (s : kmsg_state) (d e : Nat) (v : kmsg_cpu) (h : d ≠ e) :
    pcpui_at (set_pcpui s d v) e = pcpui_at s e := by
  simp [pcpui_at, set_pcpui, List.getD_eq_getElem?_getD, List.getElem?_set_ne h]

@[simp] theorem set_pcpui_length (s : kmsg_state) (d : Nat) (v : kmsg_cpu) :
    (set_pcpui s d v).per_cpu_info.length = s.per_cpu_info.length := by
  simp [set_pcpui]

@[simp] theorem set_pcpui_core_id (s : kmsg_state) (d : Nat) (v : kmsg_cpu) :
    (set_pcpui s d v).core_id = s.core_id := rfl

@[simp] theorem set_pcpui_events (s : kmsg_state) (d : Nat) (v : kmsg_cpu) :
    (set_pcpui s d v).events = s.events := rfl

@[simp] theorem set_pcpui_irq (s : kmsg_state) (d : Nat) (v : kmsg_cpu) :
    (set_pcpui s d v).irq_enabled = s.irq_enabled := rfl

@[simp] theorem log_event_per_cpu_info (s : kmsg_state) (e : kmsg_event) :
    (log_event s e).per_cpu_info = s.per_cpu_info := rfl

@[simp] theorem log_event_core_id (s : kmsg_state) (e : kmsg_event) :
    (log_event s e).core_id = s.core_id := rfl

@[simp] theorem log_event_irq (s : kmsg_state) (e : kmsg_event) :
    (log_event s e).irq_enabled = s.irq_enabled := rfl

@[simp] theorem log_event_events (s : kmsg_state) (e : kmsg_event) :
    (log_event s e).events = s.events ++ [e] := rfl

@[simp] theorem pcpui_at_log_event (s : kmsg_state) (e : kmsg_event) (d : Nat) :
    pcpui_at (log_event s e) d = pcpui_at s d := rfl

/-- An immediate send. -/
theorem send_immediate (c : KmsgParams) (s : kmsg_state) (dst pc : Nat)
    (arg0 arg1 arg2 : Int) (hpc : pc ≠ 0) (hdst : dst < s.per_cpu_info.length) :
    send_kernel_message c s dst pc arg0 arg1 arg2 c.KMSG_IMMEDIATE =
      (log_event
        (set_pcpui (log_event s kmsg_event.kmem_cache_alloc) dst
          { pcpui_at s dst with
            immed_amsgs := (pcpui_at s dst).immed_amsgs ++
              [msg_of ⟨s.core_id, dst, pc, arg0, arg1, arg2, c.KMSG_IMMEDIATE⟩] })
        (kmsg_event.send_ipi dst c.I_KERNEL_MSG),
        result.returned 0) := by
  unfold send_kernel_message
  simp [hpc, hdst, msg_of]

/-- A routine send. -/
theorem send_routine (c : KmsgParams) (s : kmsg_state) (dst pc : Nat)
    (arg0 arg1 arg2 : Int) (hc : c.KMSG_IMMEDIATE ≠ c.KMSG_ROUTINE) (hpc : pc ≠ 0)
    (hdst : dst < s.per_cpu_info.length) :
    send_kernel_message c s dst pc arg0 arg1 arg2 c.KMSG_ROUTINE =
      ((if dst ≠ s.core_id then
          log_event
            (set_pcpui (log_event s kmsg_event.kmem_cache_alloc) dst
              { pcpui_at s dst with
                routine_amsgs := (pcpui_at s dst).routine_amsgs ++
                  [msg_of ⟨s.core_id, dst, pc, arg0, arg1, arg2, c.KMSG_ROUTINE⟩] })
            (kmsg_event.send_ipi dst c.I_KERNEL_MSG)
        else
          set_pcpui (log_event s kmsg_event.kmem_cache_alloc) dst
            { pcpui_at s dst with
              routine_amsgs := (pcpui_at s dst).routine_amsgs ++
                [msg_of ⟨s.core_id, dst, pc, arg0, arg1, arg2, c.KMSG_ROUTINE⟩] }),
        result.returned 0) := by
  unfold send_kernel_message
  by_cases hd : dst = s.core_id
  · have hdst2 : s.core_id < s.per_cpu_info.length := hd ▸ hdst
    simp [hpc, hdst2, msg_of, hc.symm, hd]
  · simp [hpc, hdst, msg_of, hc.symm, hd]

/-- A send with a class that is neither immediate nor routine. -/
theorem send_unknown_class (c : KmsgParams) (s : kmsg_state) (dst pc : Nat)
    (arg0 arg1 arg2 : Int) (type : Int) (hpc : pc ≠ 0)
    (h1 : type ≠ c.KMSG_IMMEDIATE) (h2 : type ≠ c.KMSG_ROUTINE) :
    send_kernel_message c s dst pc arg0 arg1 arg2 type =
      (log_event s kmsg_event.kmem_cache_alloc, result.halted) := by
  unfold send_kernel_message
  simp [hpc, h1, h2]

/-- Claim C15 (send). With distinct class constants and a destination inside
    `per_cpu_info[]`: for a non-null handler and a class in
    `{KMSG_IMMEDIATE, KMSG_ROUTINE}`, `send_kernel_message` returns 0, appends
    the message `(srcid = core_id(), dst, pc, arg0, arg1, arg2)` at the tail of
    the destination's queue for that class, leaves the destination's queue of
    the other class and every other core's entry unchanged, and sends the IPI
    to `dst` exactly when `dst` differs from the sending core or the class is
    immediate; for any other class it halts without touching a queue or
    sending an IPI; a null handler fails the first assertion. -/
theorem send_kernel_message_spec (c : KmsgParams) (s : kmsg_state) (dst pc : Nat)
    (arg0 arg1 arg2 : Int) (type : Int)
    (hc : c.KMSG_IMMEDIATE ≠ c.KMSG_ROUTINE)
    (hdst : dst < s.per_cpu_info.length) :
    (pc ≠ 0 → (type = c.KMSG_IMMEDIATE ∨ type = c.KMSG_ROUTINE) →
      (send_kernel_message c s dst pc arg0 arg1 arg2 type).2 = result.returned 0 ∧
      (pcpui_at (send_kernel_message c s dst pc arg0 arg1 arg2 type).1 dst).immed_amsgs =
        (if type = c.KMSG_IMMEDIATE then
          (pcpui_at s dst).immed_amsgs ++ [msg_of ⟨s.core_id, dst, pc, arg0, arg1, arg2, type⟩]
        else (pcpui_at s dst).immed_amsgs) ∧
      (pcpui_at (send_kernel_message c s dst pc arg0 arg1 arg2 type).1 dst).routine_amsgs =
        (if type = c.KMSG_ROUTINE then
          (pcpui_at s dst).routine_amsgs ++
            [msg_of ⟨s.core_id, dst, pc, arg0, arg1, arg2, type⟩]
        else (pcpui_at s dst).routine_amsgs) ∧
      (∀ e : Nat, e ≠ dst →
        pcpui_at (send_kernel_message c s dst pc arg0 arg1 arg2 type).1 e = pcpui_at s e) ∧
      (send_kernel_message c s dst pc arg0 arg1 arg2 type).1.per_cpu_info.length =
        s.per_cpu_info.length ∧
      (send_kernel_message c s dst pc arg0 arg1 arg2 type).1.events =
        s.events ++ kmsg_event.kmem_cache_alloc ::
          (if dst ≠ s.core_id ∨ type = c.KMSG_IMMEDIATE then
            [kmsg_event.send_ipi dst c.I_KERNEL_MSG] else [])) ∧
    (pc ≠ 0 → type ≠ c.KMSG_IMMEDIATE → type ≠ c.KMSG_ROUTINE →
      (send_kernel_message c s dst pc arg0 arg1 arg2 type).2 = result.halted ∧
      (send_kernel_message c s dst pc arg0 arg1 arg2 type).1.per_cpu_info = s.per_cpu_info ∧
      (send_kernel_message c s dst pc arg0 arg1 arg2 type).1.events =
        s.events ++ [kmsg_event.kmem_cache_alloc]) ∧
    (pc = 0 →
      send_kernel_message c s dst pc arg0 arg1 arg2 type = (s, result.halted)) := by
  refine ⟨?_, ?_, ?_⟩
  · intro hpc hty
    rcases hty with hi | hr
    · subst hi
      rw [send_immediate c s dst pc arg0 arg1 arg2 hpc hdst]
      refine ⟨rfl, ?_, ?_, ?_, by simp, by simp⟩
      · simp only [pcpui_at_log_event]
        rw [pcpui_at_set_pcpui _ _ _ (by simpa using hdst)]
        simp
      · simp only [pcpui_at_log_event]
        rw [pcpui_at_set_pcpui _ _ _ (by simpa using hdst)]
        simp [hc]
      · intro e he
        simp only [pcpui_at_log_event]
        rw [pcpui_at_set_pcpui_ne _ _ _ _ (Ne.symm he)]
        rfl
    · subst hr
      rw [send_routine c s dst pc arg0 arg1 arg2 hc hpc hdst]
      by_cases hd : dst = s.core_id
      · simp only [hd, ne_eq, not_true_eq_false, if_false]
        rw [← hd]
        refine ⟨trivial, ?_, ?_, ?_, by simp, by simp [hc.symm]⟩
        · rw [pcpui_at_set_pcpui _ _ _ (by simpa using hdst)]
          simp [hc.symm]
        · rw [pcpui_at_set_pcpui _ _ _ (by simpa using hdst)]
          simp
        · intro e he
          rw [pcpui_at_set_pcpui_ne _ _ _ _ (Ne.symm he)]
          rfl
      · simp only [hd, ne_eq, not_false_eq_true, if_true]
        refine ⟨trivial, ?_, ?_, ?_, by simp, by simp⟩
        · simp only [pcpui_at_log_event]
          rw [pcpui_at_set_pcpui _ _ _ (by simpa using hdst)]
          simp [hc.symm]
        · simp only [pcpui_at_log_event]
          rw [pcpui_at_set_pcpui _ _ _ (by simpa using hdst)]
        · intro e he
          simp only [pcpui_at_log_event]
          rw [pcpui_at_set_pcpui_ne _ _ _ _ (Ne.symm he)]
          rfl
  · intro hpc h1 h2
    rw [send_unknown_class c s dst pc arg0 arg1 arg2 type hpc h1 h2]
    exact ⟨rfl, rfl, rfl⟩
  · intro hpc
    simp [send_kernel_message, hpc]

theorem handler_calls_append (a b : List kmsg_event) :
    handler_calls (a ++ b) = handler_calls a ++ handler_calls b := by
  simp [handler_calls]

theorem handler_calls_drain (core : Nat) (msgs : List kernel_message) :
    handler_calls (drain_events core msgs) = msgs.map handler_event := by
  induction msgs with
  | nil => rfl
  | cons m rest ih =>
    simp only [drain_events, List.map_cons]
    have : handler_calls (kmsg_event.pcpui_trace_kmsg core m.pc :: handler_event m ::
        kmsg_event.kmem_cache_free m :: drain_events core rest) =
        handler_event m :: handler_calls (drain_events core rest) := by
      simp [handler_calls, is_handler, handler_event]
    rw [this, ih]

/-- The loop of `handle_kmsg_ipi`, started on the whole immediate queue. -/
theorem handle_kmsg_loop_spec (s : kmsg_state) (msgs : List kernel_message)
    (hcore : s.core_id < s.per_cpu_info.length)
    (hq : (pcpui_at s s.core_id).immed_amsgs = msgs) :
    (handle_kmsg_loop s msgs).events = s.events ++ drain_events s.core_id msgs ∧
    (pcpui_at (handle_kmsg_loop s msgs) s.core_id).immed_amsgs = [] ∧
    (pcpui_at (handle_kmsg_loop s msgs) s.core_id).routine_amsgs =
      (pcpui_at s s.core_id).routine_amsgs ∧
    (pcpui_at (handle_kmsg_loop s msgs) s.core_id).cur_kthread_flags =
      (pcpui_at s s.core_id).cur_kthread_flags ∧
    (∀ e : Nat, e ≠ s.core_id →
      pcpui_at (handle_kmsg_loop s msgs) e = pcpui_at s e) ∧
    (handle_kmsg_loop s msgs).core_id = s.core_id ∧
    (handle_kmsg_loop s msgs).irq_enabled = s.irq_enabled ∧
    (handle_kmsg_loop s msgs).per_cpu_info.length = s.per_cpu_info.length := by
  induction msgs generalizing s with
  | nil =>
    exact ⟨by simp [handle_kmsg_loop, drain_events], hq, rfl, rfl, fun _ _ => rfl, rfl,
      rfl, rfl⟩
  | cons m rest ih =>
    simp only [handle_kmsg_loop, log_event_core_id, set_pcpui_core_id, pcpui_at_log_event]
    generalize hs1 : log_event
      (set_pcpui
        (log_event (log_event s (kmsg_event.pcpui_trace_kmsg s.core_id m.pc))
          (kmsg_event.handler m.pc m.srcid m.arg0 m.arg1 m.arg2))
        s.core_id
        { pcpui_at s s.core_id with immed_amsgs := (pcpui_at s s.core_id).immed_amsgs.tail })
      (kmsg_event.kmem_cache_free m) = s1
    have c1 : s1.core_id = s.core_id := by rw [← hs1]; rfl
    have l1 : s1.per_cpu_info.length = s.per_cpu_info.length := by
      rw [← hs1]; simp
    have i1 : s1.irq_enabled = s.irq_enabled := by rw [← hs1]; rfl
    have e1 : s1.events = s.events ++ [kmsg_event.pcpui_trace_kmsg s.core_id m.pc,
        handler_event m, kmsg_event.kmem_cache_free m] := by
      rw [← hs1]; simp [handler_event]
    have p1 : pcpui_at s1 s.core_id =
        { pcpui_at s s.core_id with immed_amsgs := rest } := by
      rw [← hs1, pcpui_at_log_event, pcpui_at_set_pcpui _ _ _ (by simpa using hcore), hq]
      rfl
    have o1 : ∀ e : Nat, e ≠ s.core_id → pcpui_at s1 e = pcpui_at s e := by
      intro e he
      rw [← hs1, pcpui_at_log_event, pcpui_at_set_pcpui_ne _ _ _ _ (Ne.symm he)]
      rfl
    obtain ⟨h1, h2, h3, h4, h5, h6, h7, h8⟩ := ih s1 (by rw [c1, l1]; exact hcore)
      (by rw [c1, p1])
    rw [c1] at h1 h2 h3 h4 h5 h6
    refine ⟨?_, h2, by rw [h3, p1], by rw [h4, p1], ?_, h6, by rw [h7, i1], by rw [h8, l1]⟩
    · rw [h1, e1]
      simp [drain_events]
    · intro e he
      rw [h5 e he, o1 e he]

/-- The handler invocations made by `handle_kmsg_ipi`. -/
theorem handle_kmsg_ipi_loop_calls (s : kmsg_state)
    (hcore : s.core_id < s.per_cpu_info.length) :
    handler_calls (handle_kmsg_ipi s).1.events =
      handler_calls s.events ++ (pcpui_at s s.core_id).immed_amsgs.map handler_event := by
  by_cases hq : (pcpui_at s s.core_id).immed_amsgs = []
  · have e : handle_kmsg_ipi s = (s, result.returned ()) := by
      simp [handle_kmsg_ipi, hcore, hq]
    rw [e, hq]
    simp
  · have e : handle_kmsg_ipi s =
        (handle_kmsg_loop s (pcpui_at s s.core_id).immed_amsgs, result.returned ()) := by
      simp [handle_kmsg_ipi, hcore, hq]
    obtain ⟨h1, -⟩ := handle_kmsg_loop_spec s _ hcore rfl
    rw [e]
    simp only [h1, handler_calls_append, handler_calls_drain]

/-- Claim C16 (immediate drain). On a core inside `per_cpu_info[]` whose
    immediate queue holds `m1..mn`, `handle_kmsg_ipi` returns after having
    invoked, in queue order and once each, the handler of every message with
    that message's `(srcid, arg0, arg1, arg2)`; the immediate queue is then
    empty and the routine queue (like every other core's entry) is as before.
    On an empty queue the state is left as it is. -/
theorem handle_kmsg_ipi_spec (s : kmsg_state)
    (hcore : s.core_id < s.per_cpu_info.length) :
    (handle_kmsg_ipi s).2 = result.returned () ∧
    (handle_kmsg_ipi s).1.events =
      s.events ++ drain_events s.core_id (pcpui_at s s.core_id).immed_amsgs ∧
    handler_calls (handle_kmsg_ipi s).1.events =
      handler_calls s.events ++ (pcpui_at s s.core_id).immed_amsgs.map handler_event ∧
    (pcpui_at (handle_kmsg_ipi s).1 s.core_id).immed_amsgs = [] ∧
    (pcpui_at (handle_kmsg_ipi s).1 s.core_id).routine_amsgs =
      (pcpui_at s s.core_id).routine_amsgs ∧
    (∀ e : Nat, e ≠ s.core_id → pcpui_at (handle_kmsg_ipi s).1 e = pcpui_at s e) ∧
    ((pcpui_at s s.core_id).immed_amsgs = [] → (handle_kmsg_ipi s).1 = s) := by
  by_cases hq : (pcpui_at s s.core_id).immed_amsgs = []
  · have e : handle_kmsg_ipi s = (s, result.returned ()) := by
      simp [handle_kmsg_ipi, hcore, hq]
    rw [e, hq]
    simp [drain_events, hq]
  · have e : handle_kmsg_ipi s =
        (handle_kmsg_loop s (pcpui_at s s.core_id).immed_amsgs, result.returned ()) := by
      simp [handle_kmsg_ipi, hcore, hq]
    obtain ⟨h1, h2, h3, -, h5, -⟩ := handle_kmsg_loop_spec s _ hcore rfl
    rw [e]
    refine ⟨rfl, h1, ?_, h2, h3, h5, fun h => absurd h hq⟩
    simp only [h1, handler_calls_append, handler_calls_drain]

theorem process_routine_empty (c : KmsgParams)
    (h : kernel_message → kmsg_state → Bool) (s : kmsg_state)
    (hcore : s.core_id < s.per_cpu_info.length) (hirq : s.irq_enabled = false)
    (hq : (pcpui_at s s.core_id).routine_amsgs = []) :
    process_routine_kmsg c h s = (s, result.returned ()) := by
  simp [process_routine_kmsg, hcore, hirq, get_next_rkmsg, hq]

/-- Unfolding of `process_routine_kmsg` on a queue `m :: rest` whose head is
    addressed to this core. -/
theorem process_routine_pop (c : KmsgParams)
    (h : kernel_message → kmsg_state → Bool) (s : kmsg_state) (m : kernel_message)
    (rest : List kernel_message)
    (hcore : s.core_id < s.per_cpu_info.length) (hirq : s.irq_enabled = false)
    (hq : (pcpui_at s s.core_id).routine_amsgs = m :: rest)
    (hdst : m.dstid = s.core_id) :
    process_routine_kmsg c h s =
      if h m (handler_state c s m rest) = true then
        (log_event (log_event (handler_state c s m rest) (handler_event m))
          kmsg_event.smp_idle, result.no_return)
      else (log_event (handler_state c s m rest) (handler_event m), result.no_return) := by
  have hp : pcpui_at (set_pcpui s s.core_id
      { pcpui_at s s.core_id with routine_amsgs := rest }) s.core_id =
      { pcpui_at s s.core_id with routine_amsgs := rest } :=
    pcpui_at_set_pcpui _ _ _ hcore
  unfold process_routine_kmsg handler_state
  simp only [hcore, not_true_eq_false, if_false, hirq, Bool.false_eq_true, get_next_rkmsg, hq,
    log_event_core_id, set_pcpui_core_id, hdst, ne_eq, pcpui_at_log_event, hp, handler_event]

theorem process_routine_bad_dst (c : KmsgParams)
    (h : kernel_message → kmsg_state → Bool) (s : kmsg_state) (m : kernel_message)
    (rest : List kernel_message)
    (hcore : s.core_id < s.per_cpu_info.length) (hirq : s.irq_enabled = false)
    (hq : (pcpui_at s s.core_id).routine_amsgs = m :: rest)
    (hdst : m.dstid ≠ s.core_id) :
    (process_routine_kmsg c h s).2 = result.halted := by
  unfold process_routine_kmsg
  simp [hcore, hirq, get_next_rkmsg, hq, hdst]

/-- What the handler of the head message finds when it is invoked. -/
theorem handler_state_spec (c : KmsgParams) (s : kmsg_state) (m : kernel_message)
    (rest : List kernel_message) (hcore : s.core_id < s.per_cpu_info.length) :
    (pcpui_at (handler_state c s m rest) s.core_id).cur_kthread_flags = c.KTH_KTASK_FLAGS ∧
    (pcpui_at (handler_state c s m rest) s.core_id).routine_amsgs = rest ∧
    (pcpui_at (handler_state c s m rest) s.core_id).immed_amsgs =
      (pcpui_at s s.core_id).immed_amsgs ∧
    (∀ e : Nat, e ≠ s.core_id →
      pcpui_at (handler_state c s m rest) e = pcpui_at s e) ∧
    (handler_state c s m rest).events =
      s.events ++ [kmsg_event.kmem_cache_free m,
        kmsg_event.pcpui_trace_kmsg s.core_id m.pc] ∧
    (handler_state c s m rest).core_id = s.core_id ∧
    (handler_state c s m rest).irq_enabled = s.irq_enabled ∧
    (handler_state c s m rest).per_cpu_info.length = s.per_cpu_info.length := by
  have hp : ∀ v : kmsg_cpu, pcpui_at (set_pcpui
      (log_event
        (set_pcpui s s.core_id { pcpui_at s s.core_id with routine_amsgs := rest })
        (kmsg_event.kmem_cache_free m)) s.core_id v) s.core_id = v := by
    intro v
    exact pcpui_at_set_pcpui _ _ _ (by simpa using hcore)
  have ho : ∀ (v : kmsg_cpu) (e : Nat), e ≠ s.core_id → pcpui_at (set_pcpui
      (log_event
        (set_pcpui s s.core_id { pcpui_at s s.core_id with routine_amsgs := rest })
        (kmsg_event.kmem_cache_free m)) s.core_id v) e = pcpui_at s e := by
    intro v e he
    rw [pcpui_at_set_pcpui_ne _ _ _ _ (Ne.symm he), pcpui_at_log_event,
      pcpui_at_set_pcpui_ne _ _ _ _ (Ne.symm he)]
  unfold handler_state
  refine ⟨?_, ?_, ?_, ?_, by simp, rfl, rfl, by simp⟩
  · simp only [pcpui_at_log_event, hp]
  · simp only [pcpui_at_log_event, hp]
  · simp only [pcpui_at_log_event, hp]
  · intro e he
    simp only [pcpui_at_log_event]
    exact ho _ e he

/-- Claim C17, as amended (routine delivery). On a core inside
    `per_cpu_info[]` with IRQs disabled: with an empty routine queue
    `process_routine_kmsg` returns and the state is untouched; with a queue
    `m :: rest` whose head is addressed to this core it unlinks exactly `m`,
    leaving `rest` queued in order and the immediate queue and the other cores
    as they were, and invokes only the handler of `m`, with
    `(srcid, arg0, arg1, arg2)`, in the state `handler_state` in which the
    flags of the current kthread already are `KTH_KTASK_FLAGS`; it does not
    return to its caller, and calls `smp_idle` exactly when the handler comes
    back from that state. With IRQs enabled, or a head addressed to another
    core, an assertion halts the kernel. -/
theorem process_routine_kmsg_spec (c : KmsgParams)
    (h : kernel_message → kmsg_state → Bool) (s : kmsg_state)
    (hcore : s.core_id < s.per_cpu_info.length) :
    (s.irq_enabled = false → (pcpui_at s s.core_id).routine_amsgs = [] →
      process_routine_kmsg c h s = (s, result.returned ())) ∧
    (s.irq_enabled = false →
      ∀ (m : kernel_message) (rest : List kernel_message),
        (pcpui_at s s.core_id).routine_amsgs = m :: rest →
        (m.dstid = s.core_id →
          (process_routine_kmsg c h s).2 = result.no_return ∧
          (pcpui_at (handler_state c s m rest) s.core_id).cur_kthread_flags
            = c.KTH_KTASK_FLAGS ∧
          (pcpui_at (handler_state c s m rest) s.core_id).routine_amsgs = rest ∧
          (handler_state c s m rest).events =
            s.events ++ [kmsg_event.kmem_cache_free m,
              kmsg_event.pcpui_trace_kmsg s.core_id m.pc] ∧
          (process_routine_kmsg c h s).1 =
            (if h m (handler_state c s m rest) = true then
              log_event (log_event (handler_state c s m rest) (handler_event m))
                kmsg_event.smp_idle
            else log_event (handler_state c s m rest) (handler_event m)) ∧
          (process_routine_kmsg c h s).1.events =
            s.events ++ [kmsg_event.kmem_cache_free m,
              kmsg_event.pcpui_trace_kmsg s.core_id m.pc, handler_event m] ++
              (if h m (handler_state c s m rest) = true then [kmsg_event.smp_idle]
                else []) ∧
          handler_calls (process_routine_kmsg c h s).1.events =
            handler_calls s.events ++ [handler_event m] ∧
          (pcpui_at (process_routine_kmsg c h s).1 s.core_id).cur_kthread_flags
            = c.KTH_KTASK_FLAGS ∧
          (pcpui_at (process_routine_kmsg c h s).1 s.core_id).routine_amsgs = rest ∧
          (pcpui_at (process_routine_kmsg c h s).1 s.core_id).immed_amsgs =
            (pcpui_at s s.core_id).immed_amsgs ∧
          (∀ e : Nat, e ≠ s.core_id →
            pcpui_at (process_routine_kmsg c h s).1 e = pcpui_at s e)) ∧
        (m.dstid ≠ s.core_id → (process_routine_kmsg c h s).2 = result.halted)) ∧
    (s.irq_enabled = true → process_routine_kmsg c h s = (s, result.halted)) := by
  refine ⟨fun hirq hq => process_routine_empty c h s hcore hirq hq, ?_, ?_⟩
  · intro hirq m rest hq
    refine ⟨?_, fun hdst => process_routine_bad_dst c h s m rest hcore hirq hq hdst⟩
    intro hdst
    obtain ⟨f1, f2, f3, f4, f5, -⟩ := handler_state_spec c s m rest hcore
    have hfree : handler_calls [kmsg_event.kmem_cache_free m,
        kmsg_event.pcpui_trace_kmsg s.core_id m.pc] = [] := rfl
    have hidle : handler_calls [kmsg_event.smp_idle] = [] := rfl
    have hhand : handler_calls [handler_event m] = [handler_event m] := rfl
    rw [process_routine_pop c h s m rest hcore hirq hq hdst]
    by_cases hb : h m (handler_state c s m rest) = true
    · simp only [hb, if_true]
      refine ⟨trivial, f1, f2, f5, trivial, ?_, ?_, ?_, ?_, ?_, ?_⟩
      · simp only [log_event_events, f5, List.append_assoc, List.cons_append,
          List.nil_append]
      · simp only [log_event_events, f5, handler_calls_append, hfree, hidle, hhand,
          List.append_nil]
      · simp only [pcpui_at_log_event, f1]
      · simp only [pcpui_at_log_event, f2]
      · simp only [pcpui_at_log_event, f3]
      · intro e he
        simp only [pcpui_at_log_event]
        exact f4 e he
    · simp only [hb, if_false, Bool.false_eq_true]
      refine ⟨trivial, f1, f2, f5, trivial, ?_, ?_, ?_, ?_, ?_, ?_⟩
      · simp only [log_event_events, f5, List.append_assoc, List.cons_append,
          List.nil_append, List.append_nil]
      · simp only [log_event_events, f5, handler_calls_append, hfree, hhand,
          List.append_nil]
      · simp only [pcpui_at_log_event, f1]
      · simp only [pcpui_at_log_event, f2]
      · simp only [pcpui_at_log_event, f3]
      · intro e he
        simp only [pcpui_at_log_event]
        exact f4 e he
  · intro hirq
    simp [process_routine_kmsg, hcore, hirq]

theorem sent_to_cons (d : Nat) (cls : Int) (r : send_req) (rest : List send_req) :
    sent_to d cls (r :: rest) =
      (if r.dst = d ∧ r.type = cls then [msg_of r] else []) ++ sent_to d cls rest := by
  unfold sent_to
  by_cases h : r.dst = d ∧ r.type = cls
  · simp [List.filter_cons, h]
  · simp [List.filter_cons, h]

/-- What one accepted send does to the queues of core `d`. -/
theorem send_from_spec (c : KmsgParams) (s : kmsg_state) (r : send_req) (d : Nat)
    (hc : c.KMSG_IMMEDIATE ≠ c.KMSG_ROUTINE) (hok : send_ok c s r) :
    (pcpui_at (send_from c s r) d).immed_amsgs =
      (pcpui_at s d).immed_amsgs ++ sent_to d c.KMSG_IMMEDIATE [r] ∧
    (pcpui_at (send_from c s r) d).routine_amsgs =
      (pcpui_at s d).routine_amsgs ++ sent_to d c.KMSG_ROUTINE [r] ∧
    (send_from c s r).per_cpu_info.length = s.per_cpu_info.length ∧
    (send_from c s r).irq_enabled = s.irq_enabled ∧
    handler_calls (send_from c s r).events = handler_calls s.events := by
  obtain ⟨hpc, hdst, hty⟩ := hok
  cases r with
  | mk sender dst pc arg0 arg1 arg2 type =>
    simp only at hpc hdst hty
    have halloc : handler_calls [kmsg_event.kmem_cache_alloc] = [] := rfl
    have hipi : handler_calls [kmsg_event.send_ipi dst c.I_KERNEL_MSG] = [] := rfl
    have hsent : ∀ cls : Int, sent_to d cls [⟨sender, dst, pc, arg0, arg1, arg2, type⟩] =
        if dst = d ∧ type = cls then [msg_of ⟨sender, dst, pc, arg0, arg1, arg2, type⟩]
        else [] := by
      intro cls
      rw [sent_to_cons]
      simp [sent_to]
    unfold send_from
    simp only
    generalize hs0 : on_core s sender = s0
    have c0 : s0.core_id = sender := by rw [← hs0]; rfl
    have p0 : ∀ e : Nat, pcpui_at s0 e = pcpui_at s e := by intro e; rw [← hs0]; rfl
    have l0 : s0.per_cpu_info.length = s.per_cpu_info.length := by rw [← hs0]; rfl
    have i0 : s0.irq_enabled = s.irq_enabled := by rw [← hs0]; rfl
    have e0 : s0.events = s.events := by rw [← hs0]; rfl
    rw [← l0] at hdst
    rcases hty with hi | hr
    · subst hi
      rw [send_immediate c s0 dst pc arg0 arg1 arg2 hpc hdst]
      simp only [pcpui_at_log_event, hsent, c0, p0]
      by_cases hd : dst = d
      · subst hd
        rw [pcpui_at_set_pcpui _ _ _ (by simpa using hdst)]
        refine ⟨by simp [p0, c0, msg_of], by simp [p0, c0, hc], by simp [l0], i0, ?_⟩
        simp only [log_event_events, set_pcpui_events, handler_calls_append, halloc, hipi,
          List.append_nil, e0]
      · rw [pcpui_at_set_pcpui_ne _ _ _ _ hd]
        refine ⟨by simp [p0, c0, hd], by simp [p0, c0, hd], by simp [l0], i0, ?_⟩
        simp only [log_event_events, set_pcpui_events, handler_calls_append, halloc, hipi,
          List.append_nil, e0]
    · subst hr
      rw [send_routine c s0 dst pc arg0 arg1 arg2 hc hpc hdst]
      simp only [hsent, c0, p0]
      by_cases hs : dst = sender
      · simp only [hs, ne_eq, not_true_eq_false, if_false]
        by_cases hd : sender = d
        · subst hd
          rw [pcpui_at_set_pcpui _ _ _ (by rw [← hs]; simpa using hdst)]
          refine ⟨by simp [p0, c0, hc.symm], by simp [p0, c0, msg_of, hs], by simp [l0], i0,
            ?_⟩
          simp only [log_event_events, set_pcpui_events, handler_calls_append, halloc,
            List.append_nil, e0]
        · rw [pcpui_at_set_pcpui_ne _ _ _ _ hd]
          refine ⟨by simp [p0, c0, hd], by simp [p0, c0, hd], by simp [l0], i0, ?_⟩
          simp only [log_event_events, set_pcpui_events, handler_calls_append, halloc,
            List.append_nil, e0]
      · simp only [hs, ne_eq, not_false_eq_true, if_true, pcpui_at_log_event]
        by_cases hd : dst = d
        · subst hd
          rw [pcpui_at_set_pcpui _ _ _ (by simpa using hdst)]
          refine ⟨by simp [p0, c0, hc.symm], by simp [p0, c0, msg_of], by simp [l0], i0, ?_⟩
          simp only [log_event_events, set_pcpui_events, handler_calls_append, halloc, hipi,
            List.append_nil, e0]
        · rw [pcpui_at_set_pcpui_ne _ _ _ _ hd]
          refine ⟨by simp [p0, c0, hd], by simp [p0, c0, hd], by simp [l0], i0, ?_⟩
          simp only [log_event_events, set_pcpui_events, handler_calls_append, halloc, hipi,
            List.append_nil, e0]

theorem sent_to_append_cons (d : Nat) (cls : Int) (r : send_req) (rest : List send_req) :
    sent_to d cls (r :: rest) = sent_to d cls [r] ++ sent_to d cls rest := by
  rw [sent_to_cons, sent_to_cons]
  simp [sent_to]

/-- The queues of core `d` after a sequence of accepted sends hold, behind what
    was queued before, the messages addressed to `d` in each class, in send
    order. -/
theorem send_all_spec (c : KmsgParams) (s : kmsg_state) (reqs : List send_req) (d : Nat)
    (hc : c.KMSG_IMMEDIATE ≠ c.KMSG_ROUTINE) (hok : ∀ r ∈ reqs, send_ok c s r) :
    (pcpui_at (send_all c s reqs) d).immed_amsgs =
      (pcpui_at s d).immed_amsgs ++ sent_to d c.KMSG_IMMEDIATE reqs ∧
    (pcpui_at (send_all c s reqs) d).routine_amsgs =
      (pcpui_at s d).routine_amsgs ++ sent_to d c.KMSG_ROUTINE reqs ∧
    (send_all c s reqs).per_cpu_info.length = s.per_cpu_info.length ∧
    (send_all c s reqs).irq_enabled = s.irq_enabled ∧
    handler_calls (send_all c s reqs).events = handler_calls s.events := by
  induction reqs generalizing s with
  | nil => simp [send_all, sent_to]
  | cons r rest ih =>
    obtain ⟨h1, h2, h3, h4, h5⟩ := send_from_spec c s r d hc (hok r (List.mem_cons_self r rest))
    have hok' : ∀ r' ∈ rest, send_ok c (send_from c s r) r' := by
      intro r' hr'
      have := hok r' (List.mem_cons_of_mem r hr')
      unfold send_ok at *
      rw [h3]
      exact this
    obtain ⟨g1, g2, g3, g4, g5⟩ := ih (send_from c s r) hok'
    simp only [send_all]
    refine ⟨?_, ?_, by rw [g3, h3], by rw [g4, h4], by rw [g5, h5]⟩
    · rw [g1, h1, sent_to_append_cons d _ r rest, List.append_assoc]
    · rw [g2, h2, sent_to_append_cons d _ r rest, List.append_assoc]

/-- Successive routine deliveries on core `d` invoke the handlers of the queued
    messages in queue order. -/
theorem run_routine_spec (c : KmsgParams) (s : kmsg_state) (d n : Nat)
    (hd : d < s.per_cpu_info.length) (hirq : s.irq_enabled = false)
    (hdst : ∀ m ∈ (pcpui_at s d).routine_amsgs, m.dstid = d) :
    handler_calls (run_routine c s d n).events =
      handler_calls s.events ++ ((pcpui_at s d).routine_amsgs.take n).map handler_event ∧
    (pcpui_at (run_routine c s d n) d).routine_amsgs = (pcpui_at s d).routine_amsgs.drop n := by
  induction n generalizing s with
  | zero => simp [run_routine]
  | succ n ih =>
    simp only [run_routine]
    generalize hs0 : on_core s d = s0
    have c0 : s0.core_id = d := by rw [← hs0]; rfl
    have p0 : ∀ e : Nat, pcpui_at s0 e = pcpui_at s e := by intro e; rw [← hs0]; rfl
    have l0 : s0.per_cpu_info.length = s.per_cpu_info.length := by rw [← hs0]; rfl
    have i0 : s0.irq_enabled = false := by rw [← hs0]; exact hirq
    have e0 : s0.events = s.events := by rw [← hs0]; rfl
    have hcore0 : s0.core_id < s0.per_cpu_info.length := by rw [c0, l0]; exact hd
    cases hq : (pcpui_at s d).routine_amsgs with
    | nil =>
      have hq0 : (pcpui_at s0 s0.core_id).routine_amsgs = [] := by rw [c0, p0, hq]
      rw [process_routine_empty c _ s0 hcore0 i0 hq0]
      obtain ⟨g1, g2⟩ := ih s0 (by rw [l0]; exact hd) i0 (by rw [p0]; exact hdst)
      rw [g1, g2, p0, hq, e0]
      simp
    | cons m rest =>
      have hq0 : (pcpui_at s0 s0.core_id).routine_amsgs = m :: rest := by rw [c0, p0, hq]
      have hm : m.dstid = s0.core_id := by
        rw [c0]
        exact hdst m (by rw [hq]; exact List.mem_cons_self m rest)
      rw [process_routine_pop c _ s0 m rest hcore0 i0 hq0 hm, if_pos rfl]
      unfold handler_state
      generalize hs1 : log_event
        (log_event
          (log_event
            (set_pcpui
              (log_event
                (set_pcpui s0 s0.core_id { pcpui_at s0 s0.core_id with routine_amsgs := rest })
                (kmsg_event.kmem_cache_free m))
              s0.core_id
              { immed_amsgs := (pcpui_at s0 s0.core_id).immed_amsgs,
                routine_amsgs := rest,
                cur_kthread_flags := c.KTH_KTASK_FLAGS })
            (kmsg_event.pcpui_trace_kmsg s0.core_id m.pc))
          (handler_event m))
        kmsg_event.smp_idle = s1
      have l1 : s1.per_cpu_info.length = s.per_cpu_info.length := by
        rw [← hs1]; simp [l0]
      have i1 : s1.irq_enabled = false := by rw [← hs1]; exact i0
      have p1 : (pcpui_at s1 d).routine_amsgs = rest := by
        rw [← hs1, c0]
        simp only [pcpui_at_log_event]
        rw [pcpui_at_set_pcpui _ _ _ (by simp [l0, hd])]
      have hfree : handler_calls [kmsg_event.kmem_cache_free m] = [] := rfl
      have htrace : handler_calls [kmsg_event.pcpui_trace_kmsg s0.core_id m.pc] = [] := rfl
      have hidle : handler_calls [kmsg_event.smp_idle] = [] := rfl
      have hhand : handler_calls [handler_event m] = [handler_event m] := rfl
      have e1 : handler_calls s1.events = handler_calls s.events ++ [handler_event m] := by
        rw [← hs1]
        simp only [log_event_events, set_pcpui_events, handler_calls_append, hfree, htrace,
          hidle, hhand, List.append_nil, e0]
      obtain ⟨g1, g2⟩ := ih s1 (by rw [l1]; exact hd) i1 (by
        rw [p1]
        intro m' hm'
        exact hdst m' (by rw [hq]; exact List.mem_cons_of_mem m hm'))
      rw [g1, g2, p1, e1]
      simp

/-- Claim C18 (FIFO message order). After any sequence of accepted
    `send_kernel_message` calls, made from any cores to any cores and classes,
    the queue of core `d` for a class holds, behind what was queued before, the
    messages sent to `d` in that class in send order. Delivery on `d` invokes
    the handlers in exactly that order: `handle_kmsg_ipi` for the immediate
    queue, and `n` successive `process_routine_kmsg` calls for the first `n`
    messages of the routine queue (IRQs disabled, queued messages addressed to
    `d`). So a message sent before another one to the same core and class has
    its handler invoked first. -/
theorem kmsg_fifo (c : KmsgParams) (s : kmsg_state) (reqs : List send_req) (d : Nat)
    (hc : c.KMSG_IMMEDIATE ≠ c.KMSG_ROUTINE)
    (hd : d < s.per_cpu_info.length)
    (hok : ∀ r ∈ reqs, send_ok c s r) :
    (pcpui_at (send_all c s reqs) d).immed_amsgs =
      (pcpui_at s d).immed_amsgs ++ sent_to d c.KMSG_IMMEDIATE reqs ∧
    (pcpui_at (send_all c s reqs) d).routine_amsgs =
      (pcpui_at s d).routine_amsgs ++ sent_to d c.KMSG_ROUTINE reqs ∧
    handler_calls (handle_kmsg_ipi (on_core (send_all c s reqs) d)).1.events =
      handler_calls s.events ++
        ((pcpui_at s d).immed_amsgs ++ sent_to d c.KMSG_IMMEDIATE reqs).map handler_event ∧
    (s.irq_enabled = false → (∀ m ∈ (pcpui_at s d).routine_amsgs, m.dstid = d) →
      ∀ n : Nat,
        handler_calls (run_routine c (send_all c s reqs) d n).events =
          handler_calls s.events ++
            (((pcpui_at s d).routine_amsgs ++ sent_to d c.KMSG_ROUTINE reqs).take n).map
              handler_event) := by
  obtain ⟨h1, h2, h3, h4, h5⟩ := send_all_spec c s reqs d hc hok
  refine ⟨h1, h2, ?_, ?_⟩
  · have hcore : (on_core (send_all c s reqs) d).core_id <
        (on_core (send_all c s reqs) d).per_cpu_info.length := by
      show d < (send_all c s reqs).per_cpu_info.length
      rw [h3]
      exact hd
    rw [handle_kmsg_ipi_loop_calls (on_core (send_all c s reqs) d) hcore]
    show handler_calls (send_all c s reqs).events ++
      (pcpui_at (send_all c s reqs) d).immed_amsgs.map handler_event = _
    rw [h1, h5]
  · intro hirq hdst n
    have hdst' : ∀ m ∈ (pcpui_at (send_all c s reqs) d).routine_amsgs, m.dstid = d := by
      rw [h2]
      intro m hm
      rcases List.mem_append.mp hm with h | h
      · exact hdst m h
      · unfold sent_to at h
        obtain ⟨r, hr, rfl⟩ := List.mem_map.mp h
        have := (List.mem_filter.mp hr).2
        simp only [decide_eq_true_eq] at this
        exact this.1
    obtain ⟨g1, -⟩ := run_routine_spec c (send_all c s reqs) d n (by rw [h3]; exact hd)
      (by rw [h4]; exact hirq) hdst'
    rw [g1, h5, h2]

/-! ## Trap reflection -/

/-- Reflection fails, and changes nothing, when the vcore context is not ready
    or notifications are disabled for the owning vcore. -/
theorem reflect_current_context_fails (a : ArchOps) (s : trap_state) (p : trap_proc)
    (hp : s.cur_proc = some p) (hown : s.owning_proc = some p.pid)
    (hv : s.owning_vcoreid < p.vcore_preempt_data.length)
    (hfail : p.vcctx_ready = false ∨
      (p.vcore_preempt_data.getD s.owning_vcoreid default).notif_disabled = true) :
    reflect_current_context a s = (s, result.returned (-1)) := by
  unfold reflect_current_context
  simp only [hp, hown, ne_eq, not_true_eq_false, if_false]
  by_cases hr : p.vcctx_ready = false
  · rw [if_pos hr]
  · rcases hfail with h | h
    · exact absurd h hr
    · rw [if_neg hr, if_neg (not_not.mpr hv), if_pos h]

/-- Reflection succeeds when the vcore context is ready and notifications are
    enabled for the owning vcore. -/
theorem reflect_current_context_ok (a : ArchOps) (s : trap_state) (p : trap_proc)
    (ctx : user_context)
    (hp : s.cur_proc = some p) (hown : s.owning_proc = some p.pid)
    (hv : s.owning_vcoreid < p.vcore_preempt_data.length)
    (hready : p.vcctx_ready = true)
    (hnotif : (p.vcore_preempt_data.getD s.owning_vcoreid default).notif_disabled = false)
    (hctx : s.cur_ctx = some ctx) :
    reflect_current_context a s =
      ({ cur_proc := some (set_vcpd p s.owning_vcoreid
            { p.vcore_preempt_data.getD s.owning_vcoreid default with
              notif_disabled := true
              uthread_ctx := a.arch_finalize_ctx ctx })
         owning_proc := s.owning_proc
         owning_vcoreid := s.owning_vcoreid
         cur_ctx := some (a.proc_init_ctx (zero_ctx (a.arch_finalize_ctx ctx)) s.owning_vcoreid
            (p.vcore_preempt_data.getD s.owning_vcoreid default).vcore_entry
            (p.vcore_preempt_data.getD s.owning_vcoreid default).vcore_stack
            (p.vcore_preempt_data.getD s.owning_vcoreid default).vcore_tls_desc)
         events := s.events },
        result.returned 0) := by
  have hr : ¬ p.vcctx_ready = false := by rw [hready]; decide
  have hn : ¬ (p.vcore_preempt_data.getD s.owning_vcoreid default).notif_disabled = true := by
    rw [hnotif]; decide
  unfold reflect_current_context
  simp only [hp, hown, ne_eq, not_true_eq_false, if_false]
  rw [if_neg hr, if_neg (not_not.mpr hv), if_neg hn]
  simp only [copy_current_ctx_to, hctx]

/-- Claim C20 (reflection success). On a core whose `cur_proc` is the owning
    process `p`, with the owning vcore inside `vcore_preempt_data[]` and a
    current context `ctx`: if the vcore context of `p` is ready and
    notifications are not disabled for the owning vcore, then
    `reflect_current_context` returns 0, the vcore's `uthread_ctx` slot holds
    the finalised `ctx`, its `notif_disabled` is set, its entry point, stack
    and TLS descriptor and all other vcores' data are unchanged, and the
    current context is what `proc_init_ctx` makes, from the vcore id and the
    vcore's entry point, stack and TLS descriptor, of a context of the same
    size whose type tag and trap-frame words are all 0: nothing of the old
    context is left for `proc_init_ctx` to see. -/
theorem reflect_current_context_success (a : ArchOps) (s : trap_state) (p : trap_proc)
    (ctx : user_context)
    (hp : s.cur_proc = some p) (hown : s.owning_proc = some p.pid)
    (hv : s.owning_vcoreid < p.vcore_preempt_data.length)
    (hready : p.vcctx_ready = true)
    (hnotif : (p.vcore_preempt_data.getD s.owning_vcoreid default).notif_disabled = false)
    (hctx : s.cur_ctx = some ctx) :
    (reflect_current_context a s).2 = result.returned 0 ∧
    (∃ q : trap_proc, (reflect_current_context a s).1.cur_proc = some q ∧
      q.pid = p.pid ∧ q.vcctx_ready = p.vcctx_ready ∧
      q.vcore_preempt_data.getD s.owning_vcoreid default =
        { p.vcore_preempt_data.getD s.owning_vcoreid default with
          notif_disabled := true
          uthread_ctx := a.arch_finalize_ctx ctx } ∧
      (∀ v : Nat, v ≠ s.owning_vcoreid →
        q.vcore_preempt_data.getD v default = p.vcore_preempt_data.getD v default)) ∧
    (reflect_current_context a s).1.cur_ctx =
      some (a.proc_init_ctx
        { type := 0, tf := List.replicate (a.arch_finalize_ctx ctx).tf.length 0 }
        s.owning_vcoreid
        (p.vcore_preempt_data.getD s.owning_vcoreid default).vcore_entry
        (p.vcore_preempt_data.getD s.owning_vcoreid default).vcore_stack
        (p.vcore_preempt_data.getD s.owning_vcoreid default).vcore_tls_desc) ∧
    (reflect_current_context a s).1.events = s.events := by
  rw [reflect_current_context_ok a s p ctx hp hown hv hready hnotif hctx]
  refine ⟨rfl, ⟨_, rfl, rfl, rfl, ?_, ?_⟩, rfl, rfl⟩
  · simp [set_vcpd, List.getD_eq_getElem?_getD, hv]
  · intro v hne
    simp [set_vcpd, List.getD_eq_getElem?_getD, List.getElem?_set_ne (Ne.symm hne)]

/-- The first part of `reflect_unhandled_trap`: the trap is encoded into the
    hardware trap frame of the current context. -/
theorem reflect_unhandled_trap_unfold (a : ArchOps) (s : trap_state) (p : trap_proc)
    (ctx : user_context) (trap_nr err aux : Nat)
    (hp : s.cur_proc = some p) (hctx : s.cur_ctx = some ctx)
    (hhw : ctx.type = a.ROS_HW_CTX) (s1 : trap_state) (v : Int)
    (hr : reflect_current_context a (set_cur_ctx s (reflect_hwtf a ctx trap_nr err aux)) =
        (s1, result.returned v)) :
    reflect_unhandled_trap a s trap_nr err aux =
      (if v ≠ 0 then { s1 with events := s1.events ++ [trap_event.proc_destroy p.pid] }
        else s1, result.returned ()) := by
  unfold reflect_unhandled_trap
  simp only [hp, hctx, hhw, ne_eq, not_true_eq_false, if_false, hr]
  by_cases hv : v = 0
  · simp [hv]
  · simp [hv]

/-- Claim C19 (reflection failure is fatal to the process). On a core whose
    `cur_proc` is the owning process `p`, with the owning vcore inside
    `vcore_preempt_data[]` and a current context of type `ROS_HW_CTX`:
    `reflect_unhandled_trap` returns, and it destroys `p` if and only if the
    vcore context of `p` is not ready or notifications are disabled for the
    owning vcore. In that case `reflect_current_context` returns -1 and leaves
    its whole state as it found it, in particular the vcore's `uthread_ctx`
    slot, its `notif_disabled` flag and the current context. -/
theorem reflect_unhandled_trap_spec (a : ArchOps) (s : trap_state) (p : trap_proc)
    (ctx : user_context) (trap_nr err aux : Nat)
    (hp : s.cur_proc = some p) (hown : s.owning_proc = some p.pid)
    (hv : s.owning_vcoreid < p.vcore_preempt_data.length)
    (hctx : s.cur_ctx = some ctx) (hhw : ctx.type = a.ROS_HW_CTX) :
    (reflect_unhandled_trap a s trap_nr err aux).2 = result.returned () ∧
    (trap_event.proc_destroy p.pid ∈
        ((reflect_unhandled_trap a s trap_nr err aux).1.events.drop s.events.length) ↔
      (p.vcctx_ready = false ∨
        (p.vcore_preempt_data.getD s.owning_vcoreid default).notif_disabled = true)) ∧
    ((reflect_unhandled_trap a s trap_nr err aux).1.events =
      s.events ++
        (if p.vcctx_ready = false ∨
            (p.vcore_preempt_data.getD s.owning_vcoreid default).notif_disabled = true
          then [trap_event.proc_destroy p.pid] else [])) ∧
    ((p.vcctx_ready = false ∨
        (p.vcore_preempt_data.getD s.owning_vcoreid default).notif_disabled = true) →
      ∀ s' : trap_state, s'.cur_proc = some p → s'.owning_proc = some p.pid →
        s'.owning_vcoreid = s.owning_vcoreid →
        reflect_current_context a s' = (s', result.returned (-1))) := by
  generalize hs0 : set_cur_ctx s (reflect_hwtf a ctx trap_nr err aux) = s0
  have q1 : s0.cur_proc = some p := by rw [← hs0]; exact hp
  have q2 : s0.owning_proc = some p.pid := by rw [← hs0]; exact hown
  have q3 : s0.owning_vcoreid = s.owning_vcoreid := by rw [← hs0]; rfl
  have q4 : s0.events = s.events := by rw [← hs0]; rfl
  have q5 : s0.cur_ctx = some (reflect_hwtf a ctx trap_nr err aux) := by
    rw [← hs0]; rfl
  have hlast : (p.vcctx_ready = false ∨
      (p.vcore_preempt_data.getD s.owning_vcoreid default).notif_disabled = true) →
      ∀ s' : trap_state, s'.cur_proc = some p → s'.owning_proc = some p.pid →
        s'.owning_vcoreid = s.owning_vcoreid →
        reflect_current_context a s' = (s', result.returned (-1)) := by
    intro hfail s' h1 h2 h3
    exact reflect_current_context_fails a s' p h1 h2 (by rw [h3]; exact hv)
      (by rw [h3]; exact hfail)
  by_cases hfail : p.vcctx_ready = false ∨
      (p.vcore_preempt_data.getD s.owning_vcoreid default).notif_disabled = true
  · have hr := hlast hfail s0 q1 q2 q3
    have hu := reflect_unhandled_trap_unfold a s p ctx trap_nr err aux hp hctx hhw s0 (-1)
      (by rw [hs0]; exact hr)
    have hne : (-1 : Int) ≠ 0 := by decide
    rw [hu, if_pos hne, if_pos hfail]
    simp only [q4]
    refine ⟨trivial, ?_, trivial, hlast⟩
    constructor
    · intro _
      exact hfail
    · intro _
      simp
  · have hready : p.vcctx_ready = true := by
      cases h : p.vcctx_ready
      · exact absurd (Or.inl h) hfail
      · rfl
    have hnotif : (p.vcore_preempt_data.getD s.owning_vcoreid default).notif_disabled
        = false := by
      cases h : (p.vcore_preempt_data.getD s.owning_vcoreid default).notif_disabled
      · rfl
      · exact absurd (Or.inr h) hfail
    have hr := reflect_current_context_ok a s0 p _ q1 q2 (by rw [q3]; exact hv) hready
      (by rw [q3]; exact hnotif) q5
    have hu := reflect_unhandled_trap_unfold a s p ctx trap_nr err aux hp hctx hhw _ 0
      (by rw [hs0]; exact hr)
    have hne : ¬ ((0 : Int) ≠ 0) := by decide
    rw [hu, if_neg hne, if_neg hfail]
    simp only [q4, List.append_nil]
    refine ⟨trivial, ?_, trivial, fun h => absurd h hfail⟩
    constructor
    · intro h
      simp at h
    · intro h
      exact absurd h hfail

/-! ## Evaluations for the semaphore, message and reflection code -/

/-- A memory request for the amount already recorded (0). -/
theorem resource_req_unchanged_amount_witness :
    resource_req params32 (mk_kernel (mk_proc proc_state.PROC_RUNNING_M 2 2) [10, 11]) 1 0 9 3 =
      (record_request (mk_kernel (mk_proc proc_state.PROC_RUNNING_M 2 2) [10, 11]) 1 0 9 3,
        outcome.returned 0) :=
  (resource_req_unchanged_amount params32
    (mk_kernel (mk_proc proc_state.PROC_RUNNING_M 2 2) [10, 11]) 1 0 9 3
    (by decide) (by decide)).1

/-- Claim C12 as stated fails: with a null kthread and a counter of 0 the call
    returns false although the counter was `<= 0`. -/
theorem down_sem_counterexample :
    ¬ (∀ (sem : semaphore) (kthread : Option Nat),
        ((__down_sem sem kthread).2 = true ↔ sem.nr_signals ≤ 0)) := by
  intro h
  have h1 := (h ⟨[], 0⟩ none).mpr (by decide)
  revert h1
  decide

/-- A down on a counter of 0 with kthread 5: the kthread is queued and the
    counter is -1. -/
theorem down_sem_spec_witness :
    (__down_sem ⟨[4], 0⟩ (some 5)).1.nr_signals = -1 ∧
    (__down_sem ⟨[4], 0⟩ (some 5)).2 = true ∧
    (__down_sem ⟨[4], 0⟩ (some 5)).1.waiters = [4] ++ [5] :=
  ⟨(down_sem_spec ⟨[4], 0⟩ (some 5) (by decide) (by decide)).1,
   (((down_sem_spec ⟨[4], 0⟩ (some 5) (by decide) (by decide)).2.1 5 rfl).1).mpr
     (by decide)⟩

/-- At `INT_MIN` the decrement of `__down_sem` overflows and leaves
    `INT_MAX`. -/
theorem down_sem_overflow_eval :
    (__down_sem ⟨[], INT_MIN⟩ (some 5)).1.nr_signals = INT_MAX := by
  decide

/-- An up on a counter of -2 with waiters 5 and 6 returns 5 and keeps 6. -/
theorem up_sem_branches_eval :
    (__up_sem ⟨[5, 6], -2⟩ false).1.waiters = [6] ∧
    (__up_sem ⟨[5, 6], -2⟩ false).1.nr_signals = -1 ∧
    (__up_sem ⟨[5, 6], -2⟩ false).2 = result.returned (some 5) := by
  decide

/-- Claim C13 (semaphore up), evaluated where it fails. After `init_sem(0)` and
    a `__down_sem` with a null kthread the counter is -1 and the queue is
    empty: `__up_sem` finds the counter `< 0`, has no head to remove, warns and
    passes the null pointer to `TAILQ_REMOVE`. And at `INT_MAX` the increment
    overflows: the counter is left at `INT_MIN`, not one higher. -/
theorem up_sem_eval :
    (__down_sem (init_sem 0) none).1 = ⟨[], -1⟩ ∧
    (__up_sem (__down_sem (init_sem 0) none).1 false).2 = result.fault ∧
    (__up_sem (__down_sem (init_sem 0) none).1 true).2 = result.fault ∧
    (__up_sem (init_sem INT_MAX) false).1.nr_signals = INT_MIN := by
  decide

/-- Claim C14 as stated fails: with kthread 9 already waiting, a down of
    kthread 1 that returns true is followed by an up that returns 9. -/
theorem sem_fairness_counterexample :
    ¬ (∀ (sem : semaphore) (ks : List (Option Nat)) (exactly_one : Bool),
        (∀ b ∈ (down_seq sem ks).2, b = true) →
        (up_seq (down_seq sem ks).1 exactly_one ks.length).2 = ks.map result.returned ∧
        (up_seq (down_seq sem ks).1 exactly_one ks.length).1.nr_signals = sem.nr_signals) := by
  intro h
  have h1 := (h ⟨[9], -1⟩ [some 1] false (by decide)).1
  revert h1
  decide

/-- Three downs on an empty semaphore followed by three ups. -/
theorem sem_fairness_witness :
    (up_seq (down_seq ⟨[], 0⟩ [some 1, some 2, some 3]).1 false 3).2 =
      [result.returned (some 1), result.returned (some 2), result.returned (some 3)] ∧
    (up_seq (down_seq ⟨[], 0⟩ [some 1, some 2, some 3]).1 false 3).1.waiters = [] :=
  (sem_fairness ⟨[], 0⟩ [some 1, some 2, some 3] false (by decide) (by decide)
    (by decide) (by decide)).2.2 rfl

/-- A routine message from core 0 to itself: queued, no IPI. -/
theorem send_kernel_message_spec_witness :
    (send_kernel_message kparams two_cores 0 100 1 2 3 2).2 = result.returned 0 ∧
    (send_kernel_message kparams two_cores 0 100 1 2 3 2).1.events =
      [kmsg_event.kmem_cache_alloc] :=
  ⟨((send_kernel_message_spec kparams two_cores 0 100 1 2 3 2 (by decide) (by decide)).1
      (by decide) (by decide)).1,
   ((send_kernel_message_spec kparams two_cores 0 100 1 2 3 2 (by decide) (by decide)).1
      (by decide) (by decide)).2.2.2.2.2⟩

/-- Two immediate messages on core 1 are both run, in order. -/
theorem handle_kmsg_ipi_spec_witness :
    handler_calls (handle_kmsg_ipi
      (on_core (send_all kparams two_cores
        [⟨0, 1, 100, 1, 2, 3, 1⟩, ⟨0, 1, 102, 4, 5, 6, 1⟩]) 1)).1.events =
      [kmsg_event.handler 100 0 1 2 3, kmsg_event.handler 102 0 4 5 6] :=
  (handle_kmsg_ipi_spec
    (on_core (send_all kparams two_cores
      [⟨0, 1, 100, 1, 2, 3, 1⟩, ⟨0, 1, 102, 4, 5, 6, 1⟩]) 1) (by decide)).2.2.1

/-- Claim C17 as stated fails: for a routine message whose handler does not
    come back, `process_routine_kmsg` invokes the handler and never enters the
    idle path. -/
theorem process_routine_kmsg_counterexample :
    (process_routine_kmsg kparams (fun _ _ => false)
      (on_core (send_all kparams two_cores [⟨0, 1, 101, 1, 2, 3, 2⟩]) 1)).2 =
      result.no_return ∧
    handler_event ⟨0, 1, 101, 1, 2, 3⟩ ∈
      (process_routine_kmsg kparams (fun _ _ => false)
        (on_core (send_all kparams two_cores [⟨0, 1, 101, 1, 2, 3, 2⟩]) 1)).1.events ∧
    kmsg_event.smp_idle ∉
      (process_routine_kmsg kparams (fun _ _ => false)
        (on_core (send_all kparams two_cores [⟨0, 1, 101, 1, 2, 3, 2⟩]) 1)).1.events := by
  decide

/-- A routine message on core 1 whose handler comes back exactly when it finds
    the flags of the current kthread set to `KTH_KTASK_FLAGS`: the handler is
    run and the core goes idle. -/
theorem process_routine_kmsg_spec_witness :
    (process_routine_kmsg kparams
      (fun _ st => decide ((pcpui_at st st.core_id).cur_kthread_flags
        = kparams.KTH_KTASK_FLAGS))
      (on_core (send_all kparams two_cores [⟨0, 1, 101, 1, 2, 3, 2⟩]) 1)).2 =
      result.no_return ∧
    (process_routine_kmsg kparams
      (fun _ st => decide ((pcpui_at st st.core_id).cur_kthread_flags
        = kparams.KTH_KTASK_FLAGS))
      (on_core (send_all kparams two_cores [⟨0, 1, 101, 1, 2, 3, 2⟩]) 1)).1.events =
      (on_core (send_all kparams two_cores [⟨0, 1, 101, 1, 2, 3, 2⟩]) 1).events ++
        [kmsg_event.kmem_cache_free ⟨0, 1, 101, 1, 2, 3⟩,
          kmsg_event.pcpui_trace_kmsg 1 101, handler_event ⟨0, 1, 101, 1, 2, 3⟩] ++
        [kmsg_event.smp_idle] :=
  ⟨(((process_routine_kmsg_spec kparams
      (fun _ st => decide ((pcpui_at st st.core_id).cur_kthread_flags
        = kparams.KTH_KTASK_FLAGS))
      (on_core (send_all kparams two_cores [⟨0, 1, 101, 1, 2, 3, 2⟩]) 1) (by decide)).2.1
        (by decide) ⟨0, 1, 101, 1, 2, 3⟩ [] (by decide)).1 (by decide)).1,
   (((process_routine_kmsg_spec kparams
      (fun _ st => decide ((pcpui_at st st.core_id).cur_kthread_flags
        = kparams.KTH_KTASK_FLAGS))
      (on_core (send_all kparams two_cores [⟨0, 1, 101, 1, 2, 3, 2⟩]) 1) (by decide)).2.1
        (by decide) ⟨0, 1, 101, 1, 2, 3⟩ [] (by decide)).1 (by decide)).2.2.2.2.2.1⟩

/-- Four sends to core 1, two of each class, from cores 0 and 1. -/
theorem kmsg_fifo_witness :
    handler_calls (handle_kmsg_ipi (on_core (send_all kparams two_cores
      [⟨0, 1, 100, 1, 2, 3, 1⟩, ⟨1, 1, 101, 1, 2, 3, 2⟩, ⟨0, 1, 102, 1, 2, 3, 1⟩,
        ⟨1, 1, 103, 0, 0, 0, 2⟩]) 1)).1.events =
      handler_calls two_cores.events ++
        ((pcpui_at two_cores 1).immed_amsgs ++ sent_to 1 kparams.KMSG_IMMEDIATE
          [⟨0, 1, 100, 1, 2, 3, 1⟩, ⟨1, 1, 101, 1, 2, 3, 2⟩, ⟨0, 1, 102, 1, 2, 3, 1⟩,
            ⟨1, 1, 103, 0, 0, 0, 2⟩]).map handler_event :=
  (kmsg_fifo kparams two_cores
    [⟨0, 1, 100, 1, 2, 3, 1⟩, ⟨1, 1, 101, 1, 2, 3, 2⟩, ⟨0, 1, 102, 1, 2, 3, 1⟩,
      ⟨1, 1, 103, 0, 0, 0, 2⟩] 1 (by decide) (by decide) (by decide)).2.2.1

/-- A trap on a process whose notifications are disabled: the process is
    destroyed. -/
theorem reflect_unhandled_trap_spec_witness :
    (reflect_unhandled_trap arch0 (mk_trap_state (mk_trap_proc true true)) 14 2 4096).1.events =
      [trap_event.proc_destroy 3] :=
  (reflect_unhandled_trap_spec arch0 (mk_trap_state (mk_trap_proc true true))
    (mk_trap_proc true true) ⟨1, [11, 12]⟩ 14 2 4096 rfl rfl (by decide) rfl rfl).2.2.1

/-- A reflection on a ready process with notifications enabled, for architecture
    code that leaves the words after the fourth as it finds them: the words
    15, 16 and the marker of the old context are gone, the new context holds
    zeros there. -/
theorem reflect_current_context_success_witness :
    (reflect_current_context arch1 (mk_trap_state_wide (mk_trap_proc true false))).2
      = result.returned 0 ∧
    (reflect_current_context arch1 (mk_trap_state_wide (mk_trap_proc true false))).1.cur_ctx
      = some ⟨2, [0, 500, 600, 700, 0, 0, 0]⟩ :=
  ⟨(reflect_current_context_success arch1 (mk_trap_state_wide (mk_trap_proc true false))
      (mk_trap_proc true false) ⟨1, [11, 12, 13, 14, 15, 16]⟩ rfl rfl (by decide) rfl rfl
      rfl).1,
   (reflect_current_context_success arch1 (mk_trap_state_wide (mk_trap_proc true false))
      (mk_trap_proc true false) ⟨1, [11, 12, 13, 14, 15, 16]⟩ rfl rfl (by decide) rfl rfl
      rfl).2.2.1⟩

/-- The saved-uthread slot after the same reflection holds the finalised old
    context, words 11 to 16 and the marker. -/
theorem reflect_current_context_success_eval :
    ((reflect_current_context arch1
      (mk_trap_state_wide (mk_trap_proc true false))).1.cur_proc.map
        (fun q => (q.vcore_preempt_data.getD 0 default).uthread_ctx))
      = some ⟨1, [11, 12, 13, 14, 15, 16, 77]⟩ ∧
    ((reflect_current_context arch1
      (mk_trap_state_wide (mk_trap_proc true false))).1.cur_proc.map
        (fun q => (q.vcore_preempt_data.getD 0 default).notif_disabled))
      = some true := by
  decide

/-! ## The semaphore invariant -/

theorem sem_wf_init (signals : Int) (h : 0 ≤ signals) : sem_wf (init_sem signals) := by
  unfold sem_wf init_sem
  simp only [List.length_nil, Nat.cast_zero]
  omega

/-- A down with a non-null kthread keeps the predicate while the counter stays
    above `INT_MIN`. -/
theorem sem_wf_down (sem : semaphore) (kt : Nat)
    (hlo : INT_MIN < sem.nr_signals) (hhi : sem.nr_signals ≤ INT_MAX) (h : sem_wf sem) :
    sem_wf (__down_sem sem (some kt)).1 := by
  have hwrap : wrap_int (sem.nr_signals - 1) = sem.nr_signals - 1 :=
    wrap_int_of_range _ ⟨by omega, by omega⟩
  unfold sem_wf at *
  by_cases hn : sem.nr_signals ≤ 0
  · rw [down_sem_some sem kt hn, hwrap]
    simp only [List.length_append, List.length_singleton, Nat.cast_add, Nat.cast_one]
    omega
  · rw [down_sem_pos sem _ hn, hwrap]
    simp only
    omega

/-- An up keeps the predicate while the counter stays below `INT_MAX`; under the
    predicate the call never dereferences a null head, returns no kthread from
    a counter `>= 0`, and unlinks the head from a counter `< 0`. -/
theorem sem_wf_up (sem : semaphore) (exactly_one : Bool)
    (hlo : INT_MIN ≤ sem.nr_signals) (hhi : sem.nr_signals < INT_MAX) (h : sem_wf sem) :
    sem_wf (__up_sem sem exactly_one).1 ∧
    (__up_sem sem exactly_one).2 ≠ result.fault ∧
    (0 ≤ sem.nr_signals → (__up_sem sem exactly_one).2 = result.returned none) ∧
    (sem.nr_signals < 0 → ∃ (kt : Nat) (rest : List Nat), sem.waiters = kt :: rest ∧
      (__up_sem sem exactly_one).1.waiters = rest ∧
      ((__up_sem sem exactly_one).2 = result.returned (some kt) ∨
        (exactly_one = true ∧ rest ≠ [] ∧ (__up_sem sem exactly_one).2 = result.halted))) := by
  have hwrap : wrap_int (sem.nr_signals + 1) = sem.nr_signals + 1 :=
    wrap_int_of_range _ ⟨by omega, by omega⟩
  unfold sem_wf at h
  by_cases hn : sem.nr_signals < 0
  · cases hw : sem.waiters with
    | nil =>
      rw [hw] at h
      simp only [List.length_nil, Nat.cast_zero] at h
      omega
    | cons kt rest =>
      rw [hw] at h
      simp only [List.length_cons, Nat.cast_add, Nat.cast_one] at h
      by_cases he : exactly_one = true ∧ rest ≠ []
      · rw [up_sem_pop_halted sem exactly_one kt rest hn hw he, hwrap]
        refine ⟨?_, by simp, fun h0 => absurd hn (not_lt.mpr h0), fun _ =>
          ⟨kt, rest, rfl, rfl, Or.inr ⟨he.1, he.2, rfl⟩⟩⟩
        unfold sem_wf
        simp only
        omega
      · rw [up_sem_pop sem exactly_one kt rest hn hw he, hwrap]
        refine ⟨?_, by simp, fun h0 => absurd hn (not_lt.mpr h0), fun _ =>
          ⟨kt, rest, rfl, rfl, Or.inl rfl⟩⟩
        unfold sem_wf
        simp only
        omega
  · have hw : sem.waiters = [] := by
      have : (sem.waiters.length : Int) = 0 := by omega
      exact List.length_eq_zero.mp (by exact_mod_cast this)
    have e : __up_sem sem exactly_one =
        ({ sem with nr_signals := sem.nr_signals + 1 }, result.returned none) := by
      simp [__up_sem, hn, hw, hwrap]
    rw [e]
    refine ⟨?_, by simp, fun _ => rfl, fun h0 => absurd h0 hn⟩
    unfold sem_wf
    simp only [hw, List.length_nil, Nat.cast_zero]
    omega

/-- Claim C23 (semaphore well-formedness invariant), evaluated where it fails.
    `init_sem(INT_MAX)` has a non-negative count and satisfies the predicate.
    `__up_sem` then finds a counter `>= 0` and an empty queue, returns no
    kthread, and increments the counter past `INT_MAX`: the counter is left at
    `INT_MIN` with an empty queue, where the predicate asks for `2^31` waiters.
    A second `__up_sem` finds a counter `< 0` and no head to remove. -/
theorem sem_wf_overflow_eval :
    0 ≤ INT_MAX ∧ int_range INT_MAX ∧
    sem_wf (init_sem INT_MAX) ∧
    __up_sem (init_sem INT_MAX) false = (⟨[], INT_MIN⟩, result.returned none) ∧
    ¬ sem_wf (__up_sem (init_sem INT_MAX) false).1 ∧
    (__up_sem (__up_sem (init_sem INT_MAX) false).1 false).2 = result.fault := by
  decide

/-! ## Order of the cores taken from the idle map -/

/-- The loop of lines 83-87 appends the last `d` of the first `n` slots of the
    idle map, the last slot first. -/
theorem grab_loop_fst (m : List Nat) (d n : Nat) (acc : List Nat)
    (hn : n ≤ m.length) (hd : d ≤ n) :
    (grab_loop m d n acc).1 = acc ++ ((m.take n).reverse.take d) := by
  induction d generalizing n acc with
  | zero => simp [grab_loop]
  | succ d ih =>
    obtain ⟨j, rfl⟩ : ∃ j, n = j + 1 := ⟨n - 1, by omega⟩
    have hj : j < m.length := by omega
    have e : m.take (j + 1) = m.take j ++ [m.getD j 0] := by
      rw [List.take_succ, List.getD_eq_getElem _ _ hj, List.getElem?_eq_getElem hj]
      rfl
    simp only [grab_loop, Nat.add_sub_cancel]
    rw [ih j _ (by omega) (by omega), e]
    simp [List.take_succ_cons]

theorem idle_pool_length (k : kernel) (h : pool_wf k) :
    (idle_pool k).length = k.num_idlecores := by
  unfold idle_pool pool_wf at *
  simp [h]

theorem idle_pool_set_num_idlecores (k : kernel) (n : Nat) (h : n ≤ k.num_idlecores) :
    idle_pool (set_num_idlecores k n) = (idle_pool k).take n := by
  unfold idle_pool set_num_idlecores
  simp [List.take_take, h]

theorem hand_over_calls (k : kernel) (l : List Nat) (n : Nat) :
    (hand_over k l n false).1.calls =
      k.calls ++ (ext_call.proc_give_cores l n :: ext_call.proc_unlock_ipi_pending ::
        (if k.p.state = proc_state.PROC_RUNNABLE_M then [ext_call.proc_run] else [])) := by
  unfold hand_over
  by_cases hs : k.p.state = proc_state.PROC_RUNNABLE_M <;> simp [log_call, hs]

theorem hand_over_running_s_calls (c : Params) (k : kernel) (l : List Nat) (n : Nat) :
    (hand_over (running_s_transition c k) l n true).1.calls =
      k.calls ++ [ext_call.env_push_ancillary_state, ext_call.proc_give_cores l n,
        ext_call.proc_unlock_ipi_pending, ext_call.proc_run, ext_call.proc_decref 1,
        ext_call.abandon_core] := by
  have hs : (running_s_transition c k).p.state = proc_state.PROC_RUNNABLE_M := by
    simp [running_s_transition, set_p, log_call, __proc_set_state]
  obtain ⟨-, -, -, hc⟩ := running_s_transition_frame c k
  unfold hand_over
  simp [log_call, hs, hc]

/-- The trace of the grant branch when it does not halt. -/
theorem give_out_calls (c : Params) (k : kernel) (l : List Nat) (n : Nat)
    (hnh : (give_out c k l n).2 ≠ outcome.halted) :
    (give_out c k l n).1.calls =
      if k.p.state = proc_state.PROC_RUNNING_S then
        k.calls ++ [ext_call.env_push_ancillary_state, ext_call.proc_give_cores l n,
          ext_call.proc_unlock_ipi_pending, ext_call.proc_run, ext_call.proc_decref 1,
          ext_call.abandon_core]
      else
        k.calls ++ (ext_call.proc_give_cores l n :: ext_call.proc_unlock_ipi_pending ::
          (if k.p.state = proc_state.PROC_RUNNABLE_M then [ext_call.proc_run] else [])) := by
  obtain ⟨-, -, a3, -, -, -, a7, -⟩ := add_granted_frame c k n
  by_cases hs : k.p.state = proc_state.PROC_RUNNING_S
  · rw [if_pos hs]
    by_cases hbad : k.current ≠ some k.p.pid ∨
        (k.p.vcoremap.getD 0 default).pcoreid ≠ k.core_id
    · rw [give_out_running_s_async c k l n hs hbad] at hnh
      exact absurd rfl hnh
    · have h1 : k.current = some k.p.pid := by
        by_contra h; exact hbad (Or.inl h)
      have h2 : (k.p.vcoremap.getD 0 default).pcoreid = k.core_id := by
        by_contra h; exact hbad (Or.inr h)
      rw [give_out_running_s c k l n hs h1 h2, hand_over_running_s_calls, a3]
  · rw [if_neg hs]
    by_cases hr : k.p.state = proc_state.PROC_RUNNABLE_S
    · rw [give_out_runnable_s c k l n hr] at hnh
      exact absurd rfl hnh
    · have e : give_out c k l n = hand_over (add_granted c k n) l n false := by
        unfold give_out
        simp only []
        split
        · rename_i h; rw [a7] at h; exact absurd h hs
        · rename_i h; rw [a7] at h; exact absurd h hr
        · rfl
      rw [e, hand_over_calls, a3, a7]

/-- The list that a grant of `d` cores hands out, slot by slot: entry `i` is the
    slot `n - 1 - i` of the idle map. -/
theorem reverse_take_getElem (k : kernel) (d i : Nat) (hwf : pool_wf k)
    (hd : d ≤ k.num_idlecores) (hi : i < d) :
    ((idle_pool k).reverse.take d)[i]? = k.idlecoremap[k.num_idlecores - 1 - i]? := by
  have hl := idle_pool_length k hwf
  unfold pool_wf at hwf
  rw [List.getElem?_take_of_lt hi, List.getElem?_reverse (by omega), hl]
  unfold idle_pool
  rw [List.getElem?_take_of_lt (by omega)]

/-- Effect of a grant on the idle map and on the trace. -/
theorem core_request_grant (c : Params) (k : kernel)
    (hin : in_table k.p c.RES_CORES)
    (hw : (res_at k.p c.RES_CORES).amt_wanted ≠ 0)
    (hd : 0 < amt_new c (res_at k.p c.RES_CORES))
    (hpool : amt_new c (res_at k.p c.RES_CORES) ≤ (k.num_idlecores : Int))
    (hwf : pool_wf k) :
    (core_request c k).1.idlecoremap = k.idlecoremap ∧
    (core_request c k).1.num_idlecores
      = k.num_idlecores - (amt_new c (res_at k.p c.RES_CORES)).toNat ∧
    ((core_request c k).2 ≠ outcome.halted →
      (core_request c k).1.calls =
        if k.p.state = proc_state.PROC_RUNNING_S then
          k.calls ++ [ext_call.env_push_ancillary_state,
            ext_call.proc_give_cores
              ((idle_pool k).reverse.take (amt_new c (res_at k.p c.RES_CORES)).toNat)
              (amt_new c (res_at k.p c.RES_CORES)).toNat,
            ext_call.proc_unlock_ipi_pending, ext_call.proc_run, ext_call.proc_decref 1,
            ext_call.abandon_core]
        else
          k.calls ++ (ext_call.proc_give_cores
              ((idle_pool k).reverse.take (amt_new c (res_at k.p c.RES_CORES)).toNat)
              (amt_new c (res_at k.p c.RES_CORES)).toNat ::
            ext_call.proc_unlock_ipi_pending ::
            (if k.p.state = proc_state.PROC_RUNNABLE_M then [ext_call.proc_run] else []))) := by
  have hL : (grab_loop k.idlecoremap (amt_new c (res_at k.p c.RES_CORES)).toNat
      k.num_idlecores []).1
      = (idle_pool k).reverse.take (amt_new c (res_at k.p c.RES_CORES)).toNat := by
    rw [grab_loop_fst _ _ _ _ hwf (by omega)]
    rfl
  rw [core_request_pos c k hin hw hd, if_pos hpool, hL]
  obtain ⟨g1, g2, -⟩ := give_out_frame c
    (set_num_idlecores k (k.num_idlecores - (amt_new c (res_at k.p c.RES_CORES)).toNat))
    ((idle_pool k).reverse.take (amt_new c (res_at k.p c.RES_CORES)).toNat)
    (amt_new c (res_at k.p c.RES_CORES)).toNat
  refine ⟨by rw [g1]; rfl, by rw [g2]; rfl, ?_⟩
  intro hnh
  rw [give_out_calls c _ _ _ hnh]
  rfl

/-- Claim C22 (LIFO, deterministic pool removal). With the idle pool the first
    `n = num_idlecores` slots `[c0..c(n-1)]` of the idle map and
    `0 < delta <= n`, a granting `core_request` leaves the idle map array
    untouched and the pool as its unchanged prefix of size `n - delta`; on
    every path that does not halt the kernel, the trace gains exactly one
    `__proc_give_cores` call, with `delta` as the count and with the list
    `reverse(pool)` cut to `delta` entries, that is entry `i` is slot
    `n - 1 - i`: `[c(n-1), c(n-2), ..., c(n-delta)]`. The list is a function of
    the pool contents and `delta` alone. -/
theorem core_request_lifo (c : Params) (k : kernel)
    (hin : in_table k.p c.RES_CORES)
    (hw : (res_at k.p c.RES_CORES).amt_wanted ≠ 0)
    (hd : 0 < amt_new c (res_at k.p c.RES_CORES))
    (hpool : amt_new c (res_at k.p c.RES_CORES) ≤ (k.num_idlecores : Int))
    (hwf : pool_wf k) :
    idle_pool (core_request c k).1
      = (idle_pool k).take (k.num_idlecores - (amt_new c (res_at k.p c.RES_CORES)).toNat) ∧
    (idle_pool (core_request c k).1).length
      = k.num_idlecores - (amt_new c (res_at k.p c.RES_CORES)).toNat ∧
    (core_request c k).1.num_idlecores
      = k.num_idlecores - (amt_new c (res_at k.p c.RES_CORES)).toNat ∧
    ((core_request c k).2 ≠ outcome.halted →
      (core_request c k).1.calls =
        if k.p.state = proc_state.PROC_RUNNING_S then
          k.calls ++ [ext_call.env_push_ancillary_state,
            ext_call.proc_give_cores
              ((idle_pool k).reverse.take (amt_new c (res_at k.p c.RES_CORES)).toNat)
              (amt_new c (res_at k.p c.RES_CORES)).toNat,
            ext_call.proc_unlock_ipi_pending, ext_call.proc_run, ext_call.proc_decref 1,
            ext_call.abandon_core]
        else
          k.calls ++ (ext_call.proc_give_cores
              ((idle_pool k).reverse.take (amt_new c (res_at k.p c.RES_CORES)).toNat)
              (amt_new c (res_at k.p c.RES_CORES)).toNat ::
            ext_call.proc_unlock_ipi_pending ::
            (if k.p.state = proc_state.PROC_RUNNABLE_M then [ext_call.proc_run] else []))) ∧
    ((idle_pool k).reverse.take (amt_new c (res_at k.p c.RES_CORES)).toNat).length
      = (amt_new c (res_at k.p c.RES_CORES)).toNat ∧
    (∀ i : Nat, i < (amt_new c (res_at k.p c.RES_CORES)).toNat →
      ((idle_pool k).reverse.take (amt_new c (res_at k.p c.RES_CORES)).toNat)[i]?
        = k.idlecoremap[k.num_idlecores - 1 - i]?) := by
  obtain ⟨h1, h2, h3⟩ := core_request_grant c k hin hw hd hpool hwf
  have hl := idle_pool_length k hwf
  have hp : idle_pool (core_request c k).1
      = (idle_pool k).take (k.num_idlecores - (amt_new c (res_at k.p c.RES_CORES)).toNat) := by
    unfold idle_pool
    rw [h1, h2, List.take_take]
    congr 1
    omega
  refine ⟨hp, ?_, h2, h3, ?_, ?_⟩
  · rw [hp, List.length_take, hl]
    omega
  · rw [List.length_take, List.length_reverse, hl]
    omega
  · intro i hi
    exact reverse_take_getElem k _ i hwf (by omega) hi

/-- Wanted 3, granted 1 and the pool `[10, 11, 12, 13]`: the cores 13 and 12 are
    handed out in this order and the pool `[10, 11]` is left. -/
theorem core_request_lifo_witness :
    idle_pool (core_request params32
      (mk_kernel (mk_proc proc_state.PROC_RUNNING_M 3 1) [10, 11, 12, 13])).1 = [10, 11] ∧
    (core_request params32
      (mk_kernel (mk_proc proc_state.PROC_RUNNING_M 3 1) [10, 11, 12, 13])).1.calls
      = [ext_call.proc_give_cores [13, 12] 2, ext_call.proc_unlock_ipi_pending] :=
  ⟨(core_request_lifo params32
      (mk_kernel (mk_proc proc_state.PROC_RUNNING_M 3 1) [10, 11, 12, 13])
      (by decide) (by decide) (by decide) (by decide) (by decide)).1,
   (core_request_lifo params32
      (mk_kernel (mk_proc proc_state.PROC_RUNNING_M 3 1) [10, 11, 12, 13])
      (by decide) (by decide) (by decide) (by decide) (by decide)).2.2.2.1 (by decide)⟩

/-! ## The sign of `amt_new` for large requests -/

/-- A request that exceeds the grant by `2 ^ (WORD_BITS - 1)` or more makes the
    `ssize_t` value `amt_new` negative. -/
theorem amt_new_neg_of_far (c : Params) (r : resource)
    (hw : r.amt_wanted < 2 ^ c.WORD_BITS)
    (hfar : r.amt_granted + 2 ^ (c.WORD_BITS - 1) ≤ r.amt_wanted) :
    amt_new c r < 0 := by
  have hw2 : (r.amt_wanted : Int) < (2 : Int) ^ c.WORD_BITS := by exact_mod_cast hw
  have hf2 : (r.amt_granted : Int) + (2 : Int) ^ (c.WORD_BITS - 1) ≤ (r.amt_wanted : Int) := by
    exact_mod_cast hfar
  have h0 : (0 : Int) ≤ (r.amt_granted : Int) := Int.ofNat_nonneg _
  unfold amt_new
  rw [to_ssize_of_ge_half c _ (by omega) (by omega)]
  omega

/-- Such a request is rejected like a shrink: `-EINVAL`, and `amt_wanted` is
    overwritten with `amt_granted`. -/
theorem core_request_far_rejected (c : Params) (k : kernel)
    (hin : in_table k.p c.RES_CORES)
    (hw : (res_at k.p c.RES_CORES).amt_wanted < 2 ^ c.WORD_BITS)
    (hfar : (res_at k.p c.RES_CORES).amt_granted + 2 ^ (c.WORD_BITS - 1)
      ≤ (res_at k.p c.RES_CORES).amt_wanted) :
    (core_request c k).2 = outcome.returned (-c.EINVAL) ∧
    (res_at (core_request c k).1.p c.RES_CORES).amt_wanted
      = (res_at k.p c.RES_CORES).amt_granted := by
  have hpos : 0 < 2 ^ (c.WORD_BITS - 1) := Nat.pow_pos (by decide)
  rw [core_request_neg c k hin (by omega) (amt_new_neg_of_far c _ hw hfar)]
  simp only [set_p]
  rw [res_at_set_res _ _ _ hin]
  exact ⟨trivial, rfl⟩

/-- Claim C24 (delta sign under machine arithmetic), evaluated where it fails.
    With 32-bit words, `amt_granted = 1` and `amt_wanted = 2^31 + 1`, so
    `amt_wanted > amt_granted` and `amt_wanted > 0`, the value `amt_new` is
    `-2^31`: `core_request` returns `-EINVAL` and overwrites `amt_wanted` with
    `amt_granted`. The same happens when the amount arrives through
    `resource_req`. -/
theorem core_request_delta_sign_eval :
    (res_at (mk_proc proc_state.PROC_RUNNING_M (2 ^ 31 + 1) 1) 0).amt_granted
      < (res_at (mk_proc proc_state.PROC_RUNNING_M (2 ^ 31 + 1) 1) 0).amt_wanted ∧
    cores_wf params32 (res_at (mk_proc proc_state.PROC_RUNNING_M (2 ^ 31 + 1) 1) 0) ∧
    amt_new params32 (res_at (mk_proc proc_state.PROC_RUNNING_M (2 ^ 31 + 1) 1) 0)
      = -(2 : Int) ^ 31 ∧
    (core_request params32
      (mk_kernel (mk_proc proc_state.PROC_RUNNING_M (2 ^ 31 + 1) 1) [10, 11])).2
      = outcome.returned (-params32.EINVAL) ∧
    (res_at (core_request params32
      (mk_kernel (mk_proc proc_state.PROC_RUNNING_M (2 ^ 31 + 1) 1) [10, 11])).1.p
      0).amt_wanted = 1 ∧
    (resource_req params32
      (mk_kernel (mk_proc proc_state.PROC_RUNNING_M 1 1) [10, 11]) 0 (2 ^ 31 + 1) 0 0).2
      = outcome.returned (-params32.EINVAL) ∧
    (res_at (resource_req params32
      (mk_kernel (mk_proc proc_state.PROC_RUNNING_M 1 1) [10, 11]) 0 (2 ^ 31 + 1) 0 0).1.p
      0).amt_wanted = 1 := by
  decide

/-- Claim C1 (all-or-nothing), evaluated where it fails. With 32-bit words,
    `amt_granted = 1`, `amt_wanted = 2^31 + 1` and two idle cores:
    `amt_wanted > 0`, the difference `amt_wanted - amt_granted = 2^31` is
    positive and the idle pool holds fewer cores than that, yet `core_request`
    does not return 0 and leave the state alone: it returns `-EINVAL` and
    overwrites `amt_wanted` with `amt_granted`. -/
theorem core_request_all_or_nothing_eval :
    0 < (res_at (mk_proc proc_state.PROC_RUNNING_M (2 ^ 31 + 1) 1) 0).amt_wanted ∧
    (0 : Int) < ((res_at (mk_proc proc_state.PROC_RUNNING_M (2 ^ 31 + 1) 1) 0).amt_wanted : Int)
      - ((res_at (mk_proc proc_state.PROC_RUNNING_M (2 ^ 31 + 1) 1) 0).amt_granted : Int) ∧
    ((mk_kernel (mk_proc proc_state.PROC_RUNNING_M (2 ^ 31 + 1) 1) [10, 11]).num_idlecores : Int)
      < ((res_at (mk_proc proc_state.PROC_RUNNING_M (2 ^ 31 + 1) 1) 0).amt_wanted : Int)
      - ((res_at (mk_proc proc_state.PROC_RUNNING_M (2 ^ 31 + 1) 1) 0).amt_granted : Int) ∧
    (core_request params32
      (mk_kernel (mk_proc proc_state.PROC_RUNNING_M (2 ^ 31 + 1) 1) [10, 11])).2
      ≠ outcome.returned 0 ∧
    (core_request params32
      (mk_kernel (mk_proc proc_state.PROC_RUNNING_M (2 ^ 31 + 1) 1) [10, 11])).2
      = outcome.returned (-params32.EINVAL) ∧
    (res_at (core_request params32
      (mk_kernel (mk_proc proc_state.PROC_RUNNING_M (2 ^ 31 + 1) 1) [10, 11])).1.p
      0).amt_wanted ≠
      (res_at (mk_proc proc_state.PROC_RUNNING_M (2 ^ 31 + 1) 1) 0).amt_wanted := by
  decide

/-! ## Index of the resource table in `resource_req` -/

/-- Lines 169-172 index `p->resources[type]` before `type` is looked at: a
    `type` outside the table is an access outside the array. -/
theorem resource_req_out_of_table (c : Params) (k : kernel) (type : Int)
    (w wmin f : Nat) (hin : ¬ in_table k.p type) :
    resource_req c k type w wmin f = (k, outcome.out_of_bounds) := by
  unfold resource_req
  simp only [hin, not_false_eq_true, if_true]

/-- Claim C25 (resource-table index safety), evaluated where it fails. On a
    table of three entries the kinds 3 and -1 are outside the table;
    `resource_req` reads and writes `p->resources[type]` at lines 169-172
    before the `switch` and so accesses memory outside the table instead of
    returning `-EINVAL`. The kinds 0, 1 and 2 stay inside the table. -/
theorem resource_req_index_eval :
    ¬ in_table (mk_proc proc_state.PROC_RUNNING_M 1 1) 3 ∧
    ¬ in_table (mk_proc proc_state.PROC_RUNNING_M 1 1) (-1) ∧
    (resource_req params32
      (mk_kernel (mk_proc proc_state.PROC_RUNNING_M 1 1) [10, 11]) 3 5 0 0).2
      = outcome.out_of_bounds ∧
    (resource_req params32
      (mk_kernel (mk_proc proc_state.PROC_RUNNING_M 1 1) [10, 11]) (-1) 5 0 0).2
      = outcome.out_of_bounds ∧
    (resource_req params32
      (mk_kernel (mk_proc proc_state.PROC_RUNNING_M 1 1) [10, 11]) 3 5 0 0).2
      ≠ outcome.returned (-params32.EINVAL) ∧
    (resource_req params32
      (mk_kernel (mk_proc proc_state.PROC_RUNNING_M 1 1) [10, 11]) 2 5 0 0).2
      = outcome.returned 0 := by
  decide

theorem attributed_grant (mine l : List Nat) (n : Nat) (b : Bool) :
    attributed mine (if b then
        [ext_call.env_push_ancillary_state, ext_call.proc_give_cores l n,
          ext_call.proc_unlock_ipi_pending, ext_call.proc_run, ext_call.proc_decref 1,
          ext_call.abandon_core]
      else
        ext_call.proc_give_cores l n :: ext_call.proc_unlock_ipi_pending :: [])
      = mine ++ l.take n := by
  cases b <;> rfl

/-- The same grant, evaluated: the list of attributed cores and the pool that
    is left. -/
theorem core_request_granted_count_eval :
    attributed [0]
      (new_calls (mk_kernel (mk_proc proc_state.PROC_RUNNING_M 3 1) [10, 11, 12, 13])
        (core_request params32
          (mk_kernel (mk_proc proc_state.PROC_RUNNING_M 3 1) [10, 11, 12, 13])).1)
      = [0, 13, 12] ∧
    idle_pool (core_request params32
      (mk_kernel (mk_proc proc_state.PROC_RUNNING_M 3 1) [10, 11, 12, 13])).1 = [10, 11] ∧
    (res_at (core_request params32
      (mk_kernel (mk_proc proc_state.PROC_RUNNING_M 3 1) [10, 11, 12, 13])).1.p
      params32.RES_CORES).amt_granted = 3 := by
  decide

/-- One sleeper and one wake-up from `init_sem(0)`: the predicate holds at every
    step. -/
theorem sem_wf_eval :
    sem_wf (init_sem 0) ∧
    sem_wf (__down_sem (init_sem 0) (some 7)).1 ∧
    sem_wf (__up_sem (__down_sem (init_sem 0) (some 7)).1 true).1 ∧
    (__up_sem (__down_sem (init_sem 0) (some 7)).1 true).2 = result.returned (some 7) := by
  decide

/-- A full deallocation from a core that is not one of the three cores of the
    process: the call returns 0, no core is attributed to the process, the
    cores 0, 1 and 2 are reclaimed and `amt_granted` is 0. -/
theorem core_request_granted_count_dealloc_eval :
    (core_request params32
      (mk_kernel_at (mk_mcp 0) [10, 11] 7)).2
      = outcome.returned 0 ∧
    attributed [0, 1, 2]
      (new_calls (mk_kernel_at (mk_mcp 0) [10, 11] 7)
        (core_request params32
          (mk_kernel_at (mk_mcp 0) [10, 11] 7)).1) = [] ∧
    reclaimed [0, 1, 2]
      (new_calls (mk_kernel_at (mk_mcp 0) [10, 11] 7)
        (core_request params32
          (mk_kernel_at (mk_mcp 0) [10, 11] 7)).1)
      = [0, 1, 2] ∧
    (res_at (core_request params32
      (mk_kernel_at (mk_mcp 0) [10, 11] 7)).1.p
      params32.RES_CORES).amt_granted = 0 := by
  decide

/-- With a null kthread `__down_sem` decrements the counter and queues nothing:
    the invariant is lost. -/
theorem sem_wf_down_null_eval :
    sem_wf (init_sem 0) ∧ ¬ sem_wf (__down_sem (init_sem 0) none).1 := by
  decide

end Akaros
